import Mathlib

/-!
# The EC exception library (calebcase/ec)

A shallow embedding of `src/src/ec.c` and of the control macros of
`src/include/ec/ec.h`.

* The per-thread `struct ec` is the record `ec`; the library functions that do
  not call through a function pointer are plain functions on it.
* Client code is a small statement language `Stmt` whose constructors are the
  macros of `ec.h` (`ec_try`, `ec_catch_a`, `ec_catch`, `ec_finally`,
  `ec_throw`, `ec_rethrow`, `ec_with`, `ec_with_on_x`) and the library calls
  that invoke function pointers (`ec_set_error`, `ec_unwind`, `ec_clean`).
* `exec` runs a statement. `siglongjmp` is the outcome `jump`, `abort()` the
  outcome `abort`; a function pointer may run arbitrary client code, so `exec`
  takes fuel and every step costs one unit.
* What the outside world can see is collected in a log of events: every call
  through a function pointer, every line written to `stderr`, and the context
  seen by client code at a `probe`.
* The payload printers of the library pass the payload to `%s`. For a payload
  that is not a string that is undefined behaviour, the outcome `undefined`.
-/

namespace EC

/-! ## Data model -/

/-- A category marker, a `const char []` object: the address is its identity,
the text is what `%s` prints. -/
structure Cat where
  addr : Nat
  text : String
deriving DecidableEq

/-- The C comparison `a == b` of two `const char *` values (`none` is `NULL`):
only the addresses are compared. -/
def same_type (a b : Option Cat) : Bool :=
  match a, b with
  | none, none => true
  | some x, some y => x.addr == y.addr
  | _, _ => false

/-- A `void *` payload: `NULL`, the address of some object, the address of a
NUL-terminated string with its text, or the address of the two-element array
`ec_types_` built by `ec_shadow_on_x_with`, given by its contents. -/
inductive Val where
  | null
  | obj (addr : Nat)
  | str (addr : Nat) (text : String)
  | types (ot nt : Option Cat)
deriving DecidableEq

/-- A `void (*)(void *)` function pointer (`ec_unwind_f`, `data_cleanup`):
`free`, the library's `ec_shadow`, or a function of the client program. -/
inductive FnPtr where
  | free
  | ec_shadow
  | user (id : Nat)
deriving DecidableEq

/-- A `void (*)(FILE *, void *)` function pointer (`data_fprint`). -/
inductive Printer where
  | ec_fprint_str
  | ec_fprint_errno_str
  | user (id : Nat)
deriving DecidableEq

/-- The record `struct ec_winding`; the link `next` is the tail of the list
that holds the record. -/
structure ec_winding where
  data : Val
  unwind : FnPtr
deriving DecidableEq

/-- The field `error` of `struct ec`. -/
structure ec_error where
  type : Option Cat
  data : Val
  data_cleanup : Option FnPtr
  data_fprint : Option Printer
deriving DecidableEq

/-- The field `place` of `struct ec`. -/
structure ec_place where
  file : Option String
  function : Option String
  line : Nat
deriving DecidableEq

/-- The error stack `struct ec` (`include/ec/static/ec.h`). `env` is the address
of a jump buffer, `winding` the linked list of windings from its head. -/
structure ec where
  env : Option Nat
  winding : List ec_winding
  error : ec_error
  place : ec_place
deriving DecidableEq

/-- The initial value of the per-thread `ec_stack`. -/
def ec_stack : ec :=
  { env := none
    winding := []
    error := { type := none, data := Val.null, data_cleanup := none, data_fprint := none }
    place := { file := none, function := none, line := 0 } }

/-- The enumeration `enum ec_unwind_amount`. -/
inductive ec_unwind_amount where
  | EC_UNWIND_ALL
  | EC_UNWIND_ONE
  | EC_UNWIND_DISCARD_ONE
deriving DecidableEq

/-- What can be observed from outside the library. -/
inductive Event where
  | call (f : FnPtr) (arg : Val)
  | stderr (text : String)
  | probe (id : Nat) (seen : ec)
deriving DecidableEq

/-- The state of a thread: its error stack and the events so far. -/
structure World where
  ctx : ec
  log : List Event
deriving DecidableEq

/-- The clauses that follow the block of an `ec_try`: any number of
`ec_catch_a (t, d)`, closed by `ec_catch` or `ec_finally`. The block of an
`ec_catch_a` may use the variable `d`. -/
inductive Clauses (S : Type) where
  | ec_catch_a (t : Option Cat) (block : Val → S) (rest : Clauses S)
  | ec_catch (block : S)
  | ec_finally (block : S)

/-- Client code. -/
inductive Stmt where
  | skip
  | seq (a b : Stmt)
  | probe (id : Nat)
  | call (f : FnPtr) (arg : Val)
  | ec_set_error (type : Option Cat) (data : Val) (data_cleanup : Option FnPtr)
      (data_fprint : Option Printer)
  | ec_set_place (file function : String) (line : Nat)
  | ec_unwind (amount : ec_unwind_amount)
  | ec_clean
  | ec_fprint
  | ec_throw (t : Option Cat) (c : Option FnPtr) (p : Option Printer) (data : Val)
      (file function : String) (line : Nat)
  | ec_rethrow
  | ec_try (block : Stmt) (clauses : Clauses Stmt)
  | ec_with (d : Val) (u : FnPtr) (block : Stmt)
  | ec_with_on_x (d : Val) (u : FnPtr) (block : Stmt)

/-- The client program: the bodies of its `void (*)(void *)` functions, the
text written by its payload printers, and the text of `strerror (errno)`. -/
structure Program where
  code : Nat → Val → Stmt
  text : Nat → Val → String
  strerror : String

/-- How a statement ends: it returns, it is leaving through `siglongjmp` to the
buffer `w.ctx.env`, the process was aborted, the library dereferenced a `NULL`
pointer (`ec_unwind` on an empty stack, `ec_shadow` without its array), a
payload printer was given a pointer that `%s` cannot print (undefined
behaviour), or the fuel ran out. -/
inductive Outcome where
  | normal (w : World)
  | jump (w : World)
  | abort (w : World)
  | fault
  | undefined
  | timeout
deriving DecidableEq

/-! ## Library functions of `ec.c` that call no function pointer -/

/-- The function `ec_winding_init_and_wind`; the record `winding` is new. -/
def ec_winding_init_and_wind (data : Val) (unwind : FnPtr) (s : ec) : Nat × ec :=
  (1, { s with winding := { data := data, unwind := unwind } :: s.winding })

/-- The function `ec_swap_env`. -/
def ec_swap_env (env : Option Nat) (s : ec) : Option Nat × ec :=
  (s.env, { s with env := env })

/-- The function `ec_swap_winding`. -/
def ec_swap_winding (winding : List ec_winding) (s : ec) : List ec_winding × ec :=
  (s.winding, { s with winding := winding })

/-- The function `ec_env`. -/
def ec_env (env : Option Nat) (s : ec) : Option Nat × ec :=
  let s1 := if env.isSome then { s with env := env } else s
  (s1.env, s1)

/-- The function `ec_type`. -/
def ec_type (type : Option Cat) (s : ec) : Option Cat × ec :=
  let s1 := if type.isSome then { s with error := { s.error with type := type } } else s
  (s1.error.type, s1)

/-- The function `ec_get_data`. -/
def ec_get_data (s : ec) : Val := s.error.data

/-- The function `ec_get_file`. -/
def ec_get_file (s : ec) : Option String := s.place.file

/-- The function `ec_get_function`. -/
def ec_get_function (s : ec) : Option String := s.place.function

/-- The function `ec_get_line`. -/
def ec_get_line (s : ec) : Nat := s.place.line

/-- The function `ec_set_place`. -/
def ec_set_place (file function : String) (line : Nat) (s : ec) : ec :=
  { s with place := { file := some file, function := some function, line := line } }

/-- The assignments at the end of `ec_clean`, after the payload cleanup. -/
def ec_clean_fields (s : ec) : ec :=
  { s with
    error := { type := none, data := Val.null, data_cleanup := none, data_fprint := none }
    place := { file := none, function := none, line := 0 } }

/-- What `%s` prints for a string pointer. -/
def fmt_s (s : Option String) : String := s.getD "(null)"

/-- The text of a payload read as a C string. -/
def Val.cstr : Val → Option String
  | Val.str _ t => some t
  | _ => none

/-- The function `ec_fprint_str`, `fprintf (stream, "%s", data)` with no test of
`data`: the text written when `data` is a string. For `NULL` and for an object
that is not a string the call has undefined behaviour, which is `none`. -/
def ec_fprint_str (data : Val) : Option String := data.cstr

/-- The function `ec_fprint_errno_str`: it writes `strerror (errno)` and, when
`data` is not `NULL`, a blank and `data` with `%s`. For an object that is not a
string the call has undefined behaviour, which is `none`. -/
def ec_fprint_errno_str (P : Program) (data : Val) : Option String :=
  match data with
  | Val.null => some P.strerror
  | Val.str _ t => some (P.strerror ++ " " ++ t)
  | _ => none

/-- A call through a `data_fprint` pointer: the text written, `none` when the
behaviour of the call is undefined. -/
def Printer.run (P : Program) : Printer → Val → Option String
  | Printer.ec_fprint_str, d => EC.ec_fprint_str d
  | Printer.ec_fprint_errno_str, d => EC.ec_fprint_errno_str P d
  | Printer.user id, d => some (P.text id d)

/-- The line that `ec_fprint` writes when the payload printer, if there is one,
has written `text`. -/
def ec_fprint_line (s : ec) (text : Option String) : String :=
  fmt_s s.place.file ++ ":" ++ toString s.place.line ++ ": " ++ fmt_s s.place.function
    ++ ": Exception(" ++ fmt_s (s.error.type.map Cat.text) ++ ")"
    ++ (match text with
        | some t => " " ++ t
        | none => "")
    ++ "\n"

/-- The function `ec_fprint`: the text written to the stream, `none` when the
payload printer that it calls has undefined behaviour. -/
def ec_fprint (P : Program) (s : ec) : Option String :=
  match s.error.data_fprint with
  | some p =>
      match p.run P s.error.data with
      | some t => some (ec_fprint_line s (some t))
      | none => none
  | none => some (ec_fprint_line s none)

/-- The function `ec_shadow`. -/
def ec_shadow (types : Option Cat × Option Cat) (s : ec) : ec :=
  if same_type (ec_type none s).1 types.1 then (ec_type types.2 s).2 else s

/-! ## The macros of `ec.h` -/

/-- The block of the first clause entered for the pending type `t`: the first
`ec_catch_a` whose type is `t`, else the `ec_catch`; none under `ec_finally`. -/
def Clauses.select {S : Type} (t : Option Cat) : Clauses S → Option (Val → S)
  | Clauses.ec_catch_a t1 block rest =>
      if same_type t1 t then some block else Clauses.select t rest
  | Clauses.ec_catch block => some (fun _ => block)
  | Clauses.ec_finally _ => none

/-- The block of the closing `ec_finally`, if the clauses end in one. -/
def Clauses.finally_block {S : Type} : Clauses S → Option S
  | Clauses.ec_catch_a _ _ rest => Clauses.finally_block rest
  | Clauses.ec_catch _ => none
  | Clauses.ec_finally block => some block

/-- Adds an event to the log. -/
def World.emit (w : World) (e : Event) : World :=
  { w with log := w.log ++ [e] }

/-- Replaces the error stack. -/
def World.set (w : World) (s : ec) : World :=
  { w with ctx := s }

/-- Runs a statement with a given amount of fuel. `depth` counts the `ec_try`
constructs whose jump buffer `ec_env_` is live; the buffer of an `ec_try` that
is entered at depth `k` has the address `k + 1`. -/
def exec (P : Program) : Nat → Nat → Stmt → World → Outcome
  | 0, _, _, _ => Outcome.timeout
  | n + 1, depth, stmt, w =>
    match stmt with
    | Stmt.skip => Outcome.normal w
    | Stmt.seq a b =>
        match exec P n depth a w with
        | Outcome.normal w1 => exec P n depth b w1
        | o => o
    | Stmt.probe id => Outcome.normal (w.emit (Event.probe id w.ctx))
    | Stmt.call f arg =>
        let w1 := w.emit (Event.call f arg)
        match f with
        | FnPtr.free => Outcome.normal w1
        | FnPtr.ec_shadow =>
            match arg with
            | Val.types ot nt => Outcome.normal (w1.set (ec_shadow (ot, nt) w1.ctx))
            | _ => Outcome.fault
        | FnPtr.user id => exec P n depth (P.code id arg) w1
    | Stmt.ec_set_error type data data_cleanup data_fprint =>
        let assign := fun (w1 : World) =>
          w1.set { w1.ctx with
            error := { type := type, data := data, data_cleanup := data_cleanup,
                       data_fprint := data_fprint } }
        if w.ctx.error.type.isSome then
          -- ec_fprint(stderr), then the cleanup of the old data
          match ec_fprint P w.ctx with
          | none => Outcome.undefined
          | some text =>
              let w1 := w.emit (Event.stderr text)
              match w1.ctx.error.data_cleanup with
              | some f =>
                  match exec P n depth (Stmt.call f w1.ctx.error.data) w1 with
                  | Outcome.normal w2 => Outcome.normal (assign w2)
                  | o => o
              | none => Outcome.normal (assign w1)
        else Outcome.normal (assign w)
    | Stmt.ec_set_place file function line =>
        Outcome.normal (w.set (ec_set_place file function line w.ctx))
    | Stmt.ec_unwind amount =>
        match amount with
        | ec_unwind_amount.EC_UNWIND_DISCARD_ONE =>
            match w.ctx.winding with
            | [] => Outcome.fault
            | _ :: next => Outcome.normal (w.set { w.ctx with winding := next })
        | ec_unwind_amount.EC_UNWIND_ONE =>
            match w.ctx.winding with
            | [] => Outcome.fault
            | head :: next =>
                exec P n depth (Stmt.call head.unwind head.data)
                  (w.set { w.ctx with winding := next })
        | ec_unwind_amount.EC_UNWIND_ALL =>
            match w.ctx.winding with
            | [] => Outcome.normal w
            | head :: next =>
                match exec P n depth (Stmt.call head.unwind head.data)
                    (w.set { w.ctx with winding := next }) with
                | Outcome.normal w1 =>
                    exec P n depth (Stmt.ec_unwind ec_unwind_amount.EC_UNWIND_ALL) w1
                | o => o
    | Stmt.ec_clean =>
        match w.ctx.error.data_cleanup with
        | some f =>
            match exec P n depth (Stmt.call f w.ctx.error.data) w with
            | Outcome.normal w1 => Outcome.normal (w1.set (ec_clean_fields w1.ctx))
            | o => o
        | none => Outcome.normal (w.set (ec_clean_fields w.ctx))
    | Stmt.ec_fprint =>
        match ec_fprint P w.ctx with
        | none => Outcome.undefined
        | some text => Outcome.normal (w.emit (Event.stderr text))
    | Stmt.ec_throw t c p data file function line =>
        match exec P n depth (Stmt.ec_set_error t data c p) w with
        | Outcome.normal w1 =>
            let w2 := w1.set (ec_set_place file function line w1.ctx)
            match exec P n depth (Stmt.ec_unwind ec_unwind_amount.EC_UNWIND_ALL) w2 with
            | Outcome.normal w3 =>
                if (ec_env none w3.ctx).1 = none then
                  match ec_fprint P w3.ctx with
                  | none => Outcome.undefined
                  | some text =>
                      let w4 := w3.emit (Event.stderr text)
                      let w5 := w4.emit (Event.stderr "Error stack empty: Abort!\n")
                      match exec P n depth Stmt.ec_clean w5 with
                      | Outcome.normal w6 => Outcome.abort w6
                      | o => o
                else Outcome.jump w3
            | o => o
        | o => o
    | Stmt.ec_rethrow =>
        if ((ec_type none w.ctx).1).isSome then
          if (ec_env none w.ctx).1 = none then
            match exec P n depth (Stmt.ec_unwind ec_unwind_amount.EC_UNWIND_ALL) w with
            | Outcome.normal w1 =>
                match ec_fprint P w1.ctx with
                | none => Outcome.undefined
                | some text =>
                    let w2 := w1.emit (Event.stderr text)
                    Outcome.abort (w2.emit (Event.stderr "Error stack empty: Abort!\n"))
            | o => o
          else
            match exec P n depth (Stmt.ec_unwind ec_unwind_amount.EC_UNWIND_ALL) w with
            | Outcome.normal w1 => Outcome.jump w1
            | o => o
        else Outcome.normal w
    | Stmt.ec_try block clauses =>
        -- ec_penv_ = ec_swap_env(&ec_env_), ec_pwinding_ = ec_swap_winding(NULL)
        let r1 := ec_swap_env (some (depth + 1)) w.ctx
        let ec_penv_ := r1.1
        let r2 := ec_swap_winding [] r1.2
        let ec_pwinding_ := r2.1
        let restore := fun (w1 : World) =>
          w1.set (ec_swap_winding ec_pwinding_ (ec_swap_env ec_penv_ w1.ctx).2).2
        let after := fun (w1 : World) =>
          match clauses.finally_block with
          | some block1 => exec P n depth (Stmt.seq block1 Stmt.ec_clean) w1
          | none => Outcome.normal w1
        -- sigsetjmp returns 0
        match exec P n (depth + 1) block (w.set r2.2) with
        | Outcome.normal w1 => after (restore w1)
        | Outcome.jump w1 =>
            if w1.ctx.env = some (depth + 1) then
              -- siglongjmp to ec_env_: sigsetjmp returns again, not 0
              match clauses.select (ec_type none w1.ctx).1 with
              | some block1 =>
                  let w2 := restore w1
                  match exec P n (depth + 1)
                      (Stmt.seq (block1 (ec_get_data w2.ctx)) Stmt.ec_clean) w2 with
                  | Outcome.normal w3 => after w3
                  | o => o
              | none => after (restore w1)
            else Outcome.jump w1
        | o => o
    | Stmt.ec_with d u block =>
        match exec P n depth block (w.set (ec_winding_init_and_wind d u w.ctx).2) with
        | Outcome.normal w1 =>
            exec P n depth (Stmt.ec_unwind ec_unwind_amount.EC_UNWIND_ONE) w1
        | o => o
    | Stmt.ec_with_on_x d u block =>
        match exec P n depth block (w.set (ec_winding_init_and_wind d u w.ctx).2) with
        | Outcome.normal w1 =>
            exec P n depth (Stmt.ec_unwind ec_unwind_amount.EC_UNWIND_DISCARD_ONE) w1
        | o => o

/-- The macro `ec_shadow_on_x_with`. -/
def ec_shadow_on_x_with (ot nt : Option Cat) (s : FnPtr) (block : Stmt) : Stmt :=
  Stmt.ec_with_on_x (Val.types ot nt) s block

/-- The macro `ec_shadow_on_x`. -/
def ec_shadow_on_x (ot nt : Option Cat) (block : Stmt) : Stmt :=
  ec_shadow_on_x_with ot nt FnPtr.ec_shadow block

/-- The macro `ec_throw_str`. -/
def ec_throw_str (t : Option Cat) (data : Val) (file function : String) (line : Nat) : Stmt :=
  Stmt.ec_throw t (some FnPtr.free) (some Printer.ec_fprint_str) data file function line

/-- The macro `ec_throw_str_static`. -/
def ec_throw_str_static (t : Option Cat) (d : String) (addr : Nat)
    (file function : String) (line : Nat) : Stmt :=
  Stmt.ec_throw t none (some Printer.ec_fprint_str) (Val.str addr d) file function line

/-! ## Vocabulary of the statements -/

/-- The call `f (d)` returns and leaves the error stack as it found it: a
cleanup action that does not throw. -/
def Quiet (P : Program) (f : FnPtr) (d : Val) : Prop :=
  ∀ n depth w, exec P (n + 2) depth (Stmt.call f d) w = Outcome.normal (w.emit (Event.call f d))

/-- One guard: `ec_with (d, u)`, or `ec_with_on_x (d, u)` when `on_x` is set. -/
structure Guard where
  on_x : Bool
  d : Val
  u : FnPtr
deriving DecidableEq

/-- The guard around a block. -/
def Guard.stmt (g : Guard) (block : Stmt) : Stmt :=
  if g.on_x then Stmt.ec_with_on_x g.d g.u block else Stmt.ec_with g.d g.u block

/-- The winding that the guard registers. -/
def Guard.record (g : Guard) : ec_winding :=
  { data := g.d, unwind := g.u }

/-- The invocation of the guard's action on its own payload. -/
def Guard.event (g : Guard) : Event :=
  Event.call g.u g.d

/-- Guards nested around a block, the outermost (registered first) first. -/
def nest : List Guard → Stmt → Stmt
  | [], block => block
  | g :: gs, block => g.stmt (nest gs block)

/-- The winding stack inside the innermost of the nested guards. -/
def wound (gs : List Guard) (w : World) : World :=
  w.set { w.ctx with winding := gs.reverse.map Guard.record ++ w.ctx.winding }

/-- The clauses `ec_catch_a (t1, d1) ... ec_catch_a (tn, dn) ec_catch`. -/
def catch_chain : List (Cat × (Val → Stmt)) → Stmt → Clauses Stmt
  | [], last => Clauses.ec_catch last
  | tb :: rest, last => Clauses.ec_catch_a (some tb.1) tb.2 (catch_chain rest last)

/-- The error stack on entry to the block of an `ec_try` at depth `depth`. -/
def try_entry (depth : Nat) (w : World) : World :=
  w.set (ec_swap_winding [] (ec_swap_env (some (depth + 1)) w.ctx).2).2

/-- The error stack with the continuation and the winding head that an
`ec_try` entered in `w` puts back. -/
def try_restore (w w1 : World) : World :=
  w1.set (ec_swap_winding w.ctx.winding (ec_swap_env w.ctx.env w1.ctx).2).2

/-- The error stack right after `ec_set_error` and `ec_set_place` of a throw. -/
def thrown (t : Option Cat) (c : Option FnPtr) (p : Option Printer) (data : Val)
    (file function : String) (line : Nat) (s : ec) : ec :=
  ec_set_place file function line
    { s with error := { type := t, data := data, data_cleanup := c, data_fprint := p } }

/-- The invocation of a payload cleanup, when one is registered. -/
def cleanup_events (c : Option FnPtr) (data : Val) : List Event :=
  match c with
  | some f => [Event.call f data]
  | none => []

/-- The winding stack after `ec_winding_init_and_wind` has been called for each
of the records, in the order of the list. -/
def wind_all (rs : List ec_winding) (s : ec) : ec :=
  rs.foldl (fun s1 r => (ec_winding_init_and_wind r.data r.unwind s1).2) s

/-- The invocation of the action of a winding on its own payload. -/
def ec_winding.event (r : ec_winding) : Event :=
  Event.call r.unwind r.data

/-! ## Sample data -/

/-- The marker `ECX_EC`. -/
def ECX_EC : Cat := { addr := 1, text := "Generic" }

/-- The marker `ECX_NULL`. -/
def ECX_NULL : Cat := { addr := 2, text := "NULL" }

/-- A client program whose own functions do nothing. -/
def P0 : Program :=
  { code := fun _ _ => Stmt.skip, text := fun _ _ => "", strerror := "" }

/-- A client program with the action `with_free_x` of `test/check/with.c` as
its function 1: it throws. Its other functions do nothing. -/
def P1 : Program :=
  { code := fun id _ =>
      if id = 1 then
        ec_throw_str_static (some ECX_EC) "Failed to be free? Impossible!" 40
          "with.c" "with_free_x" 40
      else Stmt.skip
    text := fun _ _ => ""
    strerror := "" }

/-- A client program whose function 1 looks at the error stack and then throws,
as a cleanup action that fails. Its other functions do nothing. -/
def P2 : Program :=
  { code := fun id _ =>
      if id = 1 then
        Stmt.seq (Stmt.probe 9)
          (ec_throw_str_static (some ECX_NULL) "Failed to be free? Impossible!" 40
            "with.c" "with_free_x" 40)
      else Stmt.skip
    text := fun _ _ => ""
    strerror := "" }

/-- A thread that has not used the library yet. -/
def W0 : World :=
  { ctx := ec_stack, log := [] }

/-! ## Exception types and `ec_errno_type` -/

/-- The constants of `errno.h` for which `ec.h` declares a marker. -/
inductive Errno where
  | E2BIG | EACCES | EADDRINUSE | EADDRNOTAVAIL | EAFNOSUPPORT | EAGAIN | EALREADY | EBADF
  | EBADMSG | EBUSY | ECANCELED | ECHILD | ECONNABORTED | ECONNREFUSED | ECONNRESET | EDEADLK
  | EDESTADDRREQ | EDOM | EDQUOT | EEXIST | EFAULT | EFBIG | EHOSTUNREACH | EIDRM | EILSEQ
  | EINPROGRESS | EINTR | EINVAL | EIO | EISCONN | EISDIR | ELOOP | EMFILE | EMLINK | EMSGSIZE
  | EMULTIHOP | ENAMETOOLONG | ENETDOWN | ENETRESET | ENETUNREACH | ENFILE | ENOBUFS | ENODATA
  | ENODEV | ENOENT | ENOEXEC | ENOLCK | ENOLINK | ENOMEM | ENOMSG | ENOPROTOOPT | ENOSPC | ENOSR
  | ENOSTR | ENOSYS | ENOTCONN | ENOTDIR | ENOTEMPTY | ENOTSOCK | ENOTSUP | ENOTTY | ENXIO
  | EOPNOTSUPP | EOVERFLOW | EPERM | EPIPE | EPROTO | EPROTONOSUPPORT | EPROTOTYPE | ERANGE
  | EROFS | ESPIPE | ESRCH | ESTALE | ETIME | ETIMEDOUT | ETXTBSY | EWOULDBLOCK | EXDEV
deriving DecidableEq

/-! The markers of `ec.c`, each with the text it is defined with. `ECX_EC` and `ECX_NULL`
are above; distinct objects have distinct addresses. -/

/-- The marker `ECX_E2BIG`. -/
def ECX_E2BIG : Cat := { addr := 3, text := "E2BIG" }

/-- The marker `ECX_EACCES`. -/
def ECX_EACCES : Cat := { addr := 4, text := "EACCESS" }

/-- The marker `ECX_EADDRINUSE`. -/
def ECX_EADDRINUSE : Cat := { addr := 5, text := "EADDRINUSE" }

/-- The marker `ECX_EADDRNOTAVAIL`. -/
def ECX_EADDRNOTAVAIL : Cat := { addr := 6, text := "EADDRNOTAVAIL" }

/-- The marker `ECX_EAFNOSUPPORT`. -/
def ECX_EAFNOSUPPORT : Cat := { addr := 7, text := "EAFNOSUPPORT" }

/-- The marker `ECX_EAGAIN`. -/
def ECX_EAGAIN : Cat := { addr := 8, text := "EAGAIN" }

/-- The marker `ECX_EALREADY`. -/
def ECX_EALREADY : Cat := { addr := 9, text := "EALREADY" }

/-- The marker `ECX_EBADF`. -/
def ECX_EBADF : Cat := { addr := 10, text := "EBADF" }

/-- The marker `ECX_EBADMSG`. -/
def ECX_EBADMSG : Cat := { addr := 11, text := "EBADMSG" }

/-- The marker `ECX_EBUSY`. -/
def ECX_EBUSY : Cat := { addr := 12, text := "EBUSY" }

/-- The marker `ECX_ECANCELED`. -/
def ECX_ECANCELED : Cat := { addr := 13, text := "ECANCELED" }

/-- The marker `ECX_ECHILD`. -/
def ECX_ECHILD : Cat := { addr := 14, text := "ECHILD" }

/-- The marker `ECX_ECONNABORTED`. -/
def ECX_ECONNABORTED : Cat := { addr := 15, text := "ECONNABORTED" }

/-- The marker `ECX_ECONNREFUSED`. -/
def ECX_ECONNREFUSED : Cat := { addr := 16, text := "ECONNREFUSED" }

/-- The marker `ECX_ECONNRESET`. -/
def ECX_ECONNRESET : Cat := { addr := 17, text := "ECONNRESET" }

/-- The marker `ECX_EDEADLK`. -/
def ECX_EDEADLK : Cat := { addr := 18, text := "EDEADLK" }

/-- The marker `ECX_EDESTADDRREQ`. -/
def ECX_EDESTADDRREQ : Cat := { addr := 19, text := "EDESTADDRREQ" }

/-- The marker `ECX_EDOM`. -/
def ECX_EDOM : Cat := { addr := 20, text := "EDOM" }

/-- The marker `ECX_EDQUOT`. -/
def ECX_EDQUOT : Cat := { addr := 21, text := "EDQUOT" }

/-- The marker `ECX_EEXIST`. -/
def ECX_EEXIST : Cat := { addr := 22, text := "EEXIST" }

/-- The marker `ECX_EFAULT`. -/
def ECX_EFAULT : Cat := { addr := 23, text := "EFAULT" }

/-- The marker `ECX_EFBIG`. -/
def ECX_EFBIG : Cat := { addr := 24, text := "EFBIG" }

/-- The marker `ECX_EHOSTUNREACH`. -/
def ECX_EHOSTUNREACH : Cat := { addr := 25, text := "EHOSTUNREACH" }

/-- The marker `ECX_EIDRM`. -/
def ECX_EIDRM : Cat := { addr := 26, text := "EIDRM" }

/-- The marker `ECX_EILSEQ`. -/
def ECX_EILSEQ : Cat := { addr := 27, text := "EILSEQ" }

/-- The marker `ECX_EINPROGRESS`. -/
def ECX_EINPROGRESS : Cat := { addr := 28, text := "EINPROGRESS" }

/-- The marker `ECX_EINTR`. -/
def ECX_EINTR : Cat := { addr := 29, text := "EINTR" }

/-- The marker `ECX_EINVAL`. -/
def ECX_EINVAL : Cat := { addr := 30, text := "EINVAL" }

/-- The marker `ECX_EIO`. -/
def ECX_EIO : Cat := { addr := 31, text := "EIO" }

/-- The marker `ECX_EISCONN`. -/
def ECX_EISCONN : Cat := { addr := 32, text := "EISCONN" }

/-- The marker `ECX_EISDIR`. -/
def ECX_EISDIR : Cat := { addr := 33, text := "EISDIR" }

/-- The marker `ECX_ELOOP`. -/
def ECX_ELOOP : Cat := { addr := 34, text := "ELOOP" }

/-- The marker `ECX_EMFILE`. -/
def ECX_EMFILE : Cat := { addr := 35, text := "EMFILE" }

/-- The marker `ECX_EMLINK`. -/
def ECX_EMLINK : Cat := { addr := 36, text := "EMLINK" }

/-- The marker `ECX_EMSGSIZE`. -/
def ECX_EMSGSIZE : Cat := { addr := 37, text := "EMSGSIZE" }

/-- The marker `ECX_EMULTIHOP`. -/
def ECX_EMULTIHOP : Cat := { addr := 38, text := "EMULTIHOP" }

/-- The marker `ECX_ENAMETOOLONG`. -/
def ECX_ENAMETOOLONG : Cat := { addr := 39, text := "ENAMETOOLONG" }

/-- The marker `ECX_ENETDOWN`. -/
def ECX_ENETDOWN : Cat := { addr := 40, text := "ENETDOWN" }

/-- The marker `ECX_ENETRESET`. -/
def ECX_ENETRESET : Cat := { addr := 41, text := "ENETRESET" }

/-- The marker `ECX_ENETUNREACH`. -/
def ECX_ENETUNREACH : Cat := { addr := 42, text := "ENETUNREACH" }

/-- The marker `ECX_ENFILE`. -/
def ECX_ENFILE : Cat := { addr := 43, text := "ENFILE" }

/-- The marker `ECX_ENOBUFS`. -/
def ECX_ENOBUFS : Cat := { addr := 44, text := "ENOBUFS" }

/-- The marker `ECX_ENODATA`. -/
def ECX_ENODATA : Cat := { addr := 45, text := "ENODATA" }

/-- The marker `ECX_ENODEV`. -/
def ECX_ENODEV : Cat := { addr := 46, text := "ENODEV" }

/-- The marker `ECX_ENOENT`. -/
def ECX_ENOENT : Cat := { addr := 47, text := "ENOENT" }

/-- The marker `ECX_ENOEXEC`. -/
def ECX_ENOEXEC : Cat := { addr := 48, text := "ENOEXEC" }

/-- The marker `ECX_ENOLCK`. -/
def ECX_ENOLCK : Cat := { addr := 49, text := "ENOLCK" }

/-- The marker `ECX_ENOLINK`. -/
def ECX_ENOLINK : Cat := { addr := 50, text := "ENOLINK" }

/-- The marker `ECX_ENOMEM`. -/
def ECX_ENOMEM : Cat := { addr := 51, text := "ENOMEM" }

/-- The marker `ECX_ENOMSG`. -/
def ECX_ENOMSG : Cat := { addr := 52, text := "ENOMSG" }

/-- The marker `ECX_ENOPROTOOPT`. -/
def ECX_ENOPROTOOPT : Cat := { addr := 53, text := "ENOPROTOOPT" }

/-- The marker `ECX_ENOSPC`. -/
def ECX_ENOSPC : Cat := { addr := 54, text := "ENOSPC" }

/-- The marker `ECX_ENOSR`. -/
def ECX_ENOSR : Cat := { addr := 55, text := "ENOSR" }

/-- The marker `ECX_ENOSTR`. -/
def ECX_ENOSTR : Cat := { addr := 56, text := "ENOSTR" }

/-- The marker `ECX_ENOSYS`. -/
def ECX_ENOSYS : Cat := { addr := 57, text := "ENOSYS" }

/-- The marker `ECX_ENOTCONN`. -/
def ECX_ENOTCONN : Cat := { addr := 58, text := "ENOTCONN" }

/-- The marker `ECX_ENOTDIR`. -/
def ECX_ENOTDIR : Cat := { addr := 59, text := "ENOTDIR" }

/-- The marker `ECX_ENOTEMPTY`. -/
def ECX_ENOTEMPTY : Cat := { addr := 60, text := "ENOTEMPTY" }

/-- The marker `ECX_ENOTSOCK`. -/
def ECX_ENOTSOCK : Cat := { addr := 61, text := "ENOTSOCK" }

/-- The marker `ECX_ENOTSUP`. -/
def ECX_ENOTSUP : Cat := { addr := 62, text := "ENOTSUP" }

/-- The marker `ECX_ENOTTY`. -/
def ECX_ENOTTY : Cat := { addr := 63, text := "ENOTTY" }

/-- The marker `ECX_ENXIO`. -/
def ECX_ENXIO : Cat := { addr := 64, text := "ENXIO" }

/-- The marker `ECX_EOPNOTSUPP`. -/
def ECX_EOPNOTSUPP : Cat := { addr := 65, text := "EOPNOTSUPP" }

/-- The marker `ECX_EOVERFLOW`. -/
def ECX_EOVERFLOW : Cat := { addr := 66, text := "EOVERFLOW" }

/-- The marker `ECX_EPERM`. -/
def ECX_EPERM : Cat := { addr := 67, text := "EPERM" }

/-- The marker `ECX_EPIPE`. -/
def ECX_EPIPE : Cat := { addr := 68, text := "EPIPE" }

/-- The marker `ECX_EPROTO`. -/
def ECX_EPROTO : Cat := { addr := 69, text := "EPROTO" }

/-- The marker `ECX_EPROTONOSUPPORT`. -/
def ECX_EPROTONOSUPPORT : Cat := { addr := 70, text := "EPROTONOSUPPORT" }

/-- The marker `ECX_EPROTOTYPE`. -/
def ECX_EPROTOTYPE : Cat := { addr := 71, text := "EPROTOTYPE" }

/-- The marker `ECX_ERANGE`. -/
def ECX_ERANGE : Cat := { addr := 72, text := "ERANGE" }

/-- The marker `ECX_EROFS`. -/
def ECX_EROFS : Cat := { addr := 73, text := "EROFS" }

/-- The marker `ECX_ESPIPE`. -/
def ECX_ESPIPE : Cat := { addr := 74, text := "ESPIPE" }

/-- The marker `ECX_ESRCH`. -/
def ECX_ESRCH : Cat := { addr := 75, text := "ESRCH" }

/-- The marker `ECX_ESTALE`. -/
def ECX_ESTALE : Cat := { addr := 76, text := "ESTALE" }

/-- The marker `ECX_ETIME`. -/
def ECX_ETIME : Cat := { addr := 77, text := "ETIME" }

/-- The marker `ECX_ETIMEDOUT`. -/
def ECX_ETIMEDOUT : Cat := { addr := 78, text := "ETIMEDOUT" }

/-- The marker `ECX_ETXTBSY`. -/
def ECX_ETXTBSY : Cat := { addr := 79, text := "ETXTBSY" }

/-- The marker `ECX_EWOULDBLOCK`. -/
def ECX_EWOULDBLOCK : Cat := { addr := 80, text := "EWOULDBLOCK" }

/-- The marker `ECX_EXDEV`. -/
def ECX_EXDEV : Cat := { addr := 81, text := "EXDEV" }

/-- The marker that `ec.h` declares under the name of an errno constant. -/
def Errno.marker : Errno → Cat
  | Errno.E2BIG => ECX_E2BIG
  | Errno.EACCES => ECX_EACCES
  | Errno.EADDRINUSE => ECX_EADDRINUSE
  | Errno.EADDRNOTAVAIL => ECX_EADDRNOTAVAIL
  | Errno.EAFNOSUPPORT => ECX_EAFNOSUPPORT
  | Errno.EAGAIN => ECX_EAGAIN
  | Errno.EALREADY => ECX_EALREADY
  | Errno.EBADF => ECX_EBADF
  | Errno.EBADMSG => ECX_EBADMSG
  | Errno.EBUSY => ECX_EBUSY
  | Errno.ECANCELED => ECX_ECANCELED
  | Errno.ECHILD => ECX_ECHILD
  | Errno.ECONNABORTED => ECX_ECONNABORTED
  | Errno.ECONNREFUSED => ECX_ECONNREFUSED
  | Errno.ECONNRESET => ECX_ECONNRESET
  | Errno.EDEADLK => ECX_EDEADLK
  | Errno.EDESTADDRREQ => ECX_EDESTADDRREQ
  | Errno.EDOM => ECX_EDOM
  | Errno.EDQUOT => ECX_EDQUOT
  | Errno.EEXIST => ECX_EEXIST
  | Errno.EFAULT => ECX_EFAULT
  | Errno.EFBIG => ECX_EFBIG
  | Errno.EHOSTUNREACH => ECX_EHOSTUNREACH
  | Errno.EIDRM => ECX_EIDRM
  | Errno.EILSEQ => ECX_EILSEQ
  | Errno.EINPROGRESS => ECX_EINPROGRESS
  | Errno.EINTR => ECX_EINTR
  | Errno.EINVAL => ECX_EINVAL
  | Errno.EIO => ECX_EIO
  | Errno.EISCONN => ECX_EISCONN
  | Errno.EISDIR => ECX_EISDIR
  | Errno.ELOOP => ECX_ELOOP
  | Errno.EMFILE => ECX_EMFILE
  | Errno.EMLINK => ECX_EMLINK
  | Errno.EMSGSIZE => ECX_EMSGSIZE
  | Errno.EMULTIHOP => ECX_EMULTIHOP
  | Errno.ENAMETOOLONG => ECX_ENAMETOOLONG
  | Errno.ENETDOWN => ECX_ENETDOWN
  | Errno.ENETRESET => ECX_ENETRESET
  | Errno.ENETUNREACH => ECX_ENETUNREACH
  | Errno.ENFILE => ECX_ENFILE
  | Errno.ENOBUFS => ECX_ENOBUFS
  | Errno.ENODATA => ECX_ENODATA
  | Errno.ENODEV => ECX_ENODEV
  | Errno.ENOENT => ECX_ENOENT
  | Errno.ENOEXEC => ECX_ENOEXEC
  | Errno.ENOLCK => ECX_ENOLCK
  | Errno.ENOLINK => ECX_ENOLINK
  | Errno.ENOMEM => ECX_ENOMEM
  | Errno.ENOMSG => ECX_ENOMSG
  | Errno.ENOPROTOOPT => ECX_ENOPROTOOPT
  | Errno.ENOSPC => ECX_ENOSPC
  | Errno.ENOSR => ECX_ENOSR
  | Errno.ENOSTR => ECX_ENOSTR
  | Errno.ENOSYS => ECX_ENOSYS
  | Errno.ENOTCONN => ECX_ENOTCONN
  | Errno.ENOTDIR => ECX_ENOTDIR
  | Errno.ENOTEMPTY => ECX_ENOTEMPTY
  | Errno.ENOTSOCK => ECX_ENOTSOCK
  | Errno.ENOTSUP => ECX_ENOTSUP
  | Errno.ENOTTY => ECX_ENOTTY
  | Errno.ENXIO => ECX_ENXIO
  | Errno.EOPNOTSUPP => ECX_EOPNOTSUPP
  | Errno.EOVERFLOW => ECX_EOVERFLOW
  | Errno.EPERM => ECX_EPERM
  | Errno.EPIPE => ECX_EPIPE
  | Errno.EPROTO => ECX_EPROTO
  | Errno.EPROTONOSUPPORT => ECX_EPROTONOSUPPORT
  | Errno.EPROTOTYPE => ECX_EPROTOTYPE
  | Errno.ERANGE => ECX_ERANGE
  | Errno.EROFS => ECX_EROFS
  | Errno.ESPIPE => ECX_ESPIPE
  | Errno.ESRCH => ECX_ESRCH
  | Errno.ESTALE => ECX_ESTALE
  | Errno.ETIME => ECX_ETIME
  | Errno.ETIMEDOUT => ECX_ETIMEDOUT
  | Errno.ETXTBSY => ECX_ETXTBSY
  | Errno.EWOULDBLOCK => ECX_EWOULDBLOCK
  | Errno.EXDEV => ECX_EXDEV

/-- The labels of the `switch` in `ec_errno_type` with what each returns, in the order of
the source. The cases of `EOPNOTSUPP` and `EWOULDBLOCK` are commented out there. -/
def ec_errno_cases : List (Errno × Cat) :=
  [(Errno.E2BIG, ECX_E2BIG), (Errno.EACCES, ECX_EACCES), (Errno.EADDRINUSE, ECX_EADDRINUSE),
  (Errno.EADDRNOTAVAIL, ECX_EADDRNOTAVAIL), (Errno.EAFNOSUPPORT, ECX_EAFNOSUPPORT),
  (Errno.EAGAIN, ECX_EAGAIN), (Errno.EALREADY, ECX_EALREADY), (Errno.EBADF, ECX_EBADF),
  (Errno.EBADMSG, ECX_EBADMSG), (Errno.EBUSY, ECX_EBUSY), (Errno.ECANCELED, ECX_ECANCELED),
  (Errno.ECHILD, ECX_ECHILD), (Errno.ECONNABORTED, ECX_ECONNABORTED),
  (Errno.ECONNREFUSED, ECX_ECONNREFUSED), (Errno.ECONNRESET, ECX_ECONNRESET),
  (Errno.EDEADLK, ECX_EDEADLK), (Errno.EDESTADDRREQ, ECX_EDESTADDRREQ), (Errno.EDOM, ECX_EDOM),
  (Errno.EDQUOT, ECX_EDQUOT), (Errno.EEXIST, ECX_EEXIST), (Errno.EFAULT, ECX_EFAULT),
  (Errno.EFBIG, ECX_EFBIG), (Errno.EHOSTUNREACH, ECX_EHOSTUNREACH), (Errno.EIDRM, ECX_EIDRM),
  (Errno.EILSEQ, ECX_EILSEQ), (Errno.EINPROGRESS, ECX_EINPROGRESS), (Errno.EINTR, ECX_EINTR),
  (Errno.EINVAL, ECX_EINVAL), (Errno.EIO, ECX_EIO), (Errno.EISCONN, ECX_EISCONN),
  (Errno.EISDIR, ECX_EISDIR), (Errno.ELOOP, ECX_ELOOP), (Errno.EMFILE, ECX_EMFILE),
  (Errno.EMLINK, ECX_EMLINK), (Errno.EMSGSIZE, ECX_EMSGSIZE), (Errno.EMULTIHOP, ECX_EMULTIHOP),
  (Errno.ENAMETOOLONG, ECX_ENAMETOOLONG), (Errno.ENETDOWN, ECX_ENETDOWN),
  (Errno.ENETRESET, ECX_ENETRESET), (Errno.ENETUNREACH, ECX_ENETUNREACH),
  (Errno.ENFILE, ECX_ENFILE), (Errno.ENOBUFS, ECX_ENOBUFS), (Errno.ENODATA, ECX_ENODATA),
  (Errno.ENODEV, ECX_ENODEV), (Errno.ENOENT, ECX_ENOENT), (Errno.ENOEXEC, ECX_ENOEXEC),
  (Errno.ENOLCK, ECX_ENOLCK), (Errno.ENOLINK, ECX_ENOLINK), (Errno.ENOMEM, ECX_ENOMEM),
  (Errno.ENOMSG, ECX_ENOMSG), (Errno.ENOPROTOOPT, ECX_ENOPROTOOPT), (Errno.ENOSPC, ECX_ENOSPC),
  (Errno.ENOSR, ECX_ENOSR), (Errno.ENOSTR, ECX_ENOSTR), (Errno.ENOSYS, ECX_ENOSYS),
  (Errno.ENOTCONN, ECX_ENOTCONN), (Errno.ENOTDIR, ECX_ENOTDIR), (Errno.ENOTEMPTY, ECX_ENOTEMPTY),
  (Errno.ENOTSOCK, ECX_ENOTSOCK), (Errno.ENOTSUP, ECX_ENOTSUP), (Errno.ENOTTY, ECX_ENOTTY),
  (Errno.ENXIO, ECX_ENXIO), (Errno.EOVERFLOW, ECX_EOVERFLOW), (Errno.EPERM, ECX_EPERM),
  (Errno.EPIPE, ECX_EPIPE), (Errno.EPROTO, ECX_EPROTO),
  (Errno.EPROTONOSUPPORT, ECX_EPROTONOSUPPORT), (Errno.EPROTOTYPE, ECX_EPROTOTYPE),
  (Errno.ERANGE, ECX_ERANGE), (Errno.EROFS, ECX_EROFS), (Errno.ESPIPE, ECX_ESPIPE),
  (Errno.ESRCH, ECX_ESRCH), (Errno.ESTALE, ECX_ESTALE), (Errno.ETIME, ECX_ETIME),
  (Errno.ETIMEDOUT, ECX_ETIMEDOUT), (Errno.ETXTBSY, ECX_ETXTBSY), (Errno.EXDEV, ECX_EXDEV)]

/-- The function `ec_errno_type`. The header `errno.h` is not part of the repository: `h` gives
the value of each constant. The labels of a `switch` are distinct, so the case taken is
the first, and only, label equal to `error`. -/
def ec_errno_type (h : Errno → Int) (error : Int) : Cat :=
  match ec_errno_cases.find? (fun c => h c.1 == error) with
  | some c => c.2
  | none => ECX_EC

/-- The labels of the `switch` in `ec_errno_type` are distinct values: what the compiler
asks of `errno.h` to accept the function. -/
def switch_ok (h : Errno → Int) : Prop :=
  (ec_errno_cases.map (fun c => h c.1)).Nodup

/-- The values of the constants in `errno.h` on Linux. -/
def linux_errno : Errno → Int
  | Errno.E2BIG => 7
  | Errno.EACCES => 13
  | Errno.EADDRINUSE => 98
  | Errno.EADDRNOTAVAIL => 99
  | Errno.EAFNOSUPPORT => 97
  | Errno.EAGAIN => 11
  | Errno.EALREADY => 114
  | Errno.EBADF => 9
  | Errno.EBADMSG => 74
  | Errno.EBUSY => 16
  | Errno.ECANCELED => 125
  | Errno.ECHILD => 10
  | Errno.ECONNABORTED => 103
  | Errno.ECONNREFUSED => 111
  | Errno.ECONNRESET => 104
  | Errno.EDEADLK => 35
  | Errno.EDESTADDRREQ => 89
  | Errno.EDOM => 33
  | Errno.EDQUOT => 122
  | Errno.EEXIST => 17
  | Errno.EFAULT => 14
  | Errno.EFBIG => 27
  | Errno.EHOSTUNREACH => 113
  | Errno.EIDRM => 43
  | Errno.EILSEQ => 84
  | Errno.EINPROGRESS => 115
  | Errno.EINTR => 4
  | Errno.EINVAL => 22
  | Errno.EIO => 5
  | Errno.EISCONN => 106
  | Errno.EISDIR => 21
  | Errno.ELOOP => 40
  | Errno.EMFILE => 24
  | Errno.EMLINK => 31
  | Errno.EMSGSIZE => 90
  | Errno.EMULTIHOP => 72
  | Errno.ENAMETOOLONG => 36
  | Errno.ENETDOWN => 100
  | Errno.ENETRESET => 102
  | Errno.ENETUNREACH => 101
  | Errno.ENFILE => 23
  | Errno.ENOBUFS => 105
  | Errno.ENODATA => 61
  | Errno.ENODEV => 19
  | Errno.ENOENT => 2
  | Errno.ENOEXEC => 8
  | Errno.ENOLCK => 37
  | Errno.ENOLINK => 67
  | Errno.ENOMEM => 12
  | Errno.ENOMSG => 42
  | Errno.ENOPROTOOPT => 92
  | Errno.ENOSPC => 28
  | Errno.ENOSR => 63
  | Errno.ENOSTR => 60
  | Errno.ENOSYS => 38
  | Errno.ENOTCONN => 107
  | Errno.ENOTDIR => 20
  | Errno.ENOTEMPTY => 39
  | Errno.ENOTSOCK => 88
  | Errno.ENOTSUP => 95
  | Errno.ENOTTY => 25
  | Errno.ENXIO => 6
  | Errno.EOPNOTSUPP => 95
  | Errno.EOVERFLOW => 75
  | Errno.EPERM => 1
  | Errno.EPIPE => 32
  | Errno.EPROTO => 71
  | Errno.EPROTONOSUPPORT => 93
  | Errno.EPROTOTYPE => 91
  | Errno.ERANGE => 34
  | Errno.EROFS => 30
  | Errno.ESPIPE => 29
  | Errno.ESRCH => 3
  | Errno.ESTALE => 116
  | Errno.ETIME => 62
  | Errno.ETIMEDOUT => 110
  | Errno.ETXTBSY => 26
  | Errno.EWOULDBLOCK => 11
  | Errno.EXDEV => 18

/-! ## The pending record as an invariant -/

/-- The invariant of the pending record: with the type `NULL`, the data, the cleanup and the
printer are `NULL` as well. -/
def record_ok (s : ec) : Prop :=
  s.error.type = none →
    s.error.data = Val.null ∧ s.error.data_cleanup = none ∧ s.error.data_fprint = none

mutual
/-- Client code in which every `ec_set_error` and every `ec_throw` passes a type that is
not `NULL`. -/
inductive Typed : Stmt → Prop where
  | skip : Typed Stmt.skip
  | seq (a b : Stmt) : Typed a → Typed b → Typed (Stmt.seq a b)
  | probe (id : Nat) : Typed (Stmt.probe id)
  | call (f : FnPtr) (arg : Val) : Typed (Stmt.call f arg)
  | ec_set_error (t : Cat) (d : Val) (c : Option FnPtr) (p : Option Printer) :
      Typed (Stmt.ec_set_error (some t) d c p)
  | ec_set_place (file function : String) (line : Nat) :
      Typed (Stmt.ec_set_place file function line)
  | ec_unwind (amount : ec_unwind_amount) : Typed (Stmt.ec_unwind amount)
  | ec_clean : Typed Stmt.ec_clean
  | ec_fprint : Typed Stmt.ec_fprint
  | ec_throw (t : Cat) (c : Option FnPtr) (p : Option Printer) (data : Val)
      (file function : String) (line : Nat) :
      Typed (Stmt.ec_throw (some t) c p data file function line)
  | ec_rethrow : Typed Stmt.ec_rethrow
  | ec_try (block : Stmt) (clauses : Clauses Stmt) :
      Typed block → TypedClauses clauses → Typed (Stmt.ec_try block clauses)
  | ec_with (d : Val) (u : FnPtr) (block : Stmt) : Typed block → Typed (Stmt.ec_with d u block)
  | ec_with_on_x (d : Val) (u : FnPtr) (block : Stmt) :
      Typed block → Typed (Stmt.ec_with_on_x d u block)
/-- Clauses whose blocks are `Typed`. -/
inductive TypedClauses : Clauses Stmt → Prop where
  | ec_catch_a (t : Option Cat) (block : Val → Stmt) (rest : Clauses Stmt) :
      (∀ v, Typed (block v)) → TypedClauses rest →
      TypedClauses (Clauses.ec_catch_a t block rest)
  | ec_catch (block : Stmt) : Typed block → TypedClauses (Clauses.ec_catch block)
  | ec_finally (block : Stmt) : Typed block → TypedClauses (Clauses.ec_finally block)
end

/-- The error stacks that a thread can get to from the initial one: through the
functions of the library called on their own (a type passed to `ec_set_error` is in a
`Typed` statement) and through `Typed` client code, however it ends. -/
inductive Reachable (P : Program) : ec → Prop where
  | init : Reachable P ec_stack
  | ec_winding_init_and_wind (d : Val) (u : FnPtr) (s : ec) :
      Reachable P s → Reachable P (ec_winding_init_and_wind d u s).2
  | ec_swap_env (env : Option Nat) (s : ec) : Reachable P s → Reachable P (ec_swap_env env s).2
  | ec_swap_winding (winding : List ec_winding) (s : ec) :
      Reachable P s → Reachable P (ec_swap_winding winding s).2
  | ec_env (env : Option Nat) (s : ec) : Reachable P s → Reachable P (ec_env env s).2
  | ec_type (type : Option Cat) (s : ec) : Reachable P s → Reachable P (ec_type type s).2
  | ec_set_place (file function : String) (line : Nat) (s : ec) :
      Reachable P s → Reachable P (ec_set_place file function line s)
  | ec_shadow (types : Option Cat × Option Cat) (s : ec) :
      Reachable P s → Reachable P (ec_shadow types s)
  | normal (n depth : Nat) (stmt : Stmt) (w w1 : World) :
      Reachable P w.ctx → Typed stmt → exec P n depth stmt w = Outcome.normal w1 →
      Reachable P w1.ctx
  | jump (n depth : Nat) (stmt : Stmt) (w w1 : World) :
      Reachable P w.ctx → Typed stmt → exec P n depth stmt w = Outcome.jump w1 →
      Reachable P w1.ctx
  | abort (n depth : Nat) (stmt : Stmt) (w w1 : World) :
      Reachable P w.ctx → Typed stmt → exec P n depth stmt w = Outcome.abort w1 →
      Reachable P w1.ctx

/-- The invariant `record_ok` for the error stack that a statement leaves, however it ends. -/
def Outcome.record_ok : Outcome → Prop
  | Outcome.normal w => EC.record_ok w.ctx
  | Outcome.jump w => EC.record_ok w.ctx
  | Outcome.abort w => EC.record_ok w.ctx
  | Outcome.fault => True
  | Outcome.undefined => True
  | Outcome.timeout => True

/-! ## Vocabulary of the later claims -/

/-- The call `f (d)` looks at the error stack, which the event `probe id`
records, changes nothing and returns: a cleanup action that observes. -/
def Watcher (P : Program) (f : FnPtr) (d : Val) (id : Nat) : Prop :=
  ∀ n depth w, exec P (n + 2) depth (Stmt.call f d) w =
    Outcome.normal ((w.emit (Event.call f d)).emit (Event.probe id w.ctx))

/-- What unwinding all of a stack of observing actions adds to the log, in the
error stack `s`: each action is called and sees the stack below its record. -/
def watch_events (kp : ec_winding → Nat) (s : ec) : List ec_winding → List Event
  | [] => []
  | r :: next =>
      Event.call r.unwind r.data :: Event.probe (kp r) { s with winding := next }
        :: watch_events kp s next

/-- The number of the client function that is the action of a winding. -/
def ec_winding.user_id (r : ec_winding) : Nat :=
  match r.unwind with
  | FnPtr.user id => id
  | _ => 0

/-- The error stack that an event shows, when it is an observation. -/
def Event.seen : Event → Option ec
  | Event.probe _ s => some s
  | _ => none

/-- A client program whose functions only look at the error stack: function
`id` is `probe id`. -/
def P3 : Program :=
  { code := fun id _ => Stmt.probe id, text := fun _ _ => "", strerror := "" }

/-- A client program whose function 1 is a cleanup action that uses an
`ec_try` closed by `ec_finally`; both blocks look at the error stack, neither
throws. Its other functions do nothing. -/
def P4 : Program :=
  { code := fun id _ =>
      if id = 1 then Stmt.ec_try (Stmt.probe 8) (Clauses.ec_finally (Stmt.probe 9))
      else Stmt.skip
    text := fun _ _ => ""
    strerror := "" }

/-- The call `f (d)` dereferences no `NULL` in the library: `ec_shadow` gets
the address of an array of two types. -/
def callable : FnPtr → Val → Bool
  | FnPtr.ec_shadow, Val.types _ _ => true
  | FnPtr.ec_shadow, _ => false
  | _, _ => true

mutual
/-- Client code that uses the winding stack through the macros only: no call
of `ec_unwind` of its own. -/
inductive Nested : Stmt → Prop where
  | skip : Nested Stmt.skip
  | seq (a b : Stmt) : Nested a → Nested b → Nested (Stmt.seq a b)
  | probe (id : Nat) : Nested (Stmt.probe id)
  | call (f : FnPtr) (arg : Val) : callable f arg = true → Nested (Stmt.call f arg)
  | ec_set_error (t : Option Cat) (d : Val) (c : Option FnPtr) (p : Option Printer) :
      (∀ f, c = some f → callable f d = true) → Nested (Stmt.ec_set_error t d c p)
  | ec_set_place (file function : String) (line : Nat) :
      Nested (Stmt.ec_set_place file function line)
  | ec_clean : Nested Stmt.ec_clean
  | ec_fprint : Nested Stmt.ec_fprint
  | ec_throw (t : Option Cat) (c : Option FnPtr) (p : Option Printer) (data : Val)
      (file function : String) (line : Nat) :
      (∀ f, c = some f → callable f data = true) →
      Nested (Stmt.ec_throw t c p data file function line)
  | ec_rethrow : Nested Stmt.ec_rethrow
  | ec_try (block : Stmt) (clauses : Clauses Stmt) :
      Nested block → NestedClauses clauses → Nested (Stmt.ec_try block clauses)
  | ec_with (d : Val) (u : FnPtr) (block : Stmt) :
      callable u d = true → Nested block → Nested (Stmt.ec_with d u block)
  | ec_with_on_x (d : Val) (u : FnPtr) (block : Stmt) :
      callable u d = true → Nested block → Nested (Stmt.ec_with_on_x d u block)
/-- Clauses whose blocks are `Nested`. -/
inductive NestedClauses : Clauses Stmt → Prop where
  | ec_catch_a (t : Option Cat) (block : Val → Stmt) (rest : Clauses Stmt) :
      (∀ v, Nested (block v)) → NestedClauses rest →
      NestedClauses (Clauses.ec_catch_a t block rest)
  | ec_catch (block : Stmt) : Nested block → NestedClauses (Clauses.ec_catch block)
  | ec_finally (block : Stmt) : Nested block → NestedClauses (Clauses.ec_finally block)
end

/-- Every function pointer held by the error stack can be called: the actions
of the windings and the cleanup of the pending data. -/
def calls_ok (s : ec) : Prop :=
  (∀ r ∈ s.winding, callable r.unwind r.data = true) ∧
  (∀ f, s.error.data_cleanup = some f → callable f s.error.data = true)

/-- A statement that did not end in the outcome `fault`; when it returned, the
winding stack is `rs`. -/
def Outcome.balanced (rs : List ec_winding) : Outcome → Prop
  | Outcome.normal w => w.ctx.winding = rs ∧ calls_ok w.ctx
  | Outcome.jump w => calls_ok w.ctx
  | Outcome.abort _ => True
  | Outcome.fault => False
  | Outcome.undefined => True
  | Outcome.timeout => True

/-- The name of an errno constant, as written in `errno.h` and in the `case`
labels of `ec_errno_type`. -/
def Errno.name : Errno → String
  | Errno.E2BIG => "E2BIG"
  | Errno.EACCES => "EACCES"
  | Errno.EADDRINUSE => "EADDRINUSE"
  | Errno.EADDRNOTAVAIL => "EADDRNOTAVAIL"
  | Errno.EAFNOSUPPORT => "EAFNOSUPPORT"
  | Errno.EAGAIN => "EAGAIN"
  | Errno.EALREADY => "EALREADY"
  | Errno.EBADF => "EBADF"
  | Errno.EBADMSG => "EBADMSG"
  | Errno.EBUSY => "EBUSY"
  | Errno.ECANCELED => "ECANCELED"
  | Errno.ECHILD => "ECHILD"
  | Errno.ECONNABORTED => "ECONNABORTED"
  | Errno.ECONNREFUSED => "ECONNREFUSED"
  | Errno.ECONNRESET => "ECONNRESET"
  | Errno.EDEADLK => "EDEADLK"
  | Errno.EDESTADDRREQ => "EDESTADDRREQ"
  | Errno.EDOM => "EDOM"
  | Errno.EDQUOT => "EDQUOT"
  | Errno.EEXIST => "EEXIST"
  | Errno.EFAULT => "EFAULT"
  | Errno.EFBIG => "EFBIG"
  | Errno.EHOSTUNREACH => "EHOSTUNREACH"
  | Errno.EIDRM => "EIDRM"
  | Errno.EILSEQ => "EILSEQ"
  | Errno.EINPROGRESS => "EINPROGRESS"
  | Errno.EINTR => "EINTR"
  | Errno.EINVAL => "EINVAL"
  | Errno.EIO => "EIO"
  | Errno.EISCONN => "EISCONN"
  | Errno.EISDIR => "EISDIR"
  | Errno.ELOOP => "ELOOP"
  | Errno.EMFILE => "EMFILE"
  | Errno.EMLINK => "EMLINK"
  | Errno.EMSGSIZE => "EMSGSIZE"
  | Errno.EMULTIHOP => "EMULTIHOP"
  | Errno.ENAMETOOLONG => "ENAMETOOLONG"
  | Errno.ENETDOWN => "ENETDOWN"
  | Errno.ENETRESET => "ENETRESET"
  | Errno.ENETUNREACH => "ENETUNREACH"
  | Errno.ENFILE => "ENFILE"
  | Errno.ENOBUFS => "ENOBUFS"
  | Errno.ENODATA => "ENODATA"
  | Errno.ENODEV => "ENODEV"
  | Errno.ENOENT => "ENOENT"
  | Errno.ENOEXEC => "ENOEXEC"
  | Errno.ENOLCK => "ENOLCK"
  | Errno.ENOLINK => "ENOLINK"
  | Errno.ENOMEM => "ENOMEM"
  | Errno.ENOMSG => "ENOMSG"
  | Errno.ENOPROTOOPT => "ENOPROTOOPT"
  | Errno.ENOSPC => "ENOSPC"
  | Errno.ENOSR => "ENOSR"
  | Errno.ENOSTR => "ENOSTR"
  | Errno.ENOSYS => "ENOSYS"
  | Errno.ENOTCONN => "ENOTCONN"
  | Errno.ENOTDIR => "ENOTDIR"
  | Errno.ENOTEMPTY => "ENOTEMPTY"
  | Errno.ENOTSOCK => "ENOTSOCK"
  | Errno.ENOTSUP => "ENOTSUP"
  | Errno.ENOTTY => "ENOTTY"
  | Errno.ENXIO => "ENXIO"
  | Errno.EOPNOTSUPP => "EOPNOTSUPP"
  | Errno.EOVERFLOW => "EOVERFLOW"
  | Errno.EPERM => "EPERM"
  | Errno.EPIPE => "EPIPE"
  | Errno.EPROTO => "EPROTO"
  | Errno.EPROTONOSUPPORT => "EPROTONOSUPPORT"
  | Errno.EPROTOTYPE => "EPROTOTYPE"
  | Errno.ERANGE => "ERANGE"
  | Errno.EROFS => "EROFS"
  | Errno.ESPIPE => "ESPIPE"
  | Errno.ESRCH => "ESRCH"
  | Errno.ESTALE => "ESTALE"
  | Errno.ETIME => "ETIME"
  | Errno.ETIMEDOUT => "ETIMEDOUT"
  | Errno.ETXTBSY => "ETXTBSY"
  | Errno.EWOULDBLOCK => "EWOULDBLOCK"
  | Errno.EXDEV => "EXDEV"

/-- All the errno constants with a marker, in the order of `ec.h`. -/
def Errno.all : List Errno :=
  [Errno.E2BIG, Errno.EACCES, Errno.EADDRINUSE, Errno.EADDRNOTAVAIL, Errno.EAFNOSUPPORT,
    Errno.EAGAIN, Errno.EALREADY, Errno.EBADF, Errno.EBADMSG, Errno.EBUSY, Errno.ECANCELED,
    Errno.ECHILD, Errno.ECONNABORTED, Errno.ECONNREFUSED, Errno.ECONNRESET, Errno.EDEADLK,
    Errno.EDESTADDRREQ, Errno.EDOM, Errno.EDQUOT, Errno.EEXIST, Errno.EFAULT, Errno.EFBIG,
    Errno.EHOSTUNREACH, Errno.EIDRM, Errno.EILSEQ, Errno.EINPROGRESS, Errno.EINTR, Errno.EINVAL,
    Errno.EIO, Errno.EISCONN, Errno.EISDIR, Errno.ELOOP, Errno.EMFILE, Errno.EMLINK,
    Errno.EMSGSIZE, Errno.EMULTIHOP, Errno.ENAMETOOLONG, Errno.ENETDOWN, Errno.ENETRESET,
    Errno.ENETUNREACH, Errno.ENFILE, Errno.ENOBUFS, Errno.ENODATA, Errno.ENODEV, Errno.ENOENT,
    Errno.ENOEXEC, Errno.ENOLCK, Errno.ENOLINK, Errno.ENOMEM, Errno.ENOMSG, Errno.ENOPROTOOPT,
    Errno.ENOSPC, Errno.ENOSR, Errno.ENOSTR, Errno.ENOSYS, Errno.ENOTCONN, Errno.ENOTDIR,
    Errno.ENOTEMPTY, Errno.ENOTSOCK, Errno.ENOTSUP, Errno.ENOTTY, Errno.ENXIO, Errno.EOPNOTSUPP,
    Errno.EOVERFLOW, Errno.EPERM, Errno.EPIPE, Errno.EPROTO, Errno.EPROTONOSUPPORT,
    Errno.EPROTOTYPE, Errno.ERANGE, Errno.EROFS, Errno.ESPIPE, Errno.ESRCH, Errno.ESTALE,
    Errno.ETIME, Errno.ETIMEDOUT, Errno.ETXTBSY, Errno.EWOULDBLOCK, Errno.EXDEV]


/-! ## Unfolding `exec` -/

section Unfold

variable (P : Program) (n depth : Nat) (w : World)

theorem exec_zero (s : Stmt) : exec P 0 depth s w = Outcome.timeout := rfl

theorem exec_skip : exec P (n + 1) depth Stmt.skip w = Outcome.normal w := rfl

theorem exec_seq (a b : Stmt) :
    exec P (n + 1) depth (Stmt.seq a b) w =
      match exec P n depth a w with
      | Outcome.normal w1 => exec P n depth b w1
      | o => o := rfl

theorem exec_probe (id : Nat) :
    exec P (n + 1) depth (Stmt.probe id) w = Outcome.normal (w.emit (Event.probe id w.ctx)) := rfl

theorem exec_call_free (arg : Val) :
    exec P (n + 1) depth (Stmt.call FnPtr.free arg) w =
      Outcome.normal (w.emit (Event.call FnPtr.free arg)) := rfl

theorem exec_call_shadow (ot nt : Option Cat) :
    exec P (n + 1) depth (Stmt.call FnPtr.ec_shadow (Val.types ot nt)) w =
      Outcome.normal ((w.emit (Event.call FnPtr.ec_shadow (Val.types ot nt))).set
        (ec_shadow (ot, nt) w.ctx)) := rfl

theorem exec_call_user (id : Nat) (arg : Val) :
    exec P (n + 1) depth (Stmt.call (FnPtr.user id) arg) w =
      exec P n depth (P.code id arg) (w.emit (Event.call (FnPtr.user id) arg)) := rfl

theorem exec_set_error_fresh (t : Option Cat) (d : Val) (c : Option FnPtr)
    (p : Option Printer) (hw : w.ctx.error.type = none) :
    exec P (n + 1) depth (Stmt.ec_set_error t d c p) w =
      Outcome.normal (w.set { w.ctx with
        error := { type := t, data := d, data_cleanup := c, data_fprint := p } }) := by
  simp [exec, hw]

theorem exec_set_place (file function : String) (line : Nat) :
    exec P (n + 1) depth (Stmt.ec_set_place file function line) w =
      Outcome.normal (w.set (ec_set_place file function line w.ctx)) := rfl

theorem exec_unwind_all_nil (hw : w.ctx.winding = []) :
    exec P (n + 1) depth (Stmt.ec_unwind ec_unwind_amount.EC_UNWIND_ALL) w =
      Outcome.normal w := by
  simp [exec, hw]

theorem exec_unwind_all_cons (head : ec_winding) (next : List ec_winding)
    (hw : w.ctx.winding = head :: next) :
    exec P (n + 1) depth (Stmt.ec_unwind ec_unwind_amount.EC_UNWIND_ALL) w =
      match exec P n depth (Stmt.call head.unwind head.data)
          (w.set { w.ctx with winding := next }) with
      | Outcome.normal w1 => exec P n depth (Stmt.ec_unwind ec_unwind_amount.EC_UNWIND_ALL) w1
      | o => o := by
  simp only [exec, hw]

theorem exec_unwind_one_cons (head : ec_winding) (next : List ec_winding)
    (hw : w.ctx.winding = head :: next) :
    exec P (n + 1) depth (Stmt.ec_unwind ec_unwind_amount.EC_UNWIND_ONE) w =
      exec P n depth (Stmt.call head.unwind head.data)
        (w.set { w.ctx with winding := next }) := by
  simp [exec, hw]

theorem exec_unwind_discard_cons (head : ec_winding) (next : List ec_winding)
    (hw : w.ctx.winding = head :: next) :
    exec P (n + 1) depth (Stmt.ec_unwind ec_unwind_amount.EC_UNWIND_DISCARD_ONE) w =
      Outcome.normal (w.set { w.ctx with winding := next }) := by
  simp [exec, hw]

theorem exec_clean_none (hw : w.ctx.error.data_cleanup = none) :
    exec P (n + 1) depth Stmt.ec_clean w = Outcome.normal (w.set (ec_clean_fields w.ctx)) := by
  simp [exec, hw]

theorem exec_clean_some (f : FnPtr) (hw : w.ctx.error.data_cleanup = some f) :
    exec P (n + 1) depth Stmt.ec_clean w =
      match exec P n depth (Stmt.call f w.ctx.error.data) w with
      | Outcome.normal w1 => Outcome.normal (w1.set (ec_clean_fields w1.ctx))
      | o => o := by
  simp only [exec, hw]

theorem exec_throw (t : Option Cat) (c : Option FnPtr) (p : Option Printer) (data : Val)
    (file function : String) (line : Nat) :
    exec P (n + 1) depth (Stmt.ec_throw t c p data file function line) w =
      match exec P n depth (Stmt.ec_set_error t data c p) w with
      | Outcome.normal w1 =>
          match exec P n depth (Stmt.ec_unwind ec_unwind_amount.EC_UNWIND_ALL)
              (w1.set (ec_set_place file function line w1.ctx)) with
          | Outcome.normal w3 =>
              if (ec_env none w3.ctx).1 = none then
                match ec_fprint P w3.ctx with
                | none => Outcome.undefined
                | some text =>
                    match exec P n depth Stmt.ec_clean
                        ((w3.emit (Event.stderr text)).emit
                          (Event.stderr "Error stack empty: Abort!\n")) with
                    | Outcome.normal w6 => Outcome.abort w6
                    | o => o
              else Outcome.jump w3
          | o => o
      | o => o := rfl

theorem exec_try (block : Stmt) (clauses : Clauses Stmt) :
    exec P (n + 1) depth (Stmt.ec_try block clauses) w =
      match exec P n (depth + 1) block (try_entry depth w) with
      | Outcome.normal w1 =>
          match clauses.finally_block with
          | some block1 => exec P n depth (Stmt.seq block1 Stmt.ec_clean) (try_restore w w1)
          | none => Outcome.normal (try_restore w w1)
      | Outcome.jump w1 =>
          if w1.ctx.env = some (depth + 1) then
            match clauses.select (ec_type none w1.ctx).1 with
            | some block1 =>
                match exec P n (depth + 1)
                    (Stmt.seq (block1 (ec_get_data w1.ctx)) Stmt.ec_clean) (try_restore w w1) with
                | Outcome.normal w3 =>
                    match clauses.finally_block with
                    | some block2 => exec P n depth (Stmt.seq block2 Stmt.ec_clean) w3
                    | none => Outcome.normal w3
                | o => o
            | none =>
                match clauses.finally_block with
                | some block1 => exec P n depth (Stmt.seq block1 Stmt.ec_clean) (try_restore w w1)
                | none => Outcome.normal (try_restore w w1)
          else Outcome.jump w1
      | o => o := rfl

theorem exec_with (d : Val) (u : FnPtr) (block : Stmt) :
    exec P (n + 1) depth (Stmt.ec_with d u block) w =
      match exec P n depth block (w.set (ec_winding_init_and_wind d u w.ctx).2) with
      | Outcome.normal w1 => exec P n depth (Stmt.ec_unwind ec_unwind_amount.EC_UNWIND_ONE) w1
      | o => o := rfl

theorem exec_with_on_x (d : Val) (u : FnPtr) (block : Stmt) :
    exec P (n + 1) depth (Stmt.ec_with_on_x d u block) w =
      match exec P n depth block (w.set (ec_winding_init_and_wind d u w.ctx).2) with
      | Outcome.normal w1 =>
          exec P n depth (Stmt.ec_unwind ec_unwind_amount.EC_UNWIND_DISCARD_ONE) w1
      | o => o := rfl

theorem exec_rethrow :
    exec P (n + 1) depth Stmt.ec_rethrow w =
      if ((ec_type none w.ctx).1).isSome then
        if (ec_env none w.ctx).1 = none then
          match exec P n depth (Stmt.ec_unwind ec_unwind_amount.EC_UNWIND_ALL) w with
          | Outcome.normal w1 =>
              match ec_fprint P w1.ctx with
              | none => Outcome.undefined
              | some text =>
                  Outcome.abort ((w1.emit (Event.stderr text)).emit
                    (Event.stderr "Error stack empty: Abort!\n"))
          | o => o
        else
          match exec P n depth (Stmt.ec_unwind ec_unwind_amount.EC_UNWIND_ALL) w with
          | Outcome.normal w1 => Outcome.jump w1
          | o => o
      else Outcome.normal w := rfl

end Unfold

/-! ## Building blocks -/

theorem quiet_free (P : Program) (d : Val) : Quiet P FnPtr.free d := by
  intro n depth w
  rfl

theorem quiet_user_skip (P : Program) (id : Nat) (d : Val) (h : P.code id d = Stmt.skip) :
    Quiet P (FnPtr.user id) d := by
  intro n depth w
  rw [exec_call_user, h]
  rfl

theorem outcome_match_id (o : Outcome) :
    (match o with
     | Outcome.normal w => Outcome.normal w
     | o => o) = o := by
  cases o <;> rfl

theorem finally_block_catch_chain (typed : List (Cat × (Val → Stmt))) (last : Stmt) :
    (catch_chain typed last).finally_block = none := by
  induction typed with
  | nil => rfl
  | cons tb rest ih => simpa [catch_chain, Clauses.finally_block] using ih

/-- A throw with nothing pending and nothing wound jumps to the current buffer. -/
theorem exec_throw_fresh (P : Program) (n depth : Nat) (w : World) (t : Option Cat)
    (c : Option FnPtr) (p : Option Printer) (data : Val) (file function : String) (line : Nat)
    (k : Nat) (hw : w.ctx.error.type = none) (hs : w.ctx.winding = []) (he : w.ctx.env = some k) :
    exec P (n + 2) depth (Stmt.ec_throw t c p data file function line) w =
      Outcome.jump (w.set (thrown t c p data file function line w.ctx)) := by
  rw [exec_throw, exec_set_error_fresh _ _ _ _ _ _ _ _ hw]
  simp only []
  rw [exec_unwind_all_nil _ _ _ _ (by simp [World.set, ec_set_place, hs])]
  simp [World.set, ec_set_place, ec_env, he, thrown]

/-- The block of a handler that only observes, followed by `ec_clean`. -/
theorem exec_probe_clean (P : Program) (n depth : Nat) (w : World) (id : Nat)
    (hc : ∀ f, w.ctx.error.data_cleanup = some f → Quiet P f w.ctx.error.data) :
    exec P (n + 4) depth (Stmt.seq (Stmt.probe id) Stmt.ec_clean) w =
      Outcome.normal
        { ctx := ec_clean_fields w.ctx
          log := w.log ++ [Event.probe id w.ctx]
            ++ cleanup_events w.ctx.error.data_cleanup w.ctx.error.data } := by
  rw [exec_seq, exec_probe]
  simp only []
  cases hf : w.ctx.error.data_cleanup with
  | none =>
      rw [exec_clean_none _ _ _ _ (by simpa [World.emit] using hf)]
      simp [World.set, World.emit, cleanup_events]
  | some f =>
      rw [exec_clean_some _ _ _ _ f (by simpa [World.emit] using hf)]
      have hq := hc f hf n depth (w.emit (Event.probe id w.ctx))
      simp only [World.emit] at hq ⊢
      rw [hq]
      simp [World.set, World.emit, cleanup_events]

/-! ## The claims -/

/-- Claim C1. With no exception pending, a try block that throws `(c, p)` and is
followed by `ec_catch_a (c, e)` enters the block of that clause with `e = p`, in
an error stack whose `ec_get_data ()` is `p`; what is left of the construct is
that block, `ec_clean`, and the `ec_finally` block if the clauses end in one.
Followed by `ec_catch` alone, it enters the catch-all block in the same stack. -/
theorem C1_catch_observes_payload (P : Program) (n depth : Nat) (c : Cat) (p : Val)
    (cl : Option FnPtr) (pr : Option Printer) (file function : String) (line : Nat)
    (block : Val → Stmt) (rest : Clauses Stmt) (last : Stmt) (w : World)
    (hw : w.ctx.error.type = none) :
    ec_get_data (thrown (some c) cl pr p file function line w.ctx) = p ∧
    exec P (n + 3) depth
        (Stmt.ec_try (Stmt.ec_throw (some c) cl pr p file function line)
          (Clauses.ec_catch_a (some c) block rest)) w =
      (match exec P (n + 2) (depth + 1) (Stmt.seq (block p) Stmt.ec_clean)
          (w.set (thrown (some c) cl pr p file function line w.ctx)) with
       | Outcome.normal w3 =>
           (match rest.finally_block with
            | some b => exec P (n + 2) depth (Stmt.seq b Stmt.ec_clean) w3
            | none => Outcome.normal w3)
       | o => o) ∧
    exec P (n + 3) depth
        (Stmt.ec_try (Stmt.ec_throw (some c) cl pr p file function line)
          (Clauses.ec_catch last)) w =
      exec P (n + 2) (depth + 1) (Stmt.seq last Stmt.ec_clean)
        (w.set (thrown (some c) cl pr p file function line w.ctx)) := by
  have hj := exec_throw_fresh P n (depth + 1) (try_entry depth w)
    (some c) cl pr p file function line (depth + 1) hw rfl rfl
  refine ⟨rfl, ?_, ?_⟩
  · rw [exec_try, hj]
    simp [World.set, ec_swap_env, ec_swap_winding, ec_type, Clauses.select, same_type,
      Clauses.finally_block, ec_get_data, thrown, try_entry, try_restore, ec_set_place]
  · rw [exec_try, hj]
    simp [World.set, ec_swap_env, ec_swap_winding, ec_type, Clauses.select, same_type,
      Clauses.finally_block, ec_get_data, thrown, try_entry, try_restore, ec_set_place]
    exact outcome_match_id _

theorem C1_witness :
    W0.ctx.error.type = none ∧
    exec P0 5 0
      (Stmt.ec_try
        (ec_throw_str (some ECX_EC) (Val.str 64 "Catch me!") "try.c" "try_throw_catch" 37)
        (Clauses.ec_catch_a (some ECX_EC) (fun e => Stmt.call (FnPtr.user 0) e)
          (Clauses.ec_catch (Stmt.probe 1)))) W0 =
      Outcome.normal
        { ctx := ec_stack
          log := [Event.call (FnPtr.user 0) (Val.str 64 "Catch me!"),
                  Event.call FnPtr.free (Val.str 64 "Catch me!")] } :=
  ⟨rfl, (C1_catch_observes_payload P0 2 0 ECX_EC (Val.str 64 "Catch me!") (some FnPtr.free)
    (some Printer.ec_fprint_str) "try.c" "try_throw_catch" 37
    (fun e => Stmt.call (FnPtr.user 0) e) (Clauses.ec_catch (Stmt.probe 1)) Stmt.skip W0
    rfl).2.1.trans (by rfl)⟩

/-- Claim C2. When the block of an `ec_try` returns without a throw, the construct
returns as well, whatever its `ec_catch_a` and `ec_catch` clauses are: none of
their blocks runs, and the only change to what the block left is that the outer
continuation and winding head are back. -/
theorem C2_no_throw_skips_handlers (P : Program) (n depth : Nat) (block : Stmt)
    (typed : List (Cat × (Val → Stmt))) (last : Stmt) (w w1 : World)
    (hb : exec P n (depth + 1) block (try_entry depth w) = Outcome.normal w1) :
    exec P (n + 1) depth (Stmt.ec_try block (catch_chain typed last)) w =
      Outcome.normal
        { ctx := { w1.ctx with env := w.ctx.env, winding := w.ctx.winding }
          log := w1.log } := by
  rw [exec_try, hb]
  simp [finally_block_catch_chain, try_restore, World.set, ec_swap_env, ec_swap_winding]

theorem C2_witness :
    exec P0 1 1 (Stmt.probe 0) (try_entry 0 W0)
        = Outcome.normal ((try_entry 0 W0).emit (Event.probe 0 (try_entry 0 W0).ctx)) ∧
    exec P0 2 0
        (Stmt.ec_try (Stmt.probe 0)
          (catch_chain [(ECX_EC, fun _ => Stmt.probe 1)] (Stmt.probe 2))) W0 =
      Outcome.normal
        { ctx := ec_stack
          log := [Event.probe 0 { ec_stack with env := some 1 }] } :=
  ⟨rfl, (C2_no_throw_skips_handlers P0 1 0 (Stmt.probe 0) [(ECX_EC, fun _ => Stmt.probe 1)]
    (Stmt.probe 2) W0 _ rfl).trans (by rfl)⟩

/-! ## Guards -/

theorem wound_cons (g : Guard) (gs : List Guard) (w : World) :
    wound (g :: gs) w = wound gs (w.set (ec_winding_init_and_wind g.d g.u w.ctx).2) := by
  simp [wound, World.set, ec_winding_init_and_wind, Guard.record]

theorem exec_guard (P : Program) (n depth : Nat) (g : Guard) (block : Stmt) (w : World) :
    exec P (n + 1) depth (g.stmt block) w =
      match exec P n depth block (w.set (ec_winding_init_and_wind g.d g.u w.ctx).2) with
      | Outcome.normal w1 =>
          exec P n depth
            (Stmt.ec_unwind
              (if g.on_x then ec_unwind_amount.EC_UNWIND_DISCARD_ONE
               else ec_unwind_amount.EC_UNWIND_ONE)) w1
      | o => o := by
  cases h : g.on_x <;> simp [Guard.stmt, h, exec_with, exec_with_on_x]

/-- A throw that leaves the innermost block leaves all the guards around it. -/
theorem exec_nest_jump (P : Program) (depth : Nat) (block : Stmt) (wj : World) :
    ∀ (gs : List Guard) (n : Nat) (w : World),
      exec P n depth block (wound gs w) = Outcome.jump wj →
      exec P (n + gs.length) depth (nest gs block) w = Outcome.jump wj := by
  intro gs
  induction gs with
  | nil =>
      intro n w h
      simpa [nest, wound, World.set] using h
  | cons g gs ih =>
      intro n w h
      rw [wound_cons] at h
      have h1 := ih n _ h
      simp only [nest, List.length_cons]
      rw [← Nat.add_assoc, exec_guard, h1]

/-- Unwinding all of a stack of quiet actions calls each of them once, from
the head down, and empties the stack. -/
theorem exec_unwind_all_quiet (P : Program) (depth : Nat) :
    ∀ (rs : List ec_winding) (n : Nat) (w : World),
      (∀ r ∈ rs, Quiet P r.unwind r.data) → w.ctx.winding = rs →
      exec P (n + rs.length + 2) depth (Stmt.ec_unwind ec_unwind_amount.EC_UNWIND_ALL) w =
        Outcome.normal
          { ctx := { w.ctx with winding := [] }
            log := w.log ++ rs.map (fun r => Event.call r.unwind r.data) } := by
  intro rs
  induction rs with
  | nil =>
      intro n w _ hw
      rw [exec_unwind_all_nil _ _ _ _ hw]
      cases w with
      | mk ctx log =>
          cases ctx
          simp_all
  | cons r rs ih =>
      intro n w hq hw
      have e : n + (r :: rs).length + 2 = (n + rs.length + 2) + 1 := by
        simp only [List.length_cons]; omega
      rw [e, exec_unwind_all_cons _ _ _ _ r rs hw,
        hq r (List.mem_cons_self r rs) (n + rs.length) depth]
      simp only []
      rw [ih n _ (fun x hx => hq x (List.mem_cons_of_mem r hx)) rfl]
      simp [World.emit, World.set]

/-- A throw from inside nested guards with quiet actions, nothing pending before:
the actions run once each, the last registered first, then control jumps. -/
theorem exec_nest_throw (P : Program) (n depth k : Nat) (gs : List Guard) (w : World)
    (t : Option Cat) (c : Option FnPtr) (p : Option Printer) (data : Val)
    (file function : String) (line : Nat)
    (hq : ∀ g ∈ gs, Quiet P g.u g.d)
    (hw : w.ctx.error.type = none) (hs : w.ctx.winding = []) (he : w.ctx.env = some k) :
    exec P (n + 2 * gs.length + 3) depth
        (nest gs (Stmt.ec_throw t c p data file function line)) w =
      Outcome.jump
        { ctx := thrown t c p data file function line w.ctx
          log := w.log ++ gs.reverse.map Guard.event } := by
  have e : n + 2 * gs.length + 3 = (n + gs.length + 3) + gs.length := by omega
  rw [e]
  apply exec_nest_jump
  rw [exec_throw, exec_set_error_fresh _ _ _ _ _ _ _ _ (by simpa [wound, World.set] using hw)]
  simp only []
  have hu := exec_unwind_all_quiet P depth (gs.reverse.map Guard.record) n
    (((wound gs w).set { (wound gs w).ctx with
        error := { type := t, data := data, data_cleanup := c, data_fprint := p } }).set
      (ec_set_place file function line ((wound gs w).set { (wound gs w).ctx with
        error := { type := t, data := data, data_cleanup := c, data_fprint := p } }).ctx))
    (by
      intro r hr
      simp only [List.mem_map, List.mem_reverse] at hr
      obtain ⟨g, hg, rfl⟩ := hr
      exact hq g hg)
    (by simp [wound, World.set, ec_set_place, hs])
  simp only [List.length_map, List.length_reverse] at hu
  rw [hu]
  simp [wound, World.set, ec_set_place, ec_env, he, thrown, hs, Guard.event, Guard.record,
    Function.comp_def]

/-- Claim C3. Guards of both kinds with quiet actions, nested inside an `ec_try`
entered with no exception pending, the innermost block throwing: every guard's
action is called exactly once on its own payload, the last registered first,
and all of that before the `ec_catch` block (or the `ec_finally` block) starts. -/
theorem C3_throw_runs_guards_in_reverse (P : Program) (n depth : Nat) (gs : List Guard)
    (w : World) (t : Option Cat) (c : Option FnPtr) (p : Option Printer) (data : Val)
    (file function : String) (line : Nat) (id : Nat)
    (hq : ∀ g ∈ gs, Quiet P g.u g.d)
    (hc : ∀ f, c = some f → Quiet P f data)
    (hw : w.ctx.error.type = none) :
    exec P (n + 2 * gs.length + 5) depth
        (Stmt.ec_try (nest gs (Stmt.ec_throw t c p data file function line))
          (Clauses.ec_catch (Stmt.probe id))) w =
      Outcome.normal
        { ctx := ec_clean_fields w.ctx
          log := w.log ++ gs.reverse.map Guard.event
            ++ [Event.probe id (thrown t c p data file function line w.ctx)]
            ++ cleanup_events c data } ∧
    exec P (n + 2 * gs.length + 5) depth
        (Stmt.ec_try (nest gs (Stmt.ec_throw t c p data file function line))
          (Clauses.ec_finally (Stmt.probe id))) w =
      Outcome.normal
        { ctx := ec_clean_fields w.ctx
          log := w.log ++ gs.reverse.map Guard.event
            ++ [Event.probe id (thrown t c p data file function line w.ctx)]
            ++ cleanup_events c data } := by
  have hj := exec_nest_throw P (n + 1) (depth + 1) (depth + 1) gs (try_entry depth w)
    t c p data file function line hq hw rfl rfl
  have e : n + 2 * gs.length + 5 = (n + 1 + 2 * gs.length + 3) + 1 := by omega
  have e4 : n + 1 + 2 * gs.length + 3 = (n + 2 * gs.length) + 4 := by omega
  constructor
  · rw [e, exec_try, hj]
    simp only [Clauses.select, Clauses.finally_block]
    rw [if_pos (by rfl), e4, exec_probe_clean P _ _ _ _ (by
      intro f hf
      exact hc f hf)]
    simp [try_restore, try_entry, World.set, ec_swap_env, ec_swap_winding, thrown,
      ec_set_place, ec_clean_fields]
  · rw [e, exec_try, hj]
    simp only [Clauses.select, Clauses.finally_block]
    rw [if_pos (by rfl), e4, exec_probe_clean P _ _ _ _ (by
      intro f hf
      exact hc f hf)]
    simp [try_restore, try_entry, World.set, ec_swap_env, ec_swap_winding, thrown,
      ec_set_place, ec_clean_fields]

theorem C3_witness :
    Quiet P0 FnPtr.free (Val.obj 1) ∧ Quiet P0 (FnPtr.user 3) (Val.obj 2) ∧
    Quiet P0 FnPtr.free (Val.str 9 "An exception from within.") ∧
    W0.ctx.error.type = none ∧
    exec P0 9 0
        (Stmt.ec_try
          (Stmt.ec_with (Val.obj 1) FnPtr.free
            (Stmt.ec_with_on_x (Val.obj 2) (FnPtr.user 3)
              (ec_throw_str (some ECX_EC) (Val.str 9 "An exception from within.")
                "with.c" "with_ok_thrown" 69)))
          (Clauses.ec_catch (Stmt.probe 0))) W0 =
      Outcome.normal
        { ctx := ec_stack
          log := [Event.call (FnPtr.user 3) (Val.obj 2), Event.call FnPtr.free (Val.obj 1),
            Event.probe 0
              (thrown (some ECX_EC) (some FnPtr.free) (some Printer.ec_fprint_str)
                (Val.str 9 "An exception from within.") "with.c" "with_ok_thrown" 69 ec_stack),
            Event.call FnPtr.free (Val.str 9 "An exception from within.")] } :=
  have h1 : Quiet P0 FnPtr.free (Val.obj 1) := quiet_free P0 _
  have h2 : Quiet P0 (FnPtr.user 3) (Val.obj 2) := quiet_user_skip P0 3 _ rfl
  have h3 : Quiet P0 FnPtr.free (Val.str 9 "An exception from within.") := quiet_free P0 _
  ⟨h1, h2, h3, rfl,
    (C3_throw_runs_guards_in_reverse P0 0 0
      [Guard.mk false (Val.obj 1) FnPtr.free, Guard.mk true (Val.obj 2) (FnPtr.user 3)]
      W0 (some ECX_EC) (some FnPtr.free) (some Printer.ec_fprint_str)
      (Val.str 9 "An exception from within.") "with.c" "with_ok_thrown" 69 0
      (by
        intro g hg
        simp only [List.mem_cons, List.mem_singleton, List.mem_nil_iff, or_false] at hg
        rcases hg with rfl | rfl
        · exact h1
        · exact h2)
      (by
        intro f hf
        cases hf
        exact h3)
      rfl).1⟩

/-- Claim C4. Nested guards of both kinds around a block that returns and leaves the
error stack as it is: the action of every `ec_with` guard is called exactly
once, the last registered first; the action of an `ec_with_on_x` guard, of
which nothing is assumed, is never called; the error stack is as before. -/
theorem C4_normal_exit_runs_with_guards (P : Program) (n depth k : Nat) (gs : List Guard)
    (inner : Stmt) (evs : List Event) (w : World)
    (hq : ∀ g ∈ gs, g.on_x = false → Quiet P g.u g.d)
    (hin : ∀ m, exec P (m + k) depth inner (wound gs w) =
      Outcome.normal { ctx := (wound gs w).ctx, log := w.log ++ evs }) :
    exec P (n + k + gs.length + 3) depth (nest gs inner) w =
      Outcome.normal
        { ctx := w.ctx
          log := w.log ++ evs
            ++ ((gs.filter (fun g => !g.on_x)).reverse.map Guard.event) } := by
  induction gs generalizing w with
  | nil =>
      have h := hin (n + 3)
      have e : n + k + ([] : List Guard).length + 3 = n + 3 + k := by
        simp only [List.length_nil]; omega
      rw [e]
      simpa [nest, wound, World.set] using h
  | cons g gs ih =>
      have e : n + k + (g :: gs).length + 3 = (n + k + gs.length + 3) + 1 := by
        simp only [List.length_cons]; omega
      have e1 : n + k + gs.length + 3 = (n + k + gs.length + 2) + 1 := by omega
      have h1 := ih (w.set (ec_winding_init_and_wind g.d g.u w.ctx).2)
        (fun x hx => hq x (List.mem_cons_of_mem g hx))
        (by
          intro m
          have := hin m
          rw [wound_cons] at this
          exact this)
      simp only [nest]
      rw [e, exec_guard, h1]
      simp only []
      cases hg : g.on_x with
      | true =>
          rw [if_pos rfl, e1, exec_unwind_discard_cons _ _ _ _ (Guard.record g) w.ctx.winding
            (by simp [World.set, ec_winding_init_and_wind, Guard.record])]
          simp [World.set, ec_winding_init_and_wind, hg]
      | false =>
          rw [if_neg (by simp), e1, exec_unwind_one_cons _ _ _ _ (Guard.record g) w.ctx.winding
            (by simp [World.set, ec_winding_init_and_wind, Guard.record])]
          have hq1 := hq g (List.mem_cons_self g gs) hg (n + k + gs.length) depth
          simp only [Guard.record]
          rw [hq1]
          simp [World.set, World.emit, ec_winding_init_and_wind, hg, Guard.event]

theorem C4_witness :
    Quiet P1 FnPtr.free (Val.obj 1) ∧ Quiet P1 (FnPtr.user 0) (Val.obj 3) ∧
    exec P1 1 0 (Stmt.probe 0)
        (wound [Guard.mk false (Val.obj 1) FnPtr.free, Guard.mk true (Val.obj 2) (FnPtr.user 1),
          Guard.mk false (Val.obj 3) (FnPtr.user 0)] W0) =
      Outcome.normal
        { ctx := { ec_stack with
              winding := [ec_winding.mk (Val.obj 3) (FnPtr.user 0),
                ec_winding.mk (Val.obj 2) (FnPtr.user 1), ec_winding.mk (Val.obj 1) FnPtr.free] }
          log := [Event.probe 0
              { ec_stack with
                winding := [ec_winding.mk (Val.obj 3) (FnPtr.user 0),
                  ec_winding.mk (Val.obj 2) (FnPtr.user 1),
                  ec_winding.mk (Val.obj 1) FnPtr.free] }] } ∧
    exec P1 7 0
        (Stmt.ec_with (Val.obj 1) FnPtr.free
          (Stmt.ec_with_on_x (Val.obj 2) (FnPtr.user 1)
            (Stmt.ec_with (Val.obj 3) (FnPtr.user 0) (Stmt.probe 0)))) W0 =
      Outcome.normal
        { ctx := ec_stack
          log := [Event.probe 0
              { ec_stack with
                winding := [ec_winding.mk (Val.obj 3) (FnPtr.user 0),
                  ec_winding.mk (Val.obj 2) (FnPtr.user 1), ec_winding.mk (Val.obj 1) FnPtr.free] },
            Event.call (FnPtr.user 0) (Val.obj 3), Event.call FnPtr.free (Val.obj 1)] } :=
  have h1 : Quiet P1 FnPtr.free (Val.obj 1) := quiet_free P1 _
  have h3 : Quiet P1 (FnPtr.user 0) (Val.obj 3) := quiet_user_skip P1 0 _ rfl
  ⟨h1, h3, rfl,
    C4_normal_exit_runs_with_guards P1 3 0 1
      [Guard.mk false (Val.obj 1) FnPtr.free, Guard.mk true (Val.obj 2) (FnPtr.user 1),
        Guard.mk false (Val.obj 3) (FnPtr.user 0)]
      (Stmt.probe 0) _ W0
      (by
        intro g hg hx
        simp only [List.mem_cons, List.mem_singleton, List.mem_nil_iff, or_false] at hg
        rcases hg with rfl | rfl | rfl
        · exact h1
        · cases hx
        · exact h3)
      (fun _ => rfl)⟩

/-! ## Dispatch -/

theorem ec_type_none (s : ec) : (ec_type none s).1 = s.error.type := rfl

theorem ec_env_none (s : ec) : (ec_env none s).1 = s.env := rfl

theorem select_catch_chain_skip (c : Cat) (last : Stmt) :
    ∀ (pre : List (Cat × (Val → Stmt))) (rest : List (Cat × (Val → Stmt))),
      (∀ x ∈ pre, x.1.addr ≠ c.addr) →
      (catch_chain (pre ++ rest) last).select (some c) = (catch_chain rest last).select (some c) := by
  intro pre
  induction pre with
  | nil =>
      intro rest _
      rfl
  | cons x pre ih =>
      intro rest h
      have hx : x.1.addr ≠ c.addr := h x (List.mem_cons_self x pre)
      simp only [List.cons_append, catch_chain, Clauses.select, same_type, beq_iff_eq, hx,
        if_false]
      exact ih rest (fun y hy => h y (List.mem_cons_of_mem x hy))

/-- Claim C5. A clause `ec_catch_a (t, d)` is not entered for a thrown category `c`
that is another marker than `t`, although it has the same text: the construct
behaves as if the clause were not there, and the clauses after it get the
exception. -/
theorem C5_matching_is_by_identity (P : Program) (n depth : Nat) (body : Stmt)
    (t c : Cat) (block : Val → Stmt) (rest : Clauses Stmt) (w w1 : World)
    (hb : exec P n (depth + 1) body (try_entry depth w) = Outcome.jump w1)
    (hc : w1.ctx.error.type = some c)
    (hne : c.addr ≠ t.addr) (_htext : c.text = t.text) :
    exec P (n + 1) depth (Stmt.ec_try body (Clauses.ec_catch_a (some t) block rest)) w =
      exec P (n + 1) depth (Stmt.ec_try body rest) w := by
  have hne1 : ¬ t.addr = c.addr := fun h => hne h.symm
  rw [exec_try, exec_try, hb]
  simp [Clauses.select, Clauses.finally_block, ec_type_none, hc, same_type, hne1]

theorem C5_witness :
    exec P0 4 1
        (ec_throw_str_static (some (Cat.mk 7 "Generic")) "Catch me!" 64 "try.c" "main" 37)
        (try_entry 0 W0) =
      Outcome.jump
        ((try_entry 0 W0).set
          (thrown (some (Cat.mk 7 "Generic")) none (some Printer.ec_fprint_str)
            (Val.str 64 "Catch me!") "try.c" "main" 37 (try_entry 0 W0).ctx)) ∧
    (Cat.mk 7 "Generic").addr ≠ ECX_EC.addr ∧ (Cat.mk 7 "Generic").text = ECX_EC.text ∧
    exec P0 5 0
        (Stmt.ec_try
          (ec_throw_str_static (some (Cat.mk 7 "Generic")) "Catch me!" 64 "try.c" "main" 37)
          (Clauses.ec_catch_a (some ECX_EC) (fun _ => Stmt.call (FnPtr.user 1) Val.null)
            (Clauses.ec_catch (Stmt.call (FnPtr.user 2) Val.null)))) W0 =
      Outcome.normal
        { ctx := ec_stack, log := [Event.call (FnPtr.user 2) Val.null] } :=
  ⟨rfl, by decide, rfl,
    (C5_matching_is_by_identity P0 4 0
      (ec_throw_str_static (some (Cat.mk 7 "Generic")) "Catch me!" 64 "try.c" "main" 37)
      ECX_EC (Cat.mk 7 "Generic")
      (fun _ => Stmt.call (FnPtr.user 1) Val.null)
      (Clauses.ec_catch (Stmt.call (FnPtr.user 2) Val.null)) W0 _ rfl rfl
      (by decide) rfl).trans (by rfl)⟩

/-- Claim C6. A try block that throws the category `c`, followed by typed clauses and
a catch-all: what runs is the block of the first clause whose marker is `c`
(with the thrown payload bound) and then `ec_clean`, nothing else; when no
clause has the marker `c`, it is the catch-all block and then `ec_clean`. -/
theorem C6_first_match_or_catch_all (P : Program) (n depth : Nat) (body : Stmt)
    (typed : List (Cat × (Val → Stmt))) (last : Stmt) (c : Cat) (w w1 : World)
    (hb : exec P n (depth + 1) body (try_entry depth w) = Outcome.jump w1)
    (he : w1.ctx.env = some (depth + 1))
    (hc : w1.ctx.error.type = some c) :
    (∀ pre t block post, typed = pre ++ (t, block) :: post →
      (∀ x ∈ pre, x.1.addr ≠ c.addr) → t.addr = c.addr →
      exec P (n + 1) depth (Stmt.ec_try body (catch_chain typed last)) w =
        exec P n (depth + 1) (Stmt.seq (block w1.ctx.error.data) Stmt.ec_clean)
          (try_restore w w1)) ∧
    ((∀ x ∈ typed, x.1.addr ≠ c.addr) →
      exec P (n + 1) depth (Stmt.ec_try body (catch_chain typed last)) w =
        exec P n (depth + 1) (Stmt.seq last Stmt.ec_clean) (try_restore w w1)) := by
  constructor
  · intro pre t block post htyped hpre ht
    have hsel : (catch_chain typed last).select (some c) = some block := by
      rw [htyped, select_catch_chain_skip c last pre _ hpre]
      simp [catch_chain, Clauses.select, same_type, ht]
    rw [exec_try, hb]
    simp only [he, if_true, ec_type_none, hc, hsel, finally_block_catch_chain, ec_get_data]
    exact outcome_match_id _
  · intro hall
    have hsel : (catch_chain typed last).select (some c) = some (fun _ => last) := by
      have h := select_catch_chain_skip c last typed [] hall
      rw [List.append_nil] at h
      rw [h]
      rfl
    rw [exec_try, hb]
    simp only [he, if_true, ec_type_none, hc, hsel, finally_block_catch_chain, ec_get_data]
    exact outcome_match_id _

theorem C6_witness :
    exec P0 4 1
        (ec_throw_str_static (some ECX_EC) "Cause longjmp." 64 "volatile.c" "main" 190)
        (try_entry 0 W0) =
      Outcome.jump
        ((try_entry 0 W0).set
          (thrown (some ECX_EC) none (some Printer.ec_fprint_str)
            (Val.str 64 "Cause longjmp.") "volatile.c" "main" 190 (try_entry 0 W0).ctx)) ∧
    exec P0 5 0
        (Stmt.ec_try
          (ec_throw_str_static (some ECX_EC) "Cause longjmp." 64 "volatile.c" "main" 190)
          (Clauses.ec_catch_a (some ECX_NULL) (fun e => Stmt.call (FnPtr.user 1) e)
            (Clauses.ec_catch_a (some ECX_EC) (fun e => Stmt.call (FnPtr.user 2) e)
              (Clauses.ec_catch_a (some ECX_EC) (fun e => Stmt.call (FnPtr.user 3) e)
                (Clauses.ec_catch (Stmt.call (FnPtr.user 4) Val.null)))))) W0 =
      Outcome.normal
        { ctx := ec_stack, log := [Event.call (FnPtr.user 2) (Val.str 64 "Cause longjmp.")] } :=
  ⟨rfl,
    ((C6_first_match_or_catch_all P0 4 0
      (ec_throw_str_static (some ECX_EC) "Cause longjmp." 64 "volatile.c" "main" 190)
      [(ECX_NULL, fun e => Stmt.call (FnPtr.user 1) e),
       (ECX_EC, fun e => Stmt.call (FnPtr.user 2) e),
       (ECX_EC, fun e => Stmt.call (FnPtr.user 3) e)]
      (Stmt.call (FnPtr.user 4) Val.null) ECX_EC W0 _ rfl rfl rfl).1
        [(ECX_NULL, fun e => Stmt.call (FnPtr.user 1) e)] ECX_EC
        (fun e => Stmt.call (FnPtr.user 2) e)
        [(ECX_EC, fun e => Stmt.call (FnPtr.user 3) e)] rfl
        (by
          intro x hx
          simp only [List.mem_singleton] at hx
          subst hx
          decide)
        rfl).trans (by rfl)⟩

/-! ## Rethrow -/

/-- An `ec_try` whose block throws with nothing pending and whose entered clause
only rethrows passes the exception on to the enclosing `ec_try`, untouched. -/
theorem exec_try_rethrow (P : Program) (n depth : Nat) (c : Cat) (p : Val)
    (cl : Option FnPtr) (pr : Option Printer) (file function : String) (line : Nat)
    (clauses : Clauses Stmt) (w : World)
    (hsel : clauses.select (some c) = some (fun _ => Stmt.ec_rethrow))
    (hw : w.ctx.error.type = none) :
    exec P (n + 4) (depth + 1)
        (Stmt.ec_try (Stmt.ec_throw (some c) cl pr p file function line) clauses)
        (try_entry depth w) =
      Outcome.jump
        ((try_entry depth w).set
          (thrown (some c) cl pr p file function line (try_entry depth w).ctx)) := by
  have hj := exec_throw_fresh P (n + 1) (depth + 1 + 1) (try_entry (depth + 1) (try_entry depth w))
    (some c) cl pr p file function line (depth + 1 + 1) hw rfl rfl
  rw [exec_try, hj]
  simp only [ec_type_none]
  rw [if_pos (by rfl)]
  have hs : Clauses.select ((try_entry (depth + 1) (try_entry depth w)).set
      (thrown (some c) cl pr p file function line
        (try_entry (depth + 1) (try_entry depth w)).ctx)).ctx.error.type clauses =
      some (fun _ => Stmt.ec_rethrow) := hsel
  rw [hs]
  simp only []
  rw [exec_seq, exec_rethrow]
  rw [if_pos (by rfl), if_neg (by simp [ec_env_none, try_restore, try_entry, World.set,
    ec_swap_env, ec_swap_winding, thrown, ec_set_place]),
    exec_unwind_all_nil _ _ _ _ (by rfl)]
  simp [try_restore, try_entry, World.set, ec_swap_env, ec_swap_winding, thrown, ec_set_place]

/-- Claim C8. Two nested `ec_try`, nothing pending before, the inner block throwing
`(c, p)` and the inner clause (typed for `c`, or the catch-all) doing
`ec_rethrow`: the outer clause `ec_catch_a (c, e)` is entered with `e = p`, in
an error stack that holds the category `c` and the payload `p` of the throw,
and no event, so no payload cleanup, comes before the outer block. -/
theorem C8_rethrow_keeps_category_and_payload (P : Program) (n depth : Nat) (c : Cat) (p : Val)
    (cl : Option FnPtr) (pr : Option Printer) (file function : String) (line : Nat)
    (inner_rest : Clauses Stmt) (block : Val → Stmt) (rest : Clauses Stmt) (w : World)
    (hw : w.ctx.error.type = none) :
    exec P (n + 5) depth
        (Stmt.ec_try
          (Stmt.ec_try (Stmt.ec_throw (some c) cl pr p file function line)
            (Clauses.ec_catch Stmt.ec_rethrow))
          (Clauses.ec_catch_a (some c) block rest)) w =
      (match exec P (n + 4) (depth + 1) (Stmt.seq (block p) Stmt.ec_clean)
          { ctx := thrown (some c) cl pr p file function line w.ctx, log := w.log } with
       | Outcome.normal w3 =>
           (match rest.finally_block with
            | some b => exec P (n + 4) depth (Stmt.seq b Stmt.ec_clean) w3
            | none => Outcome.normal w3)
       | o => o) ∧
    exec P (n + 5) depth
        (Stmt.ec_try
          (Stmt.ec_try (Stmt.ec_throw (some c) cl pr p file function line)
            (Clauses.ec_catch_a (some c) (fun _ => Stmt.ec_rethrow) inner_rest))
          (Clauses.ec_catch_a (some c) block rest)) w =
      (match exec P (n + 4) (depth + 1) (Stmt.seq (block p) Stmt.ec_clean)
          { ctx := thrown (some c) cl pr p file function line w.ctx, log := w.log } with
       | Outcome.normal w3 =>
           (match rest.finally_block with
            | some b => exec P (n + 4) depth (Stmt.seq b Stmt.ec_clean) w3
            | none => Outcome.normal w3)
       | o => o) := by
  constructor
  · rw [exec_try, exec_try_rethrow P n depth c p cl pr file function line
      (Clauses.ec_catch Stmt.ec_rethrow) w rfl hw]
    simp [World.set, ec_swap_env, ec_swap_winding, ec_type_none, Clauses.select, same_type,
      Clauses.finally_block, ec_get_data, thrown, try_entry, try_restore, ec_set_place]
  · rw [exec_try, exec_try_rethrow P n depth c p cl pr file function line _ w
      (by simp [Clauses.select, same_type]) hw]
    simp [World.set, ec_swap_env, ec_swap_winding, ec_type_none, Clauses.select, same_type,
      Clauses.finally_block, ec_get_data, thrown, try_entry, try_restore, ec_set_place]

theorem C8_witness :
    W0.ctx.error.type = none ∧
    exec P0 7 0
        (Stmt.ec_try
          (Stmt.ec_try
            (ec_throw_str (some ECX_EC) (Val.str 64 "Cannot allocate a string.") "try.c" "main" 30)
            (Clauses.ec_catch Stmt.ec_rethrow))
          (Clauses.ec_catch_a (some ECX_EC)
            (fun e => Stmt.seq (Stmt.call (FnPtr.user 0) e) (Stmt.probe 1))
            (Clauses.ec_catch (Stmt.probe 2)))) W0 =
      Outcome.normal
        { ctx := ec_stack
          log := [Event.call (FnPtr.user 0) (Val.str 64 "Cannot allocate a string."),
            Event.probe 1
              (thrown (some ECX_EC) (some FnPtr.free) (some Printer.ec_fprint_str)
                (Val.str 64 "Cannot allocate a string.") "try.c" "main" 30 ec_stack),
            Event.call FnPtr.free (Val.str 64 "Cannot allocate a string.")] } :=
  ⟨rfl,
    (C8_rethrow_keeps_category_and_payload P0 2 0 ECX_EC (Val.str 64 "Cannot allocate a string.")
      (some FnPtr.free) (some Printer.ec_fprint_str) "try.c" "main" 30
      (Clauses.ec_catch Stmt.skip)
      (fun e => Stmt.seq (Stmt.call (FnPtr.user 0) e) (Stmt.probe 1))
      (Clauses.ec_catch (Stmt.probe 2)) W0 rfl).1.trans (by rfl)⟩

/-! ## Finally -/

/-- Claim C10, amended to what the code does. An `ec_finally` absorbs the exception. A try
block that throws `(c, p)` (nothing pending before, quiet payload cleanup),
closed by an `ec_finally` whose block only observes, sitting in the block of an
enclosing `ec_try` with any typed clauses and a catch-all: the finally block
sees the record, then the record is cleaned (the payload cleanup called once),
the statement after the construct runs with nothing pending, and no clause of
the enclosing `ec_try` is entered. -/
theorem C10_finally_absorbs (P : Program) (n depth : Nat)
    (t : Option Cat) (c : Option FnPtr) (p : Option Printer) (data : Val)
    (file function : String) (line : Nat) (id id2 : Nat)
    (typed : List (Cat × (Val → Stmt))) (last : Stmt) (w : World)
    (hw : w.ctx.error.type = none)
    (hc : ∀ f, c = some f → Quiet P f data) :
    exec P (n + 7) depth
        (Stmt.ec_try
          (Stmt.seq
            (Stmt.ec_try (Stmt.ec_throw t c p data file function line)
              (Clauses.ec_finally (Stmt.probe id)))
            (Stmt.probe id2))
          (catch_chain typed last)) w =
      Outcome.normal
        { ctx := ec_clean_fields w.ctx
          log := w.log
            ++ [Event.probe id (thrown t c p data file function line (try_entry depth w).ctx)]
            ++ cleanup_events c data
            ++ [Event.probe id2 (ec_clean_fields (try_entry depth w).ctx)] } := by
  have hj := exec_throw_fresh P (n + 2) (depth + 1 + 1) (try_entry (depth + 1) (try_entry depth w))
    t c p data file function line (depth + 1 + 1) hw rfl rfl
  rw [exec_try, exec_seq, exec_try, hj]
  simp only [Clauses.select, Clauses.finally_block]
  rw [if_pos (by rfl), exec_probe_clean P n (depth + 1) _ id (by
    intro f hf
    exact hc f hf)]
  simp only []
  rw [exec_probe]
  simp [finally_block_catch_chain, try_restore, try_entry, World.set, World.emit, ec_swap_env,
    ec_swap_winding, thrown, ec_set_place, ec_clean_fields]

theorem C10_witness :
    W0.ctx.error.type = none ∧
    exec P0 7 0
        (Stmt.ec_try
          (Stmt.seq
            (Stmt.ec_try
              (ec_throw_str (some ECX_EC) (Val.str 64 "Cause longjmp.") "volatile.c" "main" 84)
              (Clauses.ec_finally (Stmt.probe 1)))
            (Stmt.probe 2))
          (Clauses.ec_catch_a (some ECX_EC) (fun _ => Stmt.probe 3)
            (Clauses.ec_catch (Stmt.probe 4)))) W0 =
      Outcome.normal
        { ctx := ec_stack
          log := [Event.probe 1
              (thrown (some ECX_EC) (some FnPtr.free) (some Printer.ec_fprint_str)
                (Val.str 64 "Cause longjmp.") "volatile.c" "main" 84
                { ec_stack with env := some 1 }),
            Event.call FnPtr.free (Val.str 64 "Cause longjmp."),
            Event.probe 2 { ec_stack with env := some 1 }] } :=
  ⟨rfl,
    C10_finally_absorbs P0 0 0 (some ECX_EC) (some FnPtr.free) (some Printer.ec_fprint_str)
      (Val.str 64 "Cause longjmp.") "volatile.c" "main" 84 1 2
      [(ECX_EC, fun _ => Stmt.probe 3)] (Stmt.probe 4) W0 rfl
      (by
        intro f hf
        cases hf
        exact quiet_free P0 _)⟩

/-- Claim C10 as stated fails. The inner try block throws `(ECX_EC, p)` and is
closed by an `ec_finally` whose block only observes: the construct returns, the
statement after it (probe 2) runs and sees no pending record, and the catch-all
of the enclosing `ec_try` (probe 3) is never entered. -/
theorem C10_counterexample :
    exec P0 7 0
        (Stmt.ec_try
          (Stmt.seq
            (Stmt.ec_try
              (ec_throw_str_static (some ECX_EC) "Cause longjmp." 64 "volatile.c" "main" 84)
              (Clauses.ec_finally (Stmt.probe 1)))
            (Stmt.probe 2))
          (Clauses.ec_catch (Stmt.probe 3))) W0 =
      Outcome.normal
        { ctx := ec_stack
          log := [Event.probe 1
              (thrown (some ECX_EC) none (some Printer.ec_fprint_str)
                (Val.str 64 "Cause longjmp.") "volatile.c" "main" 84
                { ec_stack with env := some 1 }),
            Event.probe 2 { ec_stack with env := some 1 }] } ∧
    ¬ ∃ w seen,
      exec P0 7 0
          (Stmt.ec_try
            (Stmt.seq
              (Stmt.ec_try
                (ec_throw_str_static (some ECX_EC) "Cause longjmp." 64 "volatile.c" "main" 84)
                (Clauses.ec_finally (Stmt.probe 1)))
              (Stmt.probe 2))
            (Clauses.ec_catch (Stmt.probe 3))) W0 = Outcome.normal w ∧
        Event.probe 3 seen ∈ w.log := by
  have h : exec P0 7 0
        (Stmt.ec_try
          (Stmt.seq
            (Stmt.ec_try
              (ec_throw_str_static (some ECX_EC) "Cause longjmp." 64 "volatile.c" "main" 84)
              (Clauses.ec_finally (Stmt.probe 1)))
            (Stmt.probe 2))
          (Clauses.ec_catch (Stmt.probe 3))) W0 =
      Outcome.normal
        { ctx := ec_stack
          log := [Event.probe 1
              (thrown (some ECX_EC) none (some Printer.ec_fprint_str)
                (Val.str 64 "Cause longjmp.") "volatile.c" "main" 84
                { ec_stack with env := some 1 }),
            Event.probe 2 { ec_stack with env := some 1 }] } := rfl
  refine ⟨h, ?_⟩
  rintro ⟨w, seen, hw, hmem⟩
  rw [h] at hw
  cases hw
  simp at hmem

/-! ## The library calls one by one -/

/-- What `ec_fprint` writes depends on the pending record and the place only. -/
theorem ec_fprint_eq (P : Program) (s1 s2 : ec) (he : s1.error = s2.error)
    (hp : s1.place = s2.place) : ec_fprint P s1 = ec_fprint P s2 := by
  simp only [ec_fprint, ec_fprint_line, he, hp]

theorem exec_set_error_some (P : Program) (n depth : Nat) (w : World) (t : Option Cat)
    (d : Val) (c : Option FnPtr) (p : Option Printer) (t0 : Cat) (f : FnPtr) (text : String)
    (ht : w.ctx.error.type = some t0) (hf : w.ctx.error.data_cleanup = some f)
    (hpr : ec_fprint P w.ctx = some text) :
    exec P (n + 1) depth (Stmt.ec_set_error t d c p) w =
      match exec P n depth (Stmt.call f w.ctx.error.data)
          (w.emit (Event.stderr text)) with
      | Outcome.normal w2 =>
          Outcome.normal (w2.set { w2.ctx with
            error := { type := t, data := d, data_cleanup := c, data_fprint := p } })
      | o => o := by
  simp only [exec, ht, hf, hpr, Option.isSome_some, if_true, World.emit]

theorem exec_set_error_none (P : Program) (n depth : Nat) (w : World) (t : Option Cat)
    (d : Val) (c : Option FnPtr) (p : Option Printer) (t0 : Cat) (text : String)
    (ht : w.ctx.error.type = some t0) (hf : w.ctx.error.data_cleanup = none)
    (hpr : ec_fprint P w.ctx = some text) :
    exec P (n + 1) depth (Stmt.ec_set_error t d c p) w =
      Outcome.normal ((w.emit (Event.stderr text)).set { w.ctx with
        error := { type := t, data := d, data_cleanup := c, data_fprint := p } }) := by
  simp only [exec, ht, hf, hpr, Option.isSome_some, if_true, World.emit]

/-- With a record pending whose payload the printer cannot print, `ec_set_error`
has undefined behaviour: nothing of what follows the `ec_fprint` happens. -/
theorem exec_set_error_undefined (P : Program) (n depth : Nat) (w : World) (t : Option Cat)
    (d : Val) (c : Option FnPtr) (p : Option Printer) (t0 : Cat)
    (ht : w.ctx.error.type = some t0) (hpr : ec_fprint P w.ctx = none) :
    exec P (n + 1) depth (Stmt.ec_set_error t d c p) w = Outcome.undefined := by
  simp only [exec, ht, hpr, Option.isSome_some, if_true]

theorem exec_set_error_pending (P : Program) (n depth : Nat) (w : World) (t : Option Cat)
    (d : Val) (c : Option FnPtr) (p : Option Printer) (t0 : Cat) (text : String)
    (ht : w.ctx.error.type = some t0)
    (hc : ∀ f, w.ctx.error.data_cleanup = some f → Quiet P f w.ctx.error.data)
    (hpr : ec_fprint P w.ctx = some text) :
    exec P (n + 3) depth (Stmt.ec_set_error t d c p) w =
      Outcome.normal
        { ctx := { w.ctx with
            error := { type := t, data := d, data_cleanup := c, data_fprint := p } }
          log := w.log ++ [Event.stderr text]
            ++ cleanup_events w.ctx.error.data_cleanup w.ctx.error.data } := by
  cases hf : w.ctx.error.data_cleanup with
  | none =>
      rw [exec_set_error_none P (n + 2) depth w t d c p t0 text ht hf hpr]
      simp [World.emit, World.set, cleanup_events]
  | some f =>
      rw [exec_set_error_some P (n + 2) depth w t d c p t0 f text ht hf hpr,
        hc f hf n depth (w.emit (Event.stderr text))]
      simp [World.emit, World.set, cleanup_events]

/-- Claim C15. `ec_unwind (EC_UNWIND_ONE)` on a stack `head :: next`: the head is
taken off first and then its action runs on its payload, in a stack that is
already `next`; when the action is quiet, that one call is all that happens,
and `next` and the rest of the error stack are untouched. -/
theorem C15_unwind_one (P : Program) (n depth : Nat) (w : World)
    (head : ec_winding) (next : List ec_winding)
    (hw : w.ctx.winding = head :: next) :
    exec P (n + 1) depth (Stmt.ec_unwind ec_unwind_amount.EC_UNWIND_ONE) w =
      exec P n depth (Stmt.call head.unwind head.data)
        { ctx := { env := w.ctx.env, winding := next, error := w.ctx.error,
                   place := w.ctx.place }
          log := w.log } ∧
    (Quiet P head.unwind head.data →
      exec P (n + 3) depth (Stmt.ec_unwind ec_unwind_amount.EC_UNWIND_ONE) w =
        Outcome.normal
          { ctx := { env := w.ctx.env, winding := next, error := w.ctx.error,
                     place := w.ctx.place }
            log := w.log ++ [Event.call head.unwind head.data] }) := by
  constructor
  · rw [exec_unwind_one_cons _ _ _ _ head next hw]
    rfl
  · intro hq
    rw [exec_unwind_one_cons _ _ _ _ head next hw, hq n depth]
    rfl

theorem C15_witness :
    (World.mk { ec_stack with
        winding := [ec_winding.mk (Val.obj 2) FnPtr.free,
          ec_winding.mk (Val.obj 1) (FnPtr.user 1)] } []).ctx.winding =
      ec_winding.mk (Val.obj 2) FnPtr.free :: [ec_winding.mk (Val.obj 1) (FnPtr.user 1)] ∧
    Quiet P1 FnPtr.free (Val.obj 2) ∧
    exec P1 3 0 (Stmt.ec_unwind ec_unwind_amount.EC_UNWIND_ONE)
        (World.mk { ec_stack with
          winding := [ec_winding.mk (Val.obj 2) FnPtr.free,
            ec_winding.mk (Val.obj 1) (FnPtr.user 1)] } []) =
      Outcome.normal
        { ctx := { ec_stack with winding := [ec_winding.mk (Val.obj 1) (FnPtr.user 1)] }
          log := [Event.call FnPtr.free (Val.obj 2)] } :=
  ⟨rfl, quiet_free P1 _,
    (C15_unwind_one P1 0 0 _ (ec_winding.mk (Val.obj 2) FnPtr.free)
      [ec_winding.mk (Val.obj 1) (FnPtr.user 1)] rfl).2 (quiet_free P1 _)⟩

/-- Claim C16. `ec_unwind (EC_UNWIND_DISCARD_ONE)` on a stack `head :: next`
leaves the stack `next`, calls nothing and writes nothing, and every other
field of the error stack is as before. -/
theorem C16_unwind_discard_one (P : Program) (n depth : Nat) (w : World)
    (head : ec_winding) (next : List ec_winding)
    (hw : w.ctx.winding = head :: next) :
    exec P (n + 1) depth (Stmt.ec_unwind ec_unwind_amount.EC_UNWIND_DISCARD_ONE) w =
      Outcome.normal
        { ctx := { env := w.ctx.env, winding := next, error := w.ctx.error,
                   place := w.ctx.place }
          log := w.log } := by
  rw [exec_unwind_discard_cons _ _ _ _ head next hw]
  rfl

theorem C16_witness :
    (World.mk { ec_stack with
        winding := [ec_winding.mk (Val.obj 2) (FnPtr.user 1),
          ec_winding.mk (Val.obj 1) FnPtr.free] } []).ctx.winding =
      ec_winding.mk (Val.obj 2) (FnPtr.user 1) :: [ec_winding.mk (Val.obj 1) FnPtr.free] ∧
    exec P1 1 0 (Stmt.ec_unwind ec_unwind_amount.EC_UNWIND_DISCARD_ONE)
        (World.mk { ec_stack with
          winding := [ec_winding.mk (Val.obj 2) (FnPtr.user 1),
            ec_winding.mk (Val.obj 1) FnPtr.free] } []) =
      Outcome.normal
        { ctx := { ec_stack with winding := [ec_winding.mk (Val.obj 1) FnPtr.free] }
          log := [] } :=
  ⟨rfl, C16_unwind_discard_one P1 0 0 _ (ec_winding.mk (Val.obj 2) (FnPtr.user 1))
    [ec_winding.mk (Val.obj 1) FnPtr.free] rfl⟩

theorem wind_all_winding (rs : List ec_winding) :
    ∀ s : ec, wind_all rs s = { s with winding := rs.reverse ++ s.winding } := by
  induction rs with
  | nil =>
      intro s
      rfl
  | cons r rs ih =>
      intro s
      simp only [wind_all, List.foldl_cons] at ih ⊢
      rw [ih]
      simp [ec_winding_init_and_wind]

/-- Claim C17. `ec_unwind (EC_UNWIND_ALL)` on a stack of quiet actions returns,
has called the action of every record exactly once on its payload, from the
head of the stack down, and leaves the stack empty. For records wound one after
the other onto an empty stack that is the reverse of the order of winding. On
an empty stack it calls nothing and changes nothing. -/
theorem C17_unwind_all (P : Program) (n depth : Nat) (w : World) (rs : List ec_winding)
    (hq : ∀ r ∈ rs, Quiet P r.unwind r.data) :
    (w.ctx.winding = rs →
      exec P (n + rs.length + 2) depth (Stmt.ec_unwind ec_unwind_amount.EC_UNWIND_ALL) w =
        Outcome.normal
          { ctx := { env := w.ctx.env, winding := [], error := w.ctx.error,
                     place := w.ctx.place }
            log := w.log ++ rs.map ec_winding.event }) ∧
    (w.ctx.winding = [] →
      exec P (n + rs.length + 2) depth (Stmt.ec_unwind ec_unwind_amount.EC_UNWIND_ALL)
          (w.set (wind_all rs w.ctx)) =
        Outcome.normal { ctx := w.ctx, log := w.log ++ rs.reverse.map ec_winding.event }) ∧
    (w.ctx.winding = [] →
      exec P (n + 1) depth (Stmt.ec_unwind ec_unwind_amount.EC_UNWIND_ALL) w =
        Outcome.normal w) := by
  refine ⟨?_, ?_, ?_⟩
  · intro hw
    rw [exec_unwind_all_quiet P depth rs n w hq hw]
    rfl
  · intro hw
    have h := exec_unwind_all_quiet P depth rs.reverse n (w.set (wind_all rs w.ctx))
      (fun r hr => hq r (List.mem_reverse.mp hr))
      (by simp [World.set, wind_all_winding, hw])
    rw [List.length_reverse] at h
    rw [h]
    cases w with
    | mk ctx log =>
        cases ctx
        simp_all [World.set, wind_all_winding]
        intro a _
        rfl
  · intro hw
    exact exec_unwind_all_nil _ _ _ _ hw

theorem C17_witness :
    Quiet P0 FnPtr.free (Val.obj 1) ∧ Quiet P0 (FnPtr.user 2) (Val.obj 2) ∧
    Quiet P0 FnPtr.free (Val.obj 3) ∧ W0.ctx.winding = [] ∧
    exec P0 5 0 (Stmt.ec_unwind ec_unwind_amount.EC_UNWIND_ALL)
        (W0.set (wind_all [ec_winding.mk (Val.obj 1) FnPtr.free,
          ec_winding.mk (Val.obj 2) (FnPtr.user 2), ec_winding.mk (Val.obj 3) FnPtr.free]
          W0.ctx)) =
      Outcome.normal
        { ctx := ec_stack
          log := [Event.call FnPtr.free (Val.obj 3), Event.call (FnPtr.user 2) (Val.obj 2),
            Event.call FnPtr.free (Val.obj 1)] } :=
  have h1 : Quiet P0 FnPtr.free (Val.obj 1) := quiet_free P0 _
  have h2 : Quiet P0 (FnPtr.user 2) (Val.obj 2) := quiet_user_skip P0 2 _ rfl
  have h3 : Quiet P0 FnPtr.free (Val.obj 3) := quiet_free P0 _
  ⟨h1, h2, h3, rfl,
    (C17_unwind_all P0 0 0 W0
      [ec_winding.mk (Val.obj 1) FnPtr.free, ec_winding.mk (Val.obj 2) (FnPtr.user 2),
        ec_winding.mk (Val.obj 3) FnPtr.free]
      (by
        intro r hr
        simp only [List.mem_cons, List.mem_singleton, List.mem_nil_iff, or_false] at hr
        rcases hr with rfl | rfl | rfl
        · exact h1
        · exact h2
        · exact h3)).2.1 rfl⟩

/-! ## Cleaning with a quiet cleanup -/

theorem exec_clean_quiet (P : Program) (n depth : Nat) (w : World)
    (hc : ∀ f, w.ctx.error.data_cleanup = some f → Quiet P f w.ctx.error.data) :
    exec P (n + 3) depth Stmt.ec_clean w =
      Outcome.normal
        { ctx := ec_clean_fields w.ctx
          log := w.log ++ cleanup_events w.ctx.error.data_cleanup w.ctx.error.data } := by
  cases hf : w.ctx.error.data_cleanup with
  | none =>
      rw [exec_clean_none _ _ _ _ hf]
      simp [World.set, cleanup_events]
  | some f =>
      rw [exec_clean_some _ _ _ _ f hf, hc f hf n depth w]
      simp [World.set, World.emit, cleanup_events]

/-! ## Shadowing -/

theorem ec_shadow_winding (types : Option Cat × Option Cat) (s : ec) :
    (ec_shadow types s).winding = s.winding := by
  simp only [ec_shadow, ec_type]
  by_cases h1 : same_type s.error.type types.1 = true
  · by_cases h2 : types.2.isSome = true
    · simp [h1, h2]
    · simp [h1, h2]
  · simp [h1]

/-- A throw inside `ec_shadow_on_x (old, new)`, nothing pending and nothing else
wound: the shadow action runs once and the jump carries the shadowed category. -/
theorem exec_shadow_throw (P : Program) (n depth k : Nat) (old new c : Cat)
    (cl : Option FnPtr) (pr : Option Printer) (p : Val) (file function : String) (line : Nat)
    (w : World)
    (hw : w.ctx.error.type = none) (hs : w.ctx.winding = []) (he : w.ctx.env = some k) :
    exec P (n + 4) depth
        (ec_shadow_on_x (some old) (some new)
          (Stmt.ec_throw (some c) cl pr p file function line)) w =
      Outcome.jump
        { ctx := thrown (some (if c.addr = old.addr then new else c)) cl pr p
            file function line w.ctx
          log := w.log ++ [Event.call FnPtr.ec_shadow (Val.types (some old) (some new))] } := by
  simp only [ec_shadow_on_x, ec_shadow_on_x_with]
  rw [exec_with_on_x, exec_throw, exec_set_error_fresh P _ depth
    (w.set (ec_winding_init_and_wind (Val.types (some old) (some new)) FnPtr.ec_shadow
      w.ctx).2) _ _ _ _ hw]
  simp only []
  rw [exec_unwind_all_cons _ _ _ _
      (ec_winding.mk (Val.types (some old) (some new)) FnPtr.ec_shadow) []
      (by simp [World.set, ec_set_place, ec_winding_init_and_wind, hs]),
    exec_call_shadow]
  simp only []
  rw [exec_unwind_all_nil _ _ _ _ (by simp [World.set, World.emit, ec_shadow_winding])]
  by_cases h : c.addr = old.addr
  · simp [World.set, World.emit, ec_set_place, ec_env, he, thrown, ec_shadow, ec_type,
      same_type, h, hs, ec_winding_init_and_wind]
  · simp [World.set, World.emit, ec_set_place, ec_env, he, thrown, ec_shadow, ec_type,
      same_type, h, hs, ec_winding_init_and_wind]

/-- Claim C12. A throw of the category `c` inside `ec_shadow_on_x (old, new)` in
a try block, nothing pending before: the construct goes on exactly as if `new`
(when `c` is the marker `old`) or `c` itself (when it is not) had been thrown
there with the same payload, cleanup, printer and place, after one call of the
shadow action; so that is what the handlers see. When the shadowed block
returns and leaves the error stack alone, the shadow action is not called and
the error stack is as before. -/
theorem C12_shadow_replaces_only_old (P : Program) (n depth : Nat) (old new c : Cat)
    (cl : Option FnPtr) (pr : Option Printer) (p : Val) (file function : String) (line : Nat)
    (clauses : Clauses Stmt) (id : Nat) (block : Stmt) (evs : List Event) (w : World)
    (hw : w.ctx.error.type = none)
    (hc : ∀ f, cl = some f → Quiet P f p)
    (hb : exec P (n + 1) depth block
        (w.set (ec_winding_init_and_wind (Val.types (some old) (some new)) FnPtr.ec_shadow
          w.ctx).2) =
      Outcome.normal
        { ctx := (ec_winding_init_and_wind (Val.types (some old) (some new)) FnPtr.ec_shadow
            w.ctx).2
          log := w.log ++ evs }) :
    exec P (n + 5) depth
        (Stmt.ec_try
          (ec_shadow_on_x (some old) (some new)
            (Stmt.ec_throw (some c) cl pr p file function line)) clauses) w =
      exec P (n + 5) depth
        (Stmt.ec_try
          (Stmt.ec_throw (some (if c.addr = old.addr then new else c)) cl pr p
            file function line) clauses)
        (w.emit (Event.call FnPtr.ec_shadow (Val.types (some old) (some new)))) ∧
    exec P (n + 5) depth
        (Stmt.ec_try
          (ec_shadow_on_x (some old) (some new)
            (Stmt.ec_throw (some c) cl pr p file function line))
          (Clauses.ec_catch (Stmt.probe id))) w =
      Outcome.normal
        { ctx := ec_clean_fields w.ctx
          log := w.log ++ [Event.call FnPtr.ec_shadow (Val.types (some old) (some new)),
              Event.probe id
                (thrown (some (if c.addr = old.addr then new else c)) cl pr p
                  file function line w.ctx)]
            ++ cleanup_events cl p } ∧
    exec P (n + 2) depth (ec_shadow_on_x (some old) (some new) block) w =
      Outcome.normal { ctx := w.ctx, log := w.log ++ evs } := by
  have hj := exec_shadow_throw P n (depth + 1) (depth + 1) old new c cl pr p file function line
    (try_entry depth w) hw rfl rfl
  have hk := exec_throw_fresh P (n + 2) (depth + 1)
    (try_entry depth (w.emit (Event.call FnPtr.ec_shadow (Val.types (some old) (some new)))))
    (some (if c.addr = old.addr then new else c)) cl pr p file function line (depth + 1)
    hw rfl rfl
  refine ⟨?_, ?_, ?_⟩
  · rw [exec_try, exec_try, hj, hk]
    rfl
  · rw [exec_try, hj]
    simp only [Clauses.select, Clauses.finally_block]
    rw [if_pos (by rfl), exec_probe_clean P n (depth + 1) _ id (by
      intro f hf
      exact hc f hf)]
    simp [try_restore, try_entry, World.set, ec_swap_env, ec_swap_winding, thrown,
      ec_set_place, ec_clean_fields]
  · simp only [ec_shadow_on_x, ec_shadow_on_x_with]
    rw [exec_with_on_x, hb]
    simp only []
    rw [exec_unwind_discard_cons _ _ _ _
      (ec_winding.mk (Val.types (some old) (some new)) FnPtr.ec_shadow) w.ctx.winding
      (by simp [ec_winding_init_and_wind])]
    simp [World.set, ec_winding_init_and_wind]

theorem C12_witness :
    W0.ctx.error.type = none ∧
    Quiet P0 FnPtr.free Val.null ∧
    exec P0 1 0 (Stmt.probe 5)
        (W0.set (ec_winding_init_and_wind (Val.types (some ECX_NULL) (some (Cat.mk 9 "API")))
          FnPtr.ec_shadow W0.ctx).2) =
      Outcome.normal
        { ctx := (ec_winding_init_and_wind (Val.types (some ECX_NULL) (some (Cat.mk 9 "API")))
            FnPtr.ec_shadow W0.ctx).2
          log := W0.log ++ [Event.probe 5
            (ec_winding_init_and_wind (Val.types (some ECX_NULL) (some (Cat.mk 9 "API")))
              FnPtr.ec_shadow W0.ctx).2] } ∧
    exec P0 5 0
        (Stmt.ec_try
          (ec_shadow_on_x (some ECX_NULL) (some (Cat.mk 9 "API"))
            (ec_throw_str (some ECX_NULL) Val.null "shadow.c" "shadow_simple" 34))
          (Clauses.ec_catch_a (some ECX_NULL) (fun _ => Stmt.probe 1)
            (Clauses.ec_catch_a (some (Cat.mk 9 "API")) (fun _ => Stmt.probe 2)
              (Clauses.ec_catch (Stmt.probe 3))))) W0 =
      Outcome.normal
        { ctx := ec_stack
          log := [Event.call FnPtr.ec_shadow (Val.types (some ECX_NULL) (some (Cat.mk 9 "API"))),
            Event.probe 2
              (thrown (some (Cat.mk 9 "API")) (some FnPtr.free) (some Printer.ec_fprint_str)
                Val.null "shadow.c" "shadow_simple" 34 ec_stack),
            Event.call FnPtr.free Val.null] } :=
  ⟨rfl, quiet_free P0 _, rfl,
    (C12_shadow_replaces_only_old P0 0 0 ECX_NULL (Cat.mk 9 "API") ECX_NULL (some FnPtr.free)
      (some Printer.ec_fprint_str) Val.null "shadow.c" "shadow_simple" 34
      (Clauses.ec_catch_a (some ECX_NULL) (fun _ => Stmt.probe 1)
        (Clauses.ec_catch_a (some (Cat.mk 9 "API")) (fun _ => Stmt.probe 2)
          (Clauses.ec_catch (Stmt.probe 3))))
      0 (Stmt.probe 5) _ W0 rfl
      (by
        intro f hf
        cases hf
        exact quiet_free P0 _)
      rfl).1.trans (by rfl)⟩

/-! ## What a try construct puts back -/

/-- A throw while a record with a quiet cleanup is pending and nothing is wound:
the old record is written and cleaned, and the jump carries the new one. -/
theorem exec_throw_over (P : Program) (n depth k : Nat) (w : World) (t0 : Cat)
    (t : Option Cat) (c : Option FnPtr) (p : Option Printer) (data : Val)
    (file function : String) (line : Nat)
    (text : String)
    (ht : w.ctx.error.type = some t0)
    (hc : ∀ f, w.ctx.error.data_cleanup = some f → Quiet P f w.ctx.error.data)
    (hpr : ec_fprint P w.ctx = some text)
    (hs : w.ctx.winding = []) (he : w.ctx.env = some k) :
    exec P (n + 4) depth (Stmt.ec_throw t c p data file function line) w =
      Outcome.jump
        { ctx := thrown t c p data file function line w.ctx
          log := w.log ++ [Event.stderr text]
            ++ cleanup_events w.ctx.error.data_cleanup w.ctx.error.data } := by
  rw [exec_throw, exec_set_error_pending P n depth w t data c p t0 text ht hc hpr]
  simp only []
  rw [exec_unwind_all_nil _ _ _ _ (by simp [World.set, ec_set_place, hs])]
  simp [World.set, ec_set_place, ec_env, he, thrown]

/-! ## A cleanup action that throws -/

/-- Unwinding all of a stack that starts with quiet actions: they are called
from the head down, and the unwinding goes on with what is below them. -/
theorem exec_unwind_all_quiet_then (P : Program) (depth : Nat) (rest : List ec_winding) :
    ∀ (pre : List ec_winding) (n : Nat) (w : World),
      (∀ r ∈ pre, Quiet P r.unwind r.data) → w.ctx.winding = pre ++ rest →
      exec P (n + 2 + pre.length) depth (Stmt.ec_unwind ec_unwind_amount.EC_UNWIND_ALL) w =
        exec P (n + 2) depth (Stmt.ec_unwind ec_unwind_amount.EC_UNWIND_ALL)
          { ctx := { w.ctx with winding := rest }
            log := w.log ++ pre.map ec_winding.event } := by
  intro pre
  induction pre with
  | nil =>
      intro n w _ hw
      cases w with
      | mk ctx log =>
          cases ctx
          simp_all
  | cons r pre ih =>
      intro n w hq hw
      have e : n + 2 + (r :: pre).length = (n + 2 + pre.length) + 1 := by
        simp only [List.length_cons]; omega
      have hr : exec P (n + 2 + pre.length) depth (Stmt.call r.unwind r.data)
          (w.set { w.ctx with winding := pre ++ rest }) =
          Outcome.normal
            ((w.set { w.ctx with winding := pre ++ rest }).emit (Event.call r.unwind r.data)) := by
        have h := hq r (List.mem_cons_self r pre) (n + pre.length) depth
          (w.set { w.ctx with winding := pre ++ rest })
        rwa [show n + pre.length + 2 = n + 2 + pre.length by omega] at h
      rw [e, exec_unwind_all_cons _ _ _ _ r (pre ++ rest) hw, hr]
      simp only []
      rw [ih n _ (fun y hy => hq y (List.mem_cons_of_mem r hy)) rfl]
      simp [World.emit, World.set, ec_winding.event]

/-- A throw while a record with a quiet cleanup is pending, over a stack of
quiet actions: the old record is written and cleaned, the actions are called
from the head down, and the jump carries the new record. -/
theorem exec_throw_over_quiet (P : Program) (n depth k : Nat) (w : World) (t0 : Cat)
    (t : Option Cat) (c : Option FnPtr) (p : Option Printer) (data : Val)
    (file function : String) (line : Nat) (rs : List ec_winding) (text : String)
    (ht : w.ctx.error.type = some t0)
    (hc : ∀ f, w.ctx.error.data_cleanup = some f → Quiet P f w.ctx.error.data)
    (hpr : ec_fprint P w.ctx = some text)
    (hs : w.ctx.winding = rs) (hq : ∀ r ∈ rs, Quiet P r.unwind r.data)
    (he : w.ctx.env = some k) :
    exec P (n + rs.length + 4) depth (Stmt.ec_throw t c p data file function line) w =
      Outcome.jump
        { ctx := thrown t c p data file function line { w.ctx with winding := [] }
          log := w.log ++ [Event.stderr text]
            ++ cleanup_events w.ctx.error.data_cleanup w.ctx.error.data
            ++ rs.map ec_winding.event } := by
  have e : n + rs.length + 4 = (n + rs.length + 3) + 1 := by omega
  have e2 : n + rs.length + 3 = (n + 1) + rs.length + 2 := by omega
  have h1 := exec_set_error_pending P (n + rs.length) depth w t data c p t0 text ht hc hpr
  rw [e, exec_throw, h1]
  simp only []
  rw [e2, exec_unwind_all_quiet P depth rs (n + 1) _ hq
    (by simpa [World.set, ec_set_place] using hs)]
  simp [World.set, ec_set_place, ec_env, he, thrown, ec_winding.event]

/-- A throw with nothing pending, over a stack in which one action throws and
all others are quiet: the actions above the thrower run, the thrower runs, its
throw writes and cleans the first record, runs the actions below, and jumps
with the second record. -/
theorem exec_throw_thrower (P : Program) (n depth k : Nat) (w : World)
    (pre rest : List ec_winding) (x : Nat) (dx : Val)
    (c1 : Cat) (t2 : Option Cat) (cl1 cl2 : Option FnPtr) (pr1 pr2 : Option Printer)
    (p1 p2 : Val) (file1 function1 file2 function2 : String) (line1 line2 : Nat)
    (text1 : String)
    (hx : P.code x dx = Stmt.ec_throw t2 cl2 pr2 p2 file2 function2 line2)
    (hw : w.ctx.error.type = none)
    (hs : w.ctx.winding = pre ++ ec_winding.mk dx (FnPtr.user x) :: rest)
    (he : w.ctx.env = some k)
    (hqp : ∀ r ∈ pre, Quiet P r.unwind r.data)
    (hqr : ∀ r ∈ rest, Quiet P r.unwind r.data)
    (hc1 : ∀ f, cl1 = some f → Quiet P f p1)
    (hpr1 : ec_fprint P (thrown (some c1) cl1 pr1 p1 file1 function1 line1 w.ctx) =
      some text1) :
    exec P (n + pre.length + rest.length + 7) depth
        (Stmt.ec_throw (some c1) cl1 pr1 p1 file1 function1 line1) w =
      Outcome.jump
        { ctx := thrown t2 cl2 pr2 p2 file2 function2 line2 { w.ctx with winding := [] }
          log := w.log ++ pre.map ec_winding.event
            ++ [Event.call (FnPtr.user x) dx, Event.stderr text1]
            ++ cleanup_events cl1 p1
            ++ rest.map ec_winding.event } := by
  have e : n + pre.length + rest.length + 7 = (n + rest.length + 4 + 2 + pre.length) + 1 := by
    omega
  have e1 : n + rest.length + 4 + 2 = (n + rest.length + 4 + 1) + 1 := by omega
  -- the world in which the thrower is called
  have hT := exec_throw_over_quiet P n depth k
    { ctx := { env := w.ctx.env, winding := rest,
               error := { type := some c1, data := p1, data_cleanup := cl1, data_fprint := pr1 },
               place := { file := some file1, function := some function1, line := line1 } }
      log := w.log ++ pre.map ec_winding.event ++ [Event.call (FnPtr.user x) dx] }
    c1 t2 cl2 pr2 p2 file2 function2 line2 rest text1 rfl
    (by
      intro f hf
      exact hc1 f hf)
    (by
      rw [← hpr1]
      rfl)
    rfl hqr he
  have hS : exec P (n + rest.length + 4 + 2 + pre.length) depth
      (Stmt.ec_set_error (some c1) p1 cl1 pr1) w =
      Outcome.normal (w.set { w.ctx with
        error := { type := some c1, data := p1, data_cleanup := cl1, data_fprint := pr1 } }) := by
    have h := exec_set_error_fresh P (n + rest.length + 4 + 1 + pre.length) depth w
      (some c1) p1 cl1 pr1 hw
    rwa [show n + rest.length + 4 + 1 + pre.length + 1 = n + rest.length + 4 + 2 + pre.length
      by omega] at h
  rw [e, exec_throw, hS]
  simp only []
  rw [exec_unwind_all_quiet_then P depth (ec_winding.mk dx (FnPtr.user x) :: rest) pre
      (n + rest.length + 4) _ hqp (by simpa [World.set, ec_set_place] using hs),
    e1, exec_unwind_all_cons _ _ _ _ (ec_winding.mk dx (FnPtr.user x)) rest rfl,
    exec_call_user, hx]
  simp only [World.set, World.emit, ec_set_place] at hT ⊢
  rw [hT]
  simp [thrown, ec_set_place, ec_fprint]

/-- A throw with nothing pending over a stack of quiet actions: they are called
from the head down, and control jumps with an empty stack. -/
theorem exec_throw_quiet (P : Program) (n depth k : Nat) (w : World)
    (t : Option Cat) (c : Option FnPtr) (p : Option Printer) (data : Val)
    (file function : String) (line : Nat) (rs : List ec_winding)
    (hw : w.ctx.error.type = none) (hs : w.ctx.winding = rs)
    (hq : ∀ r ∈ rs, Quiet P r.unwind r.data) (he : w.ctx.env = some k) :
    exec P (n + rs.length + 3) depth (Stmt.ec_throw t c p data file function line) w =
      Outcome.jump
        { ctx := thrown t c p data file function line { w.ctx with winding := [] }
          log := w.log ++ rs.map ec_winding.event } := by
  have e : n + rs.length + 3 = (n + rs.length + 2) + 1 := by omega
  rw [e, exec_throw, exec_set_error_fresh _ _ _ _ _ _ _ _ hw]
  simp only []
  rw [exec_unwind_all_quiet P depth rs n _ hq (by simpa [World.set, ec_set_place] using hs)]
  simp [World.set, ec_set_place, ec_env, he, thrown, ec_winding.event]

/-- Claim C19. A winding is off the stack before its action runs, in
`EC_UNWIND_ONE` and in `EC_UNWIND_ALL`: the action is called in the stack
`next`. So for an `ec_with` guard in a try block (inside quiet guards, nothing
pending before) whose block returns and whose action looks at the error stack
and throws `(c, p)`: the action is called exactly once, it does not find its
own record on the stack, the guards around it run once each, and the handler
of the `ec_try` gets `(c, p)`. -/
theorem C19_record_popped_before_action (P : Program) (n depth k : Nat) (gs : List Guard)
    (x : Nat) (dx : Val) (inner : Stmt) (evs : List Event) (kp id : Nat) (w : World)
    (c : Cat) (cl : Option FnPtr) (pr : Option Printer) (p : Val)
    (file function : String) (line : Nat)
    (hx : P.code x dx =
      Stmt.seq (Stmt.probe kp) (Stmt.ec_throw (some c) cl pr p file function line))
    (hq : ∀ g ∈ gs, Quiet P g.u g.d)
    (hc : ∀ f, cl = some f → Quiet P f p)
    (hw : w.ctx.error.type = none)
    (hin : ∀ m, exec P (m + k) (depth + 1) inner
        ((wound gs (try_entry depth w)).set
          (ec_winding_init_and_wind dx (FnPtr.user x) (wound gs (try_entry depth w)).ctx).2) =
      Outcome.normal
        { ctx := (ec_winding_init_and_wind dx (FnPtr.user x)
            (wound gs (try_entry depth w)).ctx).2
          log := w.log ++ evs }) :
    (∀ (m : Nat) (v : World) (head : ec_winding) (next : List ec_winding),
      v.ctx.winding = head :: next →
      exec P (m + 1) depth (Stmt.ec_unwind ec_unwind_amount.EC_UNWIND_ONE) v =
        exec P m depth (Stmt.call head.unwind head.data)
          { ctx := { env := v.ctx.env, winding := next, error := v.ctx.error,
                     place := v.ctx.place }
            log := v.log } ∧
      exec P (m + 1) depth (Stmt.ec_unwind ec_unwind_amount.EC_UNWIND_ALL) v =
        (match exec P m depth (Stmt.call head.unwind head.data)
            { ctx := { env := v.ctx.env, winding := next, error := v.ctx.error,
                       place := v.ctx.place }
              log := v.log } with
         | Outcome.normal v1 =>
             exec P m depth (Stmt.ec_unwind ec_unwind_amount.EC_UNWIND_ALL) v1
         | o => o)) ∧
    exec P (n + k + 2 * gs.length + 8) depth
        (Stmt.ec_try (nest gs (Stmt.ec_with dx (FnPtr.user x) inner))
          (Clauses.ec_catch (Stmt.probe id))) w =
      Outcome.normal
        { ctx := ec_clean_fields w.ctx
          log := w.log ++ evs
            ++ [Event.call (FnPtr.user x) dx,
                Event.probe kp
                  { env := some (depth + 1), winding := gs.reverse.map Guard.record,
                    error := w.ctx.error, place := w.ctx.place }]
            ++ gs.reverse.map Guard.event
            ++ [Event.probe id (thrown (some c) cl pr p file function line w.ctx)]
            ++ cleanup_events cl p } := by
  constructor
  · intro m v head next hv
    constructor
    · rw [exec_unwind_one_cons _ _ _ _ head next hv]
      rfl
    · rw [exec_unwind_all_cons _ _ _ _ head next hv]
      rfl
  · have hT := exec_throw_quiet P (n + k) (depth + 1) (depth + 1)
      { ctx := { env := some (depth + 1), winding := gs.reverse.map Guard.record,
                 error := w.ctx.error, place := w.ctx.place }
        log := w.log ++ evs
          ++ [Event.call (FnPtr.user x) dx,
              Event.probe kp
                { env := some (depth + 1), winding := gs.reverse.map Guard.record,
                  error := w.ctx.error, place := w.ctx.place }] }
      (some c) cl pr p file function line (gs.reverse.map Guard.record) hw rfl
      (by
        intro r hr
        simp only [List.mem_map, List.mem_reverse] at hr
        obtain ⟨g, hg, rfl⟩ := hr
        exact hq g hg)
      rfl
    simp only [List.length_map, List.length_reverse] at hT
    have hW : exec P (n + k + gs.length + 7) (depth + 1) (Stmt.ec_with dx (FnPtr.user x) inner)
        (wound gs (try_entry depth w)) =
        Outcome.jump
          { ctx := thrown (some c) cl pr p file function line
              { env := some (depth + 1), winding := [], error := w.ctx.error,
                place := w.ctx.place }
            log := w.log ++ evs
              ++ [Event.call (FnPtr.user x) dx,
                  Event.probe kp
                    { env := some (depth + 1), winding := gs.reverse.map Guard.record,
                      error := w.ctx.error, place := w.ctx.place }]
              ++ gs.reverse.map Guard.event } := by
      have hi := hin (n + gs.length + 6)
      rw [show n + gs.length + 6 + k = n + k + gs.length + 6 by omega] at hi
      rw [exec_with, hi]
      simp only []
      rw [exec_unwind_one_cons _ _ _ _ (ec_winding.mk dx (FnPtr.user x))
          (gs.reverse.map Guard.record)
          (by simp [ec_winding_init_and_wind, wound, try_entry, World.set, ec_swap_env,
            ec_swap_winding]),
        exec_call_user, hx, exec_seq, exec_probe]
      simp only [World.set, World.emit, ec_winding_init_and_wind, wound, try_entry, ec_swap_env,
        ec_swap_winding, List.append_nil, List.append_assoc, List.singleton_append] at hT ⊢
      rw [hT]
      simp [thrown, ec_set_place, Guard.event, Guard.record, ec_winding.event,
        Function.comp_def]
    have hJ := exec_nest_jump P (depth + 1) _ _ gs _ (try_entry depth w) hW
    have e : n + k + 2 * gs.length + 8 = (n + k + gs.length + 7 + gs.length) + 1 := by omega
    have e4 : n + k + gs.length + 7 + gs.length = (n + k + 2 * gs.length + 3) + 4 := by omega
    rw [e, exec_try, hJ]
    simp only [Clauses.select, Clauses.finally_block]
    rw [if_pos (by rfl), e4, exec_probe_clean P _ (depth + 1) _ id (by
      intro f hf
      exact hc f hf)]
    simp [try_restore, World.set, ec_swap_env, ec_swap_winding, thrown, ec_set_place,
      ec_clean_fields]

theorem C19_witness :
    P2.code 1 (Val.obj 2) =
      Stmt.seq (Stmt.probe 9)
        (Stmt.ec_throw (some ECX_NULL) none (some Printer.ec_fprint_str)
          (Val.str 40 "Failed to be free? Impossible!") "with.c" "with_free_x" 40) ∧
    Quiet P2 FnPtr.free (Val.obj 1) ∧ W0.ctx.error.type = none ∧
    exec P2 11 0
        (Stmt.ec_try
          (Stmt.ec_with (Val.obj 1) FnPtr.free
            (Stmt.ec_with (Val.obj 2) (FnPtr.user 1) Stmt.skip))
          (Clauses.ec_catch (Stmt.probe 0))) W0 =
      Outcome.normal
        { ctx := ec_stack
          log := [Event.call (FnPtr.user 1) (Val.obj 2),
            Event.probe 9
              { ec_stack with env := some 1, winding := [ec_winding.mk (Val.obj 1) FnPtr.free] },
            Event.call FnPtr.free (Val.obj 1),
            Event.probe 0
              (thrown (some ECX_NULL) none (some Printer.ec_fprint_str)
                (Val.str 40 "Failed to be free? Impossible!") "with.c" "with_free_x" 40
                ec_stack)] } :=
  have h1 : Quiet P2 FnPtr.free (Val.obj 1) := quiet_free P2 _
  ⟨rfl, h1, rfl,
    (C19_record_popped_before_action P2 0 0 1 [Guard.mk false (Val.obj 1) FnPtr.free]
      1 (Val.obj 2) Stmt.skip [] 9 0 W0 ECX_NULL none (some Printer.ec_fprint_str)
      (Val.str 40 "Failed to be free? Impossible!") "with.c" "with_free_x" 40 rfl
      (by
        intro g hg
        simp only [List.mem_singleton] at hg
        subst hg
        exact h1)
      (by
        intro f hf
        cases hf)
      rfl
      (fun _ => rfl)).2⟩

/-! ## The functions on the fields -/

/-- Claim C25. `ec_winding_init_and_wind (w, d, u)` returns 1; afterwards the head
of the stack is the record with data `d` and action `u`, what follows it is the
stack as it was, and `env`, the pending record and the place are as before. -/
theorem C25_wind_prepends_one_record (d : Val) (u : FnPtr) (s : ec) :
    (ec_winding_init_and_wind d u s).1 = 1 ∧
    (ec_winding_init_and_wind d u s).2 =
      { env := s.env, winding := { data := d, unwind := u } :: s.winding,
        error := s.error, place := s.place } :=
  ⟨rfl, rfl⟩

/-- Claim C26. `ec_type (NULL)` and `ec_env (NULL)` return the field and leave the
error stack as it is; with an argument that is not `NULL` they return the
argument, and the error stack differs from before in that field alone, which
holds the argument. -/
theorem C26_get_set_accessors (s : ec) (x : Cat) (b : Nat) :
    ec_type none s = (s.error.type, s) ∧
    ec_env none s = (s.env, s) ∧
    ec_type (some x) s =
      (some x,
        { env := s.env, winding := s.winding,
          error := { type := some x, data := s.error.data,
                     data_cleanup := s.error.data_cleanup, data_fprint := s.error.data_fprint },
          place := s.place }) ∧
    ec_env (some b) s =
      (some b, { env := some b, winding := s.winding, error := s.error, place := s.place }) :=
  ⟨rfl, rfl, rfl, rfl⟩

/-- Claim C27. `ec_swap_env (x)` and `ec_swap_winding (x)` return what the field
held and leave `x` in it, `NULL` too, with every other field as before; to swap
`x` in and then swap back what was returned gives `x` and the error stack as it
was at first. -/
theorem C27_swap_and_swap_back (s : ec) (x : Option Nat) (v : List ec_winding) :
    ec_swap_env x s =
      (s.env, { env := x, winding := s.winding, error := s.error, place := s.place }) ∧
    ec_swap_winding v s =
      (s.winding, { env := s.env, winding := v, error := s.error, place := s.place }) ∧
    ec_swap_env (ec_swap_env x s).1 (ec_swap_env x s).2 = (x, s) ∧
    ec_swap_winding (ec_swap_winding v s).1 (ec_swap_winding v s).2 = (v, s) :=
  ⟨rfl, rfl, rfl, rfl⟩

/-! ## The errno table -/

theorem ec_errno_type_of_find (h : Errno → Int) (error : Int) (c : Errno × Cat)
    (hc : ec_errno_cases.find? (fun c => h c.1 == error) = some c) :
    ec_errno_type h error = c.2 := by
  simp [ec_errno_type, hc]

/-- A value with a label is answered from the table. -/
theorem ec_errno_type_case (h : Errno → Int) (error : Int)
    (hx : ∃ c ∈ ec_errno_cases, h c.1 = error) :
    ∃ c ∈ ec_errno_cases, h c.1 = error ∧ ec_errno_type h error = c.2 := by
  cases hfind : ec_errno_cases.find? (fun c => h c.1 == error) with
  | none =>
      obtain ⟨c, hc, he⟩ := hx
      have := List.find?_eq_none.mp hfind c hc
      simp [he] at this
  | some c =>
      refine ⟨c, List.mem_of_find?_eq_some hfind, ?_, ec_errno_type_of_find h error c hfind⟩
      have := List.find?_some hfind
      simpa using this

theorem ec_errno_cases_names :
    ∀ e : Errno, e ≠ Errno.EOPNOTSUPP → e ≠ Errno.EWOULDBLOCK →
      (e, e.marker) ∈ ec_errno_cases := by
  intro e h1 h2
  cases e <;> first | exact absurd rfl h1 | exact absurd rfl h2 | decide

theorem ec_errno_cases_markers : (ec_errno_cases.map (fun c => c.2.addr)).Nodup := by
  decide

theorem ec_errno_cases_not_generic : ∀ c ∈ ec_errno_cases, c.2.addr ≠ ECX_EC.addr := by
  decide

theorem ec_errno_cases_declared : ∀ c ∈ ec_errno_cases, c.2 = c.1.marker := by
  decide

/-- Claim C22, amended to what the code does. For every errno constant with a
marker in `ec.h` other than `EOPNOTSUPP` and `EWOULDBLOCK`, `ec_errno_type` of
the value of the constant is the marker of the same name, whatever values
`errno.h` gives (the labels being distinct, as the compiler demands). The
markers `ECX_EOPNOTSUPP` and `ECX_EWOULDBLOCK` are returned for no value. -/
theorem C22_errno_type_of_constant (h : Errno → Int) (e : Errno) (hok : switch_ok h)
    (h1 : e ≠ Errno.EOPNOTSUPP) (h2 : e ≠ Errno.EWOULDBLOCK) :
    ec_errno_type h (h e) = e.marker ∧
    (∀ x, (ec_errno_type h x).addr ≠ ECX_EOPNOTSUPP.addr ∧
      (ec_errno_type h x).addr ≠ ECX_EWOULDBLOCK.addr) := by
  constructor
  · have hmem := ec_errno_cases_names e h1 h2
    obtain ⟨c, hc, hv, hr⟩ := ec_errno_type_case h (h e) ⟨(e, e.marker), hmem, rfl⟩
    have hinj := List.inj_on_of_nodup_map hok hc hmem hv
    rw [hr, hinj]
  · intro x
    cases hfind : ec_errno_cases.find? (fun c => h c.1 == x) with
    | none =>
        have hr : ec_errno_type h x = ECX_EC := by simp [ec_errno_type, hfind]
        rw [hr]
        decide
    | some c =>
        rw [ec_errno_type_of_find h x c hfind]
        have hc := List.mem_of_find?_eq_some hfind
        have hall : ∀ c ∈ ec_errno_cases,
            c.2.addr ≠ ECX_EOPNOTSUPP.addr ∧ c.2.addr ≠ ECX_EWOULDBLOCK.addr := by decide
        exact hall c hc

theorem C22_witness :
    switch_ok linux_errno ∧ Errno.ENOMEM ≠ Errno.EOPNOTSUPP ∧
    Errno.ENOMEM ≠ Errno.EWOULDBLOCK ∧
    ec_errno_type linux_errno 12 = ECX_ENOMEM :=
  have hok : switch_ok linux_errno := by
    unfold switch_ok
    decide
  ⟨hok, by decide, by decide,
    (C22_errno_type_of_constant linux_errno Errno.ENOMEM hok (by decide) (by decide)).1⟩

/-- Claim C22 as stated fails. The case of `EOPNOTSUPP` is commented out: on
Linux, where the constant has the value of `ENOTSUP`, `ec_errno_type` answers
`ECX_ENOTSUP`, which is another marker than `ECX_EOPNOTSUPP`; and for
`EWOULDBLOCK` it answers `ECX_EAGAIN`. -/
theorem C22_counterexample :
    ec_errno_type linux_errno (linux_errno Errno.EOPNOTSUPP) = ECX_ENOTSUP ∧
    ec_errno_type linux_errno (linux_errno Errno.EOPNOTSUPP) ≠ Errno.EOPNOTSUPP.marker ∧
    ec_errno_type linux_errno (linux_errno Errno.EWOULDBLOCK) = ECX_EAGAIN ∧
    ec_errno_type linux_errno (linux_errno Errno.EWOULDBLOCK) ≠ Errno.EWOULDBLOCK.marker := by
  decide

/-- Claim C23. Two different values that both have a label in the `switch` of
`ec_errno_type` get markers that are different objects, and neither of them
is `ECX_EC`. -/
theorem C23_errno_type_one_to_one (h : Errno → Int) (x y : Int) (hxy : x ≠ y)
    (hx : ∃ c ∈ ec_errno_cases, h c.1 = x) (hy : ∃ c ∈ ec_errno_cases, h c.1 = y) :
    (ec_errno_type h x).addr ≠ (ec_errno_type h y).addr ∧
    (ec_errno_type h x).addr ≠ ECX_EC.addr ∧
    (ec_errno_type h y).addr ≠ ECX_EC.addr := by
  obtain ⟨c, hc, hcv, hcr⟩ := ec_errno_type_case h x hx
  obtain ⟨d, hd, hdv, hdr⟩ := ec_errno_type_case h y hy
  rw [hcr, hdr]
  refine ⟨?_, ec_errno_cases_not_generic c hc, ec_errno_cases_not_generic d hd⟩
  intro hadd
  have hcd : c = d := List.inj_on_of_nodup_map ec_errno_cases_markers hc hd hadd
  apply hxy
  rw [← hcv, ← hdv, hcd]

theorem C23_witness :
    (12 : Int) ≠ 13 ∧
    (ec_errno_type linux_errno 12).addr ≠ (ec_errno_type linux_errno 13).addr ∧
    (ec_errno_type linux_errno 12).addr ≠ ECX_EC.addr ∧
    (ec_errno_type linux_errno 13).addr ≠ ECX_EC.addr :=
  ⟨by decide,
    C23_errno_type_one_to_one linux_errno 12 13 (by decide)
      ⟨(Errno.ENOMEM, ECX_ENOMEM), by decide, rfl⟩
      ⟨(Errno.EACCES, ECX_EACCES), by decide, rfl⟩⟩

/-- Claim C24. `ec_errno_type` answers every integer; for one that is the value
of no label of its `switch` the answer is `ECX_EC`. -/
theorem C24_errno_type_falls_back (h : Errno → Int) (x : Int)
    (hx : ∀ c ∈ ec_errno_cases, h c.1 ≠ x) :
    ec_errno_type h x = ECX_EC := by
  have hfind : ec_errno_cases.find? (fun c => h c.1 == x) = none := by
    rw [List.find?_eq_none]
    intro c hc
    simpa using hx c hc
  simp [ec_errno_type, hfind]

theorem C24_witness :
    ec_errno_type linux_errno 0 = ECX_EC ∧
    ec_errno_type linux_errno (-1) = ECX_EC ∧
    ec_errno_type linux_errno 4096 = ECX_EC :=
  ⟨C24_errno_type_falls_back linux_errno 0 (by decide),
    C24_errno_type_falls_back linux_errno (-1) (by decide),
    C24_errno_type_falls_back linux_errno 4096 (by decide)⟩

/-! ## The records set aside by a try -/

theorem try_restore_entry (depth : Nat) (w : World) :
    try_restore w (try_entry depth w) = w := by
  cases w with
  | mk ctx log =>
      cases ctx
      rfl

/-- Claim C28, amended to what the code does. An `ec_try` sets the stack head to
`NULL` for its block and puts the old head back afterwards. An
`ec_unwind (EC_UNWIND_ALL)` in the block, also the one of a throw (nothing
pending before), reaches only records wound since the try was entered: of the
records wound before, whatever their actions are, none is called or taken
off; the handler finds them on the stack, in their order, and so does the
code after the construct. -/
theorem C28_try_sets_outer_records_aside (P : Program) (n depth : Nat) (w : World)
    (gs : List Guard) (last : Stmt) (id : Nat)
    (t : Option Cat) (c : Option FnPtr) (p : Option Printer) (data : Val)
    (file function : String) (line : Nat)
    (hq : ∀ g ∈ gs, Quiet P g.u g.d)
    (hw : w.ctx.error.type = none)
    (hc : ∀ f, c = some f → Quiet P f data) :
    exec P (n + 2) depth
        (Stmt.ec_try (Stmt.ec_unwind ec_unwind_amount.EC_UNWIND_ALL) (Clauses.ec_catch last)) w =
      Outcome.normal w ∧
    exec P (n + 2 * gs.length + 5) depth
        (Stmt.ec_try (nest gs (Stmt.ec_throw t c p data file function line))
          (Clauses.ec_catch (Stmt.probe id))) w =
      Outcome.normal
        { ctx := { env := w.ctx.env, winding := w.ctx.winding,
                   error := { type := none, data := Val.null, data_cleanup := none,
                              data_fprint := none },
                   place := { file := none, function := none, line := 0 } }
          log := w.log ++ gs.reverse.map Guard.event
            ++ [Event.probe id
                  { env := w.ctx.env, winding := w.ctx.winding,
                    error := { type := t, data := data, data_cleanup := c, data_fprint := p },
                    place := { file := some file, function := some function, line := line } }]
            ++ cleanup_events c data } := by
  constructor
  · rw [exec_try, exec_unwind_all_nil _ _ _ _ (by rfl)]
    simp only [Clauses.finally_block]
    rw [try_restore_entry]
  · have hj := exec_nest_throw P (n + 1) (depth + 1) (depth + 1) gs (try_entry depth w)
      t c p data file function line hq hw rfl rfl
    have e : n + 2 * gs.length + 5 = (n + 1 + 2 * gs.length + 3) + 1 := by omega
    have e4 : n + 1 + 2 * gs.length + 3 = (n + 2 * gs.length) + 4 := by omega
    rw [e, exec_try, hj]
    simp only [Clauses.select, Clauses.finally_block]
    rw [if_pos (by rfl), e4, exec_probe_clean P _ _ _ _ (by
      intro f hf
      exact hc f hf)]
    simp [try_restore, try_entry, World.set, ec_swap_env, ec_swap_winding, thrown,
      ec_set_place, ec_clean_fields]

theorem C28_witness :
    Quiet P1 FnPtr.free (Val.obj 2) ∧
    (World.mk { ec_stack with winding := [ec_winding.mk (Val.obj 1) (FnPtr.user 1)] }
      []).ctx.error.type = none ∧
    exec P1 7 0
        (Stmt.ec_try
          (Stmt.ec_with (Val.obj 2) FnPtr.free
            (ec_throw_str_static (some ECX_EC) "x" 64 "try.c" "main" 30))
          (Clauses.ec_catch (Stmt.probe 0)))
        (World.mk { ec_stack with winding := [ec_winding.mk (Val.obj 1) (FnPtr.user 1)] } []) =
      Outcome.normal
        { ctx := { ec_stack with winding := [ec_winding.mk (Val.obj 1) (FnPtr.user 1)] }
          log := [Event.call FnPtr.free (Val.obj 2),
            Event.probe 0
              { env := none, winding := [ec_winding.mk (Val.obj 1) (FnPtr.user 1)],
                error := { type := some ECX_EC, data := Val.str 64 "x", data_cleanup := none,
                           data_fprint := some Printer.ec_fprint_str },
                place := { file := some "try.c", function := some "main", line := 30 } }] } :=
  have h2 : Quiet P1 FnPtr.free (Val.obj 2) := quiet_free P1 _
  ⟨h2, rfl,
    (C28_try_sets_outer_records_aside P1 0 0
      (World.mk { ec_stack with winding := [ec_winding.mk (Val.obj 1) (FnPtr.user 1)] } [])
      [Guard.mk false (Val.obj 2) FnPtr.free] Stmt.skip 0 (some ECX_EC) none
      (some Printer.ec_fprint_str) (Val.str 64 "x") "try.c" "main" 30
      (by
        intro g hg
        simp only [List.mem_singleton] at hg
        subst hg
        exact h2)
      rfl
      (by
        intro f hf
        cases hf)).2⟩

/-- Claim C28 as stated fails. A record wound before the try (payload 1) is not
reached by the unwinding of a throw in the try block: the handler (probe 0)
still finds it on the stack, and its action is called only afterwards, when
the `ec_with` around the try ends. -/
theorem C28_counterexample :
    exec P0 8 0
        (Stmt.ec_with (Val.obj 1) FnPtr.free
          (Stmt.ec_try (ec_throw_str_static (some ECX_EC) "x" 64 "try.c" "main" 30)
            (Clauses.ec_catch (Stmt.probe 0)))) W0 =
      Outcome.normal
        { ctx := ec_stack
          log := [Event.probe 0
              { env := none, winding := [ec_winding.mk (Val.obj 1) FnPtr.free],
                error := { type := some ECX_EC, data := Val.str 64 "x", data_cleanup := none,
                           data_fprint := some Printer.ec_fprint_str },
                place := { file := some "try.c", function := some "main", line := 30 } },
            Event.call FnPtr.free (Val.obj 1)] } ∧
    exec P0 4 1 (ec_throw_str_static (some ECX_EC) "x" 64 "try.c" "main" 30)
        (try_entry 0 (World.mk { ec_stack with
          winding := [ec_winding.mk (Val.obj 1) FnPtr.free] } [])) =
      Outcome.jump
        { ctx := { env := some 1, winding := [],
                   error := { type := some ECX_EC, data := Val.str 64 "x", data_cleanup := none,
                              data_fprint := some Printer.ec_fprint_str },
                   place := { file := some "try.c", function := some "main", line := 30 } }
          log := [] } := by
  constructor <;> rfl

/-! ## The invariant of the pending record -/

theorem record_ok_of_error (s1 s2 : ec) (he : s1.error = s2.error) (h : record_ok s2) :
    record_ok s1 := by
  unfold record_ok at *
  rw [he]
  exact h

theorem record_ok_of_type (s : ec) (t : Cat) (h : s.error.type = some t) : record_ok s := by
  intro h0
  rw [h] at h0
  cases h0

theorem record_ok_clean (s : ec) : record_ok (ec_clean_fields s) := by
  intro _
  exact ⟨rfl, rfl, rfl⟩

theorem record_ok_ec_type (type : Option Cat) (s : ec) (h : record_ok s) :
    record_ok (ec_type type s).2 := by
  cases type with
  | none => exact h
  | some t => exact record_ok_of_type _ t rfl

theorem record_ok_ec_shadow (types : Option Cat × Option Cat) (s : ec) (h : record_ok s) :
    record_ok (ec_shadow types s) := by
  unfold ec_shadow
  split
  · exact record_ok_ec_type _ _ h
  · exact h

theorem Outcome.record_ok_bind (o : Outcome) (k : World → Outcome) (ho : o.record_ok)
    (hk : ∀ w1, EC.record_ok w1.ctx → (k w1).record_ok) :
    (match o with
     | Outcome.normal w1 => k w1
     | o => o).record_ok := by
  cases o with
  | normal w1 => exact hk w1 ho
  | jump w1 => exact ho
  | abort w1 => exact ho
  | fault => exact ho
  | undefined => exact ho
  | timeout => exact ho

theorem typed_select (clauses : Clauses Stmt) (h : TypedClauses clauses) (t : Option Cat)
    (block : Val → Stmt) (hs : clauses.select t = some block) : ∀ v, Typed (block v) := by
  induction clauses with
  | ec_catch_a t1 b rest ih =>
      cases h with
      | ec_catch_a _ _ _ hb hrest =>
          simp only [Clauses.select] at hs
          split at hs
          · cases hs
            exact hb
          · exact ih hrest hs
  | ec_catch b =>
      cases h with
      | ec_catch _ hb =>
          simp only [Clauses.select] at hs
          cases hs
          intro _
          exact hb
  | ec_finally b =>
      simp [Clauses.select] at hs

theorem typed_finally (clauses : Clauses Stmt) (h : TypedClauses clauses)
    (block : Stmt) (hs : clauses.finally_block = some block) : Typed block := by
  induction clauses with
  | ec_catch_a t1 b rest ih =>
      cases h with
      | ec_catch_a _ _ _ hb hrest =>
          simp only [Clauses.finally_block] at hs
          exact ih hrest hs
  | ec_catch b =>
      simp [Clauses.finally_block] at hs
  | ec_finally b =>
      cases h with
      | ec_finally _ hb =>
          simp only [Clauses.finally_block] at hs
          cases hs
          exact hb

/-- Whatever a `Typed` statement does in a `Typed` program, and however it ends,
it leaves the invariant of the pending record as it found it. -/
theorem exec_record_ok (P : Program) (hP : ∀ id v, Typed (P.code id v)) :
    ∀ (n depth : Nat) (s : Stmt) (w : World), Typed s → record_ok w.ctx →
      (exec P n depth s w).record_ok := by
  intro n
  induction n with
  | zero =>
      intro depth s w _ _
      exact trivial
  | succ n ih =>
      intro depth s w hs hw
      cases hs with
      | skip => exact hw
      | seq a b ha hb =>
          rw [exec_seq]
          exact Outcome.record_ok_bind _ _ (ih depth a w ha hw) (fun w1 h1 => ih depth b w1 hb h1)
      | probe id => exact hw
      | call f arg =>
          cases f with
          | free => exact hw
          | ec_shadow =>
              cases arg with
              | types ot nt =>
                  rw [exec_call_shadow]
                  exact record_ok_ec_shadow _ _ hw
              | null => exact trivial
              | obj a => exact trivial
              | str a t => exact trivial
          | user id =>
              rw [exec_call_user]
              exact ih depth _ _ (hP id arg) hw
      | ec_set_error t d c p =>
          cases ht : w.ctx.error.type with
          | none =>
              rw [exec_set_error_fresh _ _ _ _ _ _ _ _ ht]
              exact record_ok_of_type _ t rfl
          | some t0 =>
              cases hpr : ec_fprint P w.ctx with
              | none =>
                  rw [exec_set_error_undefined P n depth w (some t) d c p t0 ht hpr]
                  exact trivial
              | some text =>
                  cases hf : w.ctx.error.data_cleanup with
                  | none =>
                      rw [exec_set_error_none P n depth w (some t) d c p t0 text ht hf hpr]
                      exact record_ok_of_type _ t rfl
                  | some f =>
                      rw [exec_set_error_some P n depth w (some t) d c p t0 f text ht hf hpr]
                      exact Outcome.record_ok_bind _ _
                        (ih depth _ _ (Typed.call f _) hw)
                        (fun w2 _ => record_ok_of_type _ t rfl)
      | ec_set_place file function line => exact hw
      | ec_unwind amount =>
          cases amount with
          | EC_UNWIND_ALL =>
              cases hwd : w.ctx.winding with
              | nil =>
                  rw [exec_unwind_all_nil _ _ _ _ hwd]
                  exact hw
              | cons head next =>
                  rw [exec_unwind_all_cons _ _ _ _ head next hwd]
                  exact Outcome.record_ok_bind _ _
                    (ih depth _ _ (Typed.call _ _) hw)
                    (fun w1 h1 => ih depth _ w1 (Typed.ec_unwind _) h1)
          | EC_UNWIND_ONE =>
              cases hwd : w.ctx.winding with
              | nil =>
                  simp only [exec, hwd]
                  exact trivial
              | cons head next =>
                  rw [exec_unwind_one_cons _ _ _ _ head next hwd]
                  exact ih depth _ _ (Typed.call _ _) hw
          | EC_UNWIND_DISCARD_ONE =>
              cases hwd : w.ctx.winding with
              | nil =>
                  simp only [exec, hwd]
                  exact trivial
              | cons head next =>
                  rw [exec_unwind_discard_cons _ _ _ _ head next hwd]
                  exact hw
      | ec_clean =>
          cases hf : w.ctx.error.data_cleanup with
          | none =>
              rw [exec_clean_none _ _ _ _ hf]
              exact record_ok_clean _
          | some f =>
              rw [exec_clean_some _ _ _ _ f hf]
              exact Outcome.record_ok_bind _ _
                (ih depth _ _ (Typed.call f _) hw)
                (fun w1 _ => record_ok_clean _)
      | ec_fprint =>
          cases hpr : ec_fprint P w.ctx with
          | none =>
              simp only [exec, hpr]
              exact trivial
          | some text =>
              simp only [exec, hpr]
              exact hw
      | ec_throw t c p data file function line =>
          rw [exec_throw]
          refine Outcome.record_ok_bind _ _ (ih depth _ w (Typed.ec_set_error t data c p) hw) ?_
          intro w1 h1
          refine Outcome.record_ok_bind _ _
            (ih depth _ _ (Typed.ec_unwind _) (show record_ok
              (w1.set (ec_set_place file function line w1.ctx)).ctx from h1)) ?_
          intro w3 h3
          split
          · cases hpr : ec_fprint P w3.ctx with
            | none => exact trivial
            | some text =>
                exact Outcome.record_ok_bind _ (fun w6 => Outcome.abort w6)
                  (ih depth _ _ Typed.ec_clean (show record_ok
                    ((w3.emit (Event.stderr text)).emit
                      (Event.stderr "Error stack empty: Abort!\n")).ctx from h3))
                  (fun w6 h6 => h6)
          · exact h3
      | ec_rethrow =>
          rw [exec_rethrow]
          split
          · split
            · refine Outcome.record_ok_bind _ _ (ih depth _ w (Typed.ec_unwind _) hw) ?_
              intro w1 h1
              cases hpr : ec_fprint P w1.ctx with
              | none => exact trivial
              | some text => exact h1
            · exact Outcome.record_ok_bind _ (fun w1 => Outcome.jump w1)
                (ih depth _ w (Typed.ec_unwind _) hw) (fun w1 h1 => h1)
          · exact hw
      | ec_try block clauses hb hcl =>
          have hib := ih (depth + 1) block (try_entry depth w) hb hw
          have hfin : ∀ v : World, record_ok v.ctx →
              (match clauses.finally_block with
               | some block1 => exec P n depth (Stmt.seq block1 Stmt.ec_clean) v
               | none => Outcome.normal v).record_ok := by
            intro v hv
            cases hfb : clauses.finally_block with
            | none => exact hv
            | some block1 =>
                exact ih depth _ v
                  (Typed.seq _ _ (typed_finally clauses hcl block1 hfb) Typed.ec_clean) hv
          rw [exec_try]
          cases hbo : exec P n (depth + 1) block (try_entry depth w) with
          | normal w1 =>
              rw [hbo] at hib
              exact hfin (try_restore w w1) hib
          | jump w1 =>
              rw [hbo] at hib
              simp only []
              split
              · cases hsel : clauses.select (ec_type none w1.ctx).1 with
                | none => exact hfin (try_restore w w1) hib
                | some block1 =>
                    exact Outcome.record_ok_bind _ _
                      (ih (depth + 1) _ (try_restore w w1)
                        (Typed.seq _ _ (typed_select clauses hcl _ block1 hsel _) Typed.ec_clean)
                        hib)
                      (fun w3 h3 => hfin w3 h3)
              · exact hib
          | abort w1 =>
              rw [hbo] at hib
              exact hib
          | fault => exact trivial
          | undefined => exact trivial
          | timeout => exact trivial
      | ec_with d u block hb =>
          rw [exec_with]
          exact Outcome.record_ok_bind _ _
            (ih depth block _ hb hw)
            (fun w1 h1 => ih depth _ w1 (Typed.ec_unwind _) h1)
      | ec_with_on_x d u block hb =>
          rw [exec_with_on_x]
          exact Outcome.record_ok_bind _ _
            (ih depth block _ hb hw)
            (fun w1 h1 => ih depth _ w1 (Typed.ec_unwind _) h1)

/-- Claim C30. In every state of the error stack that is reached from the initial
`ec_stack` through the functions of `ec.c` and the macros of `ec.h`, with every
`ec_set_error` and every throw given a type that is not `NULL`, also in the
functions of the program: when the pending type is `NULL`, the pending data is
`NULL`, and so are the cleanup and the printer of the data. -/
theorem C30_pending_type_null_means_no_record (P : Program)
    (hP : ∀ id v, Typed (P.code id v)) (s : ec) (hs : Reachable P s) :
    s.error.type = none →
      s.error.data = Val.null ∧ s.error.data_cleanup = none ∧ s.error.data_fprint = none := by
  show record_ok s
  induction hs with
  | init => exact fun _ => ⟨rfl, rfl, rfl⟩
  | ec_winding_init_and_wind d u s _ ih => exact ih
  | ec_swap_env env s _ ih => exact ih
  | ec_swap_winding winding s _ ih => exact ih
  | ec_env env s _ ih =>
      cases env with
      | none => exact ih
      | some a => exact ih
  | ec_type type s _ ih => exact record_ok_ec_type _ _ ih
  | ec_set_place file function line s _ ih => exact ih
  | ec_shadow types s _ ih => exact record_ok_ec_shadow _ _ ih
  | normal n depth stmt w w1 _ ht he ih =>
      have h := exec_record_ok P hP n depth stmt w ht ih
      rw [he] at h
      exact h
  | jump n depth stmt w w1 _ ht he ih =>
      have h := exec_record_ok P hP n depth stmt w ht ih
      rw [he] at h
      exact h
  | abort n depth stmt w w1 _ ht he ih =>
      have h := exec_record_ok P hP n depth stmt w ht ih
      rw [he] at h
      exact h

theorem C30_witness :
    exec P0 12 0
        (Stmt.ec_try
          (Stmt.ec_throw (some ECX_EC) (some FnPtr.free) none (Val.obj 5) "try.c" "main" 10)
          (Clauses.ec_catch Stmt.skip)) W0 =
      Outcome.normal { ctx := ec_stack, log := [Event.call FnPtr.free (Val.obj 5)] } ∧
    (ec_winding_init_and_wind (Val.obj 6) FnPtr.free
      (ec_set_place "try.c" "main" 12 ec_stack)).2.error.type = none ∧
    (ec_winding_init_and_wind (Val.obj 6) FnPtr.free
      (ec_set_place "try.c" "main" 12 ec_stack)).2.error.data = Val.null ∧
    (ec_winding_init_and_wind (Val.obj 6) FnPtr.free
      (ec_set_place "try.c" "main" 12 ec_stack)).2.error.data_cleanup = none ∧
    (ec_winding_init_and_wind (Val.obj 6) FnPtr.free
      (ec_set_place "try.c" "main" 12 ec_stack)).2.error.data_fprint = none :=
  ⟨rfl, rfl,
    C30_pending_type_null_means_no_record P0 (fun _ _ => Typed.skip) _
      (Reachable.ec_winding_init_and_wind (Val.obj 6) FnPtr.free _
        (Reachable.ec_set_place "try.c" "main" 12 _
          (Reachable.normal 12 0
            (Stmt.ec_try
              (Stmt.ec_throw (some ECX_EC) (some FnPtr.free) none (Val.obj 5) "try.c" "main" 10)
              (Clauses.ec_catch Stmt.skip)) W0
            { ctx := ec_stack, log := [Event.call FnPtr.free (Val.obj 5)] }
            Reachable.init
            (Typed.ec_try _ _ (Typed.ec_throw _ _ _ _ _ _ _) (TypedClauses.ec_catch _ Typed.skip))
            rfl)))
      rfl⟩

/-! ## What the actions of a throw see -/

theorem watch_events_winding (kp : ec_winding → Nat) (s : ec) (x : List ec_winding) :
    ∀ rs : List ec_winding, watch_events kp { s with winding := x } rs = watch_events kp s rs := by
  intro rs
  induction rs with
  | nil => rfl
  | cons r rs ih => simp [watch_events, ih]

theorem watch_events_seen (kp : ec_winding → Nat) (s : ec) :
    ∀ rs : List ec_winding, ∀ e ∈ watch_events kp s rs, ∀ seen, e.seen = some seen →
      seen.error = s.error ∧ seen.place = s.place := by
  intro rs
  induction rs with
  | nil =>
      intro e he
      cases he
  | cons r rs ih =>
      intro e he seen hs
      simp only [watch_events, List.mem_cons] at he
      rcases he with rfl | rfl | he
      · cases hs
      · simp only [Event.seen, Option.some.injEq] at hs
        subst hs
        exact ⟨rfl, rfl⟩
      · exact ih e he seen hs

/-- Unwinding all of a stack of observing actions: each is called once, from the
head down, and sees the error stack as it is but for the records taken off. -/
theorem exec_unwind_all_watch (P : Program) (depth : Nat) (kp : ec_winding → Nat) :
    ∀ (rs : List ec_winding) (n : Nat) (w : World),
      (∀ r ∈ rs, Watcher P r.unwind r.data (kp r)) → w.ctx.winding = rs →
      exec P (n + rs.length + 2) depth (Stmt.ec_unwind ec_unwind_amount.EC_UNWIND_ALL) w =
        Outcome.normal
          { ctx := { w.ctx with winding := [] }
            log := w.log ++ watch_events kp w.ctx rs } := by
  intro rs
  induction rs with
  | nil =>
      intro n w _ hw
      rw [exec_unwind_all_nil _ _ _ _ hw]
      cases w with
      | mk ctx log =>
          cases ctx
          simp_all [watch_events]
  | cons r rs ih =>
      intro n w hq hw
      have e : n + (r :: rs).length + 2 = (n + rs.length + 2) + 1 := by
        simp only [List.length_cons]; omega
      rw [e, exec_unwind_all_cons _ _ _ _ r rs hw,
        hq r (List.mem_cons_self r rs) (n + rs.length) depth]
      simp only []
      rw [ih n _ (fun x hx => hq x (List.mem_cons_of_mem r hx)) rfl]
      simp [World.emit, World.set, watch_events, watch_events_winding]

/-- A throw from inside nested guards with observing actions, nothing pending
before: every action sees the record and the place of the throw. -/
theorem exec_nest_throw_watch (P : Program) (n depth k : Nat) (gs : List Guard)
    (kp : ec_winding → Nat) (w : World)
    (t : Option Cat) (c : Option FnPtr) (p : Option Printer) (data : Val)
    (file function : String) (line : Nat)
    (hq : ∀ g ∈ gs, Watcher P g.u g.d (kp g.record))
    (hw : w.ctx.error.type = none) (hs : w.ctx.winding = []) (he : w.ctx.env = some k) :
    exec P (n + 2 * gs.length + 3) depth
        (nest gs (Stmt.ec_throw t c p data file function line)) w =
      Outcome.jump
        { ctx := thrown t c p data file function line w.ctx
          log := w.log ++ watch_events kp (thrown t c p data file function line w.ctx)
            (gs.reverse.map Guard.record) } := by
  have e : n + 2 * gs.length + 3 = (n + gs.length + 3) + gs.length := by omega
  rw [e]
  apply exec_nest_jump
  rw [exec_throw, exec_set_error_fresh _ _ _ _ _ _ _ _ (by simpa [wound, World.set] using hw)]
  simp only []
  have hu := exec_unwind_all_watch P depth kp (gs.reverse.map Guard.record) n
    (((wound gs w).set { (wound gs w).ctx with
        error := { type := t, data := data, data_cleanup := c, data_fprint := p } }).set
      (ec_set_place file function line ((wound gs w).set { (wound gs w).ctx with
        error := { type := t, data := data, data_cleanup := c, data_fprint := p } }).ctx))
    (by
      intro r hr
      simp only [List.mem_map, List.mem_reverse] at hr
      obtain ⟨g, hg, rfl⟩ := hr
      exact hq g hg)
    (by simp [wound, World.set, ec_set_place, hs])
  simp only [List.length_map, List.length_reverse] at hu
  rw [hu]
  have hx : (ec_set_place file function line
      { (wound gs w).ctx with
        error := { type := t, data := data, data_cleanup := c, data_fprint := p } }) =
      { thrown t c p data file function line w.ctx with
        winding := (wound gs w).ctx.winding } := by
    simp [wound, World.set, ec_set_place, thrown]
  simp only [World.set, hx, watch_events_winding]
  simp [ec_env, he, thrown, ec_set_place, hs, wound, World.set]

/-- Claim C31. `ec_throw` stores the record and the place before it unwinds. A
throw of `(c, p)` at `file`, `function`, `line` inside guards whose actions
look at the error stack, in an `ec_try` entered with nothing pending: every
action that the unwinding calls finds `c` as the pending type (the value of
`ec_type (NULL)`), `p` as the data, and `file`, `function`, `line` through
`ec_get_file`, `ec_get_function`, `ec_get_line`; the handler finds the same. -/
theorem C31_throw_installs_before_unwind (P : Program) (n depth : Nat) (gs : List Guard)
    (kp : ec_winding → Nat) (id : Nat) (w : World) (c : Cat) (cl : Option FnPtr)
    (pr : Option Printer) (p : Val) (file function : String) (line : Nat)
    (hq : ∀ g ∈ gs, Watcher P g.u g.d (kp g.record))
    (hc : ∀ f, cl = some f → Quiet P f p)
    (hw : w.ctx.error.type = none) :
    exec P (n + 2 * gs.length + 5) depth
        (Stmt.ec_try (nest gs (Stmt.ec_throw (some c) cl pr p file function line))
          (Clauses.ec_catch (Stmt.probe id))) w =
      Outcome.normal
        { ctx := ec_clean_fields w.ctx
          log := w.log
            ++ watch_events kp
                (thrown (some c) cl pr p file function line (try_entry depth w).ctx)
                (gs.reverse.map Guard.record)
            ++ [Event.probe id (thrown (some c) cl pr p file function line w.ctx)]
            ++ cleanup_events cl p } ∧
    (∀ e ∈ watch_events kp
          (thrown (some c) cl pr p file function line (try_entry depth w).ctx)
          (gs.reverse.map Guard.record)
        ++ [Event.probe id (thrown (some c) cl pr p file function line w.ctx)],
      ∀ seen, e.seen = some seen →
        (ec_type none seen).1 = some c ∧ ec_get_data seen = p ∧
        ec_get_file seen = some file ∧ ec_get_function seen = some function ∧
        ec_get_line seen = line) := by
  constructor
  · have hj := exec_nest_throw_watch P (n + 1) (depth + 1) (depth + 1) gs kp (try_entry depth w)
      (some c) cl pr p file function line hq hw rfl rfl
    have e : n + 2 * gs.length + 5 = (n + 1 + 2 * gs.length + 3) + 1 := by omega
    have e4 : n + 1 + 2 * gs.length + 3 = (n + 2 * gs.length) + 4 := by omega
    rw [e, exec_try, hj]
    simp only [Clauses.select, Clauses.finally_block]
    rw [if_pos (by rfl), e4, exec_probe_clean P _ _ _ _ (by
      intro f hf
      exact hc f hf)]
    simp [try_restore, try_entry, World.set, ec_swap_env, ec_swap_winding, thrown,
      ec_set_place, ec_clean_fields]
  · intro e he seen hs
    rw [List.mem_append] at he
    rcases he with he | he
    · obtain ⟨h1, h2⟩ := watch_events_seen kp _ _ e he seen hs
      simp [ec_type, ec_get_data, ec_get_file, ec_get_function, ec_get_line, h1, h2, thrown,
        ec_set_place]
    · simp only [List.mem_singleton] at he
      subst he
      simp only [Event.seen, Option.some.injEq] at hs
      subst hs
      simp [ec_type, ec_get_data, ec_get_file, ec_get_function, ec_get_line, thrown,
        ec_set_place]

theorem C31_witness :
    Watcher P3 (FnPtr.user 11) (Val.obj 1) 11 ∧ Watcher P3 (FnPtr.user 12) (Val.obj 2) 12 ∧
    Quiet P3 FnPtr.free (Val.str 64 "An exception from within.") ∧
    W0.ctx.error.type = none ∧
    exec P3 9 0
        (Stmt.ec_try
          (Stmt.ec_with (Val.obj 1) (FnPtr.user 11)
            (Stmt.ec_with_on_x (Val.obj 2) (FnPtr.user 12)
              (ec_throw_str (some ECX_EC) (Val.str 64 "An exception from within.")
                "with.c" "with_ok_thrown" 69)))
          (Clauses.ec_catch (Stmt.probe 0))) W0 =
      Outcome.normal
        { ctx := ec_stack
          log := [Event.call (FnPtr.user 12) (Val.obj 2),
            Event.probe 12
              { env := some 1
                winding := [ec_winding.mk (Val.obj 1) (FnPtr.user 11)]
                error := { type := some ECX_EC, data := Val.str 64 "An exception from within.",
                           data_cleanup := some FnPtr.free,
                           data_fprint := some Printer.ec_fprint_str }
                place := { file := some "with.c", function := some "with_ok_thrown",
                           line := 69 } },
            Event.call (FnPtr.user 11) (Val.obj 1),
            Event.probe 11
              { env := some 1
                winding := []
                error := { type := some ECX_EC, data := Val.str 64 "An exception from within.",
                           data_cleanup := some FnPtr.free,
                           data_fprint := some Printer.ec_fprint_str }
                place := { file := some "with.c", function := some "with_ok_thrown",
                           line := 69 } },
            Event.probe 0
              { env := none
                winding := []
                error := { type := some ECX_EC, data := Val.str 64 "An exception from within.",
                           data_cleanup := some FnPtr.free,
                           data_fprint := some Printer.ec_fprint_str }
                place := { file := some "with.c", function := some "with_ok_thrown",
                           line := 69 } },
            Event.call FnPtr.free (Val.str 64 "An exception from within.")] } :=
  have h1 : Watcher P3 (FnPtr.user 11) (Val.obj 1) 11 := fun _ _ _ => rfl
  have h2 : Watcher P3 (FnPtr.user 12) (Val.obj 2) 12 := fun _ _ _ => rfl
  have h3 : Quiet P3 FnPtr.free (Val.str 64 "An exception from within.") := quiet_free P3 _
  ⟨h1, h2, h3, rfl,
    (C31_throw_installs_before_unwind P3 0 0
      [Guard.mk false (Val.obj 1) (FnPtr.user 11), Guard.mk true (Val.obj 2) (FnPtr.user 12)]
      ec_winding.user_id 0 W0 ECX_EC (some FnPtr.free) (some Printer.ec_fprint_str)
      (Val.str 64 "An exception from within.") "with.c" "with_ok_thrown" 69
      (by
        intro g hg
        simp only [List.mem_cons, List.mem_singleton, List.mem_nil_iff, or_false] at hg
        rcases hg with rfl | rfl
        · exact h1
        · exact h2)
      (by
        intro f hf
        cases hf
        exact h3)
      rfl).1⟩

/-! ## Records wound before a try -/

/-- Guards around a block that returns and leaves the error stack as it is: at
the exit the `ec_with` actions run, the last registered first. -/
theorem exec_nest_normal (P : Program) (n depth k : Nat) (inner : Stmt) (evs : List Event) :
    ∀ (gs : List Guard) (w : World),
      (∀ g ∈ gs, g.on_x = false → Quiet P g.u g.d) →
      (∀ m, exec P (m + k) depth inner (wound gs w) =
        Outcome.normal { ctx := (wound gs w).ctx, log := w.log ++ evs }) →
      exec P (n + k + gs.length + 3) depth (nest gs inner) w =
        Outcome.normal
          { ctx := w.ctx
            log := w.log ++ evs
              ++ ((gs.filter (fun g => !g.on_x)).reverse.map Guard.event) } := by
  intro gs
  induction gs with
  | nil =>
      intro w _ hin
      have h := hin (n + 3)
      have e : n + k + ([] : List Guard).length + 3 = n + 3 + k := by
        simp only [List.length_nil]; omega
      rw [e]
      simpa [nest, wound, World.set] using h
  | cons g gs ih =>
      intro w hq hin
      have e : n + k + (g :: gs).length + 3 = (n + k + gs.length + 3) + 1 := by
        simp only [List.length_cons]; omega
      have e1 : n + k + gs.length + 3 = (n + k + gs.length + 2) + 1 := by omega
      have h1 := ih (w.set (ec_winding_init_and_wind g.d g.u w.ctx).2)
        (fun x hx => hq x (List.mem_cons_of_mem g hx))
        (by
          intro m
          have := hin m
          rw [wound_cons] at this
          exact this)
      simp only [nest]
      rw [e, exec_guard, h1]
      simp only []
      cases hg : g.on_x with
      | true =>
          rw [if_pos rfl, e1, exec_unwind_discard_cons _ _ _ _ (Guard.record g) w.ctx.winding
            (by simp [World.set, ec_winding_init_and_wind, Guard.record])]
          simp [World.set, ec_winding_init_and_wind, hg]
      | false =>
          rw [if_neg (by simp), e1, exec_unwind_one_cons _ _ _ _ (Guard.record g) w.ctx.winding
            (by simp [World.set, ec_winding_init_and_wind, Guard.record])]
          have hq1 := hq g (List.mem_cons_self g gs) hg (n + k + gs.length) depth
          simp only [Guard.record]
          rw [hq1]
          simp [World.set, World.emit, ec_winding_init_and_wind, hg, Guard.event]

/-- A try whose block throws from inside quiet guards and whose catch-all only
observes, followed by a statement that observes: whatever is on the stack at
the entry stays there. -/
theorem exec_try_nest_throw_then (P : Program) (n depth : Nat) (gs : List Guard) (v : World)
    (t : Option Cat) (c : Option FnPtr) (p : Option Printer) (data : Val)
    (file function : String) (line : Nat) (id id2 : Nat)
    (hq : ∀ g ∈ gs, Quiet P g.u g.d)
    (hc : ∀ f, c = some f → Quiet P f data)
    (hv : v.ctx.error.type = none) :
    exec P (n + (2 * gs.length + 6)) depth
        (Stmt.seq
          (Stmt.ec_try (nest gs (Stmt.ec_throw t c p data file function line))
            (Clauses.ec_catch (Stmt.probe id)))
          (Stmt.probe id2)) v =
      Outcome.normal
        { ctx := ec_clean_fields v.ctx
          log := v.log ++ (gs.reverse.map Guard.event
            ++ [Event.probe id (thrown t c p data file function line v.ctx)]
            ++ cleanup_events c data
            ++ [Event.probe id2 (ec_clean_fields v.ctx)]) } := by
  have hj := exec_nest_throw P (n + 1) (depth + 1) (depth + 1) gs (try_entry depth v)
    t c p data file function line hq hv rfl rfl
  have e0 : n + (2 * gs.length + 6) = (n + 1 + 2 * gs.length + 3) + 1 + 1 := by omega
  have e4 : n + 1 + 2 * gs.length + 3 = (n + 2 * gs.length) + 4 := by omega
  rw [e0, exec_seq, exec_try, hj]
  simp only [Clauses.select, Clauses.finally_block]
  rw [if_pos (by rfl), e4, exec_probe_clean P _ _ _ _ (by
    intro f hf
    exact hc f hf)]
  simp only []
  rw [exec_probe]
  simp [try_restore, try_entry, World.set, World.emit, ec_swap_env, ec_swap_winding, thrown,
    ec_set_place, ec_clean_fields]

/-- Claim C32. A throw in the block of an `ec_try`, caught by that `ec_try`, calls
the actions of the guards opened in the block and of no record wound before the
try. For any stack `v` at the entry, of whose actions nothing is assumed: the
handler and the statement after the construct find that stack as it was, and
only the guards of the block have run. With the try inside the guards `outer`
the same holds: the actions of `outer` come after the statement that follows
the try, when the `ec_with` guards are left, and those of `ec_with_on_x` never. -/
theorem C32_handled_throw_spares_outer_records (P : Program) (n depth : Nat)
    (outer inner : List Guard) (w : World)
    (t : Option Cat) (c : Option FnPtr) (p : Option Printer) (data : Val)
    (file function : String) (line : Nat) (id id2 : Nat)
    (hqi : ∀ g ∈ inner, Quiet P g.u g.d)
    (hqo : ∀ g ∈ outer, g.on_x = false → Quiet P g.u g.d)
    (hc : ∀ f, c = some f → Quiet P f data)
    (hw : ec_clean_fields w.ctx = w.ctx) :
    (∀ v : World, v.ctx.error.type = none →
      exec P (n + (2 * inner.length + 6)) depth
          (Stmt.seq
            (Stmt.ec_try (nest inner (Stmt.ec_throw t c p data file function line))
              (Clauses.ec_catch (Stmt.probe id)))
            (Stmt.probe id2)) v =
        Outcome.normal
          { ctx := { env := v.ctx.env, winding := v.ctx.winding,
                     error := { type := none, data := Val.null, data_cleanup := none,
                                data_fprint := none },
                     place := { file := none, function := none, line := 0 } }
            log := v.log ++ (inner.reverse.map Guard.event
              ++ [Event.probe id
                    { env := v.ctx.env, winding := v.ctx.winding,
                      error := { type := t, data := data, data_cleanup := c, data_fprint := p },
                      place := { file := some file, function := some function,
                                 line := line } }]
              ++ cleanup_events c data
              ++ [Event.probe id2
                    { env := v.ctx.env, winding := v.ctx.winding,
                      error := { type := none, data := Val.null, data_cleanup := none,
                                 data_fprint := none },
                      place := { file := none, function := none, line := 0 } }]) }) ∧
    exec P (n + (2 * inner.length + 6) + outer.length + 3) depth
        (nest outer
          (Stmt.seq
            (Stmt.ec_try (nest inner (Stmt.ec_throw t c p data file function line))
              (Clauses.ec_catch (Stmt.probe id)))
            (Stmt.probe id2))) w =
      Outcome.normal
        { ctx := w.ctx
          log := w.log ++ (inner.reverse.map Guard.event
            ++ [Event.probe id
                  { env := w.ctx.env
                    winding := outer.reverse.map Guard.record ++ w.ctx.winding
                    error := { type := t, data := data, data_cleanup := c, data_fprint := p }
                    place := { file := some file, function := some function, line := line } }]
            ++ cleanup_events c data
            ++ [Event.probe id2
                  { w.ctx with winding := outer.reverse.map Guard.record ++ w.ctx.winding }])
            ++ ((outer.filter (fun g => !g.on_x)).reverse.map Guard.event) } := by
  have hwt : w.ctx.error.type = none := by
    rw [← hw]
    rfl
  constructor
  · intro v hv
    rw [exec_try_nest_throw_then P n depth inner v t c p data file function line id id2 hqi hc hv]
    simp [thrown, ec_set_place, ec_clean_fields]
  · have hin : ∀ m, exec P (m + (2 * inner.length + 6)) depth
        (Stmt.seq
          (Stmt.ec_try (nest inner (Stmt.ec_throw t c p data file function line))
            (Clauses.ec_catch (Stmt.probe id)))
          (Stmt.probe id2)) (wound outer w) =
        Outcome.normal
          { ctx := (wound outer w).ctx
            log := w.log ++ (inner.reverse.map Guard.event
              ++ [Event.probe id
                    { env := w.ctx.env
                      winding := outer.reverse.map Guard.record ++ w.ctx.winding
                      error := { type := t, data := data, data_cleanup := c, data_fprint := p }
                      place := { file := some file, function := some function,
                                 line := line } }]
              ++ cleanup_events c data
              ++ [Event.probe id2
                    { w.ctx with
                      winding := outer.reverse.map Guard.record ++ w.ctx.winding }]) } := by
      intro m
      rw [exec_try_nest_throw_then P m depth inner (wound outer w) t c p data file function line
        id id2 hqi hc (by simpa [wound, World.set] using hwt)]
      have hcl : ec_clean_fields (wound outer w).ctx = (wound outer w).ctx := by
        have h1 : ec_clean_fields (wound outer w).ctx =
            { ec_clean_fields w.ctx with
              winding := outer.reverse.map Guard.record ++ w.ctx.winding } := by
          simp [wound, World.set, ec_clean_fields]
        rw [h1, hw]
        simp [wound, World.set]
      rw [hcl]
      simp [wound, World.set, thrown, ec_set_place]
    exact exec_nest_normal P n depth (2 * inner.length + 6) _ _ outer w hqo hin

theorem C32_witness :
    Quiet P1 FnPtr.free (Val.obj 3) ∧ Quiet P1 FnPtr.free (Val.obj 1) ∧
    ec_clean_fields W0.ctx = W0.ctx ∧
    exec P1 13 0
        (Stmt.ec_with (Val.obj 1) FnPtr.free
          (Stmt.ec_with_on_x (Val.obj 2) (FnPtr.user 1)
            (Stmt.seq
              (Stmt.ec_try
                (Stmt.ec_with (Val.obj 3) FnPtr.free
                  (Stmt.ec_throw (some ECX_EC) none none Val.null "with.c" "main" 69))
                (Clauses.ec_catch (Stmt.probe 0)))
              (Stmt.probe 5)))) W0 =
      Outcome.normal
        { ctx := ec_stack
          log := [Event.call FnPtr.free (Val.obj 3),
            Event.probe 0
              { env := none
                winding := [ec_winding.mk (Val.obj 2) (FnPtr.user 1),
                  ec_winding.mk (Val.obj 1) FnPtr.free]
                error := { type := some ECX_EC, data := Val.null, data_cleanup := none,
                           data_fprint := none }
                place := { file := some "with.c", function := some "main", line := 69 } },
            Event.probe 5
              { ec_stack with
                winding := [ec_winding.mk (Val.obj 2) (FnPtr.user 1),
                  ec_winding.mk (Val.obj 1) FnPtr.free] },
            Event.call FnPtr.free (Val.obj 1)] } :=
  have h3 : Quiet P1 FnPtr.free (Val.obj 3) := quiet_free P1 _
  have h1 : Quiet P1 FnPtr.free (Val.obj 1) := quiet_free P1 _
  ⟨h3, h1, rfl,
    (C32_handled_throw_spares_outer_records P1 0 0
      [Guard.mk false (Val.obj 1) FnPtr.free, Guard.mk true (Val.obj 2) (FnPtr.user 1)]
      [Guard.mk false (Val.obj 3) FnPtr.free] W0
      (some ECX_EC) none none Val.null "with.c" "main" 69 0 5
      (by
        intro g hg
        simp only [List.mem_singleton] at hg
        subst hg
        exact h3)
      (by
        intro g hg hx
        simp only [List.mem_cons, List.mem_singleton, List.mem_nil_iff, or_false] at hg
        rcases hg with rfl | rfl
        · exact h1
        · cases hx)
      (by
        intro f hf
        cases hf)
      rfl).2⟩

/-! ## Guards are balanced -/

/-- Claim C33. For every error stack: `ec_winding_init_and_wind (w, d, u)` and then
`ec_unwind (EC_UNWIND_DISCARD_ONE)` gives the error stack back as it was, with
nothing called; then `ec_unwind (EC_UNWIND_ONE)` instead, with a quiet action,
gives it back after the one call `u (d)`. So an `ec_with` or `ec_with_on_x`
whose block returns with the stack as it was when the block started ends with
the stack as it was before the guard. -/
theorem C33_wind_then_unwind_is_identity (P : Program) (n depth : Nat) (w : World)
    (d : Val) (u : FnPtr) (block : Stmt) :
    exec P (n + 1) depth (Stmt.ec_unwind ec_unwind_amount.EC_UNWIND_DISCARD_ONE)
        (w.set (ec_winding_init_and_wind d u w.ctx).2) = Outcome.normal w ∧
    (Quiet P u d →
      exec P (n + 3) depth (Stmt.ec_unwind ec_unwind_amount.EC_UNWIND_ONE)
          (w.set (ec_winding_init_and_wind d u w.ctx).2) =
        Outcome.normal { ctx := w.ctx, log := w.log ++ [Event.call u d] }) ∧
    (∀ w1 : World,
      exec P (n + 3) depth block (w.set (ec_winding_init_and_wind d u w.ctx).2) =
        Outcome.normal w1 →
      w1.ctx.winding = { data := d, unwind := u } :: w.ctx.winding →
      exec P (n + 4) depth (Stmt.ec_with_on_x d u block) w =
        Outcome.normal
          { ctx := { env := w1.ctx.env, winding := w.ctx.winding, error := w1.ctx.error,
                     place := w1.ctx.place }
            log := w1.log } ∧
      (Quiet P u d →
        exec P (n + 4) depth (Stmt.ec_with d u block) w =
          Outcome.normal
            { ctx := { env := w1.ctx.env, winding := w.ctx.winding, error := w1.ctx.error,
                       place := w1.ctx.place }
              log := w1.log ++ [Event.call u d] })) := by
  refine ⟨?_, ?_, ?_⟩
  · rw [exec_unwind_discard_cons _ _ _ _ { data := d, unwind := u } w.ctx.winding rfl]
    cases w with
    | mk ctx log =>
        cases ctx
        rfl
  · intro hq
    rw [exec_unwind_one_cons _ _ _ _ { data := d, unwind := u } w.ctx.winding rfl]
    rw [hq n depth]
    cases w with
    | mk ctx log =>
        cases ctx
        rfl
  · intro w1 hb hbal
    constructor
    · rw [exec_with_on_x, hb]
      simp only []
      rw [exec_unwind_discard_cons _ _ _ _ _ _ hbal]
      rfl
    · intro hq
      rw [exec_with, hb]
      simp only []
      rw [exec_unwind_one_cons _ _ _ _ _ _ hbal]
      rw [hq n depth]
      rfl

theorem C33_witness :
    exec P0 4 0 (Stmt.probe 0)
        (W0.set (ec_winding_init_and_wind (Val.obj 1) FnPtr.free W0.ctx).2) =
      Outcome.normal
        { ctx := { ec_stack with winding := [ec_winding.mk (Val.obj 1) FnPtr.free] }
          log := [Event.probe 0
            { ec_stack with winding := [ec_winding.mk (Val.obj 1) FnPtr.free] }] } ∧
    Quiet P0 FnPtr.free (Val.obj 1) ∧
    exec P0 2 0 (Stmt.ec_unwind ec_unwind_amount.EC_UNWIND_DISCARD_ONE)
        (W0.set (ec_winding_init_and_wind (Val.obj 1) FnPtr.free W0.ctx).2) =
      Outcome.normal W0 ∧
    exec P0 5 0 (Stmt.ec_with (Val.obj 1) FnPtr.free (Stmt.probe 0)) W0 =
      Outcome.normal
        { ctx := ec_stack
          log := [Event.probe 0
              { ec_stack with winding := [ec_winding.mk (Val.obj 1) FnPtr.free] },
            Event.call FnPtr.free (Val.obj 1)] } :=
  have h := C33_wind_then_unwind_is_identity P0 1 0 W0 (Val.obj 1) FnPtr.free (Stmt.probe 0)
  ⟨rfl, quiet_free P0 _, h.1,
    (h.2.2
      { ctx := { ec_stack with winding := [ec_winding.mk (Val.obj 1) FnPtr.free] }
        log := [Event.probe 0
          { ec_stack with winding := [ec_winding.mk (Val.obj 1) FnPtr.free] }] }
      rfl rfl).2 (quiet_free P0 _)⟩

/-! ## Well-nested programs never unwind an empty stack -/

theorem nested_select (clauses : Clauses Stmt) (h : NestedClauses clauses) (t : Option Cat)
    (block : Val → Stmt) (hs : clauses.select t = some block) : ∀ v, Nested (block v) := by
  induction clauses with
  | ec_catch_a t1 b rest ih =>
      cases h with
      | ec_catch_a _ _ _ hb hrest =>
          simp only [Clauses.select] at hs
          split at hs
          · cases hs
            exact hb
          · exact ih hrest hs
  | ec_catch b =>
      cases h with
      | ec_catch _ hb =>
          simp only [Clauses.select] at hs
          cases hs
          intro _
          exact hb
  | ec_finally b =>
      simp [Clauses.select] at hs

theorem nested_finally (clauses : Clauses Stmt) (h : NestedClauses clauses)
    (block : Stmt) (hs : clauses.finally_block = some block) : Nested block := by
  induction clauses with
  | ec_catch_a t1 b rest ih =>
      cases h with
      | ec_catch_a _ _ _ hb hrest =>
          simp only [Clauses.finally_block] at hs
          exact ih hrest hs
  | ec_catch b =>
      simp [Clauses.finally_block] at hs
  | ec_finally b =>
      cases h with
      | ec_finally _ hb =>
          simp only [Clauses.finally_block] at hs
          cases hs
          exact hb

theorem calls_ok_pop (s : ec) (head : ec_winding) (next : List ec_winding)
    (h : calls_ok s) (hw : s.winding = head :: next) :
    callable head.unwind head.data = true ∧ calls_ok { s with winding := next } := by
  refine ⟨h.1 head (by rw [hw]; exact List.mem_cons_self _ _), ?_, h.2⟩
  intro r hr
  exact h.1 r (by rw [hw]; exact List.mem_cons_of_mem _ hr)

theorem calls_ok_wind (s : ec) (d : Val) (u : FnPtr) (h : calls_ok s)
    (hc : callable u d = true) : calls_ok (ec_winding_init_and_wind d u s).2 := by
  refine ⟨?_, h.2⟩
  intro r hr
  simp only [ec_winding_init_and_wind, List.mem_cons] at hr
  rcases hr with rfl | hr
  · exact hc
  · exact h.1 r hr

theorem calls_ok_shadow (types : Option Cat × Option Cat) (s : ec) (h : calls_ok s) :
    calls_ok (ec_shadow types s) := by
  unfold ec_shadow
  split
  · cases h2 : types.2 with
    | none => exact h
    | some x => exact h
  · exact h

theorem Outcome.balanced_bind (o : Outcome) (k : World → Outcome) (rs0 rs : List ec_winding)
    (ho : o.balanced rs0)
    (hk : ∀ w1, w1.ctx.winding = rs0 → calls_ok w1.ctx → (k w1).balanced rs) :
    (match o with
     | Outcome.normal w1 => k w1
     | o => o).balanced rs := by
  cases o with
  | normal w1 => exact hk w1 ho.1 ho.2
  | jump w1 => exact ho
  | abort w1 => exact ho
  | fault => exact ho
  | undefined => exact ho
  | timeout => exact ho

/-- In a well-nested program no statement faults, a statement that returns
leaves the winding stack as it found it, and the unwinding that the macros do
finds the records it takes off. -/
theorem exec_balanced (P : Program) (hP : ∀ id v, Nested (P.code id v)) :
    ∀ n : Nat,
      (∀ depth s w, Nested s → calls_ok w.ctx →
        (exec P n depth s w).balanced w.ctx.winding) ∧
      (∀ depth w, calls_ok w.ctx →
        (exec P n depth (Stmt.ec_unwind ec_unwind_amount.EC_UNWIND_ALL) w).balanced []) ∧
      (∀ depth w head next, calls_ok w.ctx → w.ctx.winding = head :: next →
        (exec P n depth (Stmt.ec_unwind ec_unwind_amount.EC_UNWIND_ONE) w).balanced next) ∧
      (∀ depth w head next, calls_ok w.ctx → w.ctx.winding = head :: next →
        (exec P n depth (Stmt.ec_unwind ec_unwind_amount.EC_UNWIND_DISCARD_ONE) w).balanced
          next) := by
  intro n
  induction n with
  | zero =>
      refine ⟨?_, ?_, ?_, ?_⟩
      · intro depth s w _ _
        exact trivial
      · intro depth w _
        exact trivial
      · intro depth w head next _ _
        exact trivial
      · intro depth w head next _ _
        exact trivial
  | succ n ih =>
      obtain ⟨ihA, ihU, ihO, ihD⟩ := ih
      refine ⟨?_, ?_, ?_, ?_⟩
      · intro depth s w hs hw
        cases hs with
        | skip => exact ⟨rfl, hw⟩
        | seq a b ha hb =>
            rw [exec_seq]
            refine Outcome.balanced_bind _ _ _ _ (ihA depth a w ha hw) ?_
            intro w1 h1 ok1
            have h := ihA depth b w1 hb ok1
            rw [h1] at h
            exact h
        | probe id => exact ⟨rfl, hw⟩
        | call f arg hcall =>
            cases f with
            | free => exact ⟨rfl, hw⟩
            | ec_shadow =>
                cases arg with
                | types ot nt =>
                    rw [exec_call_shadow]
                    exact ⟨ec_shadow_winding _ _, calls_ok_shadow _ _ hw⟩
                | null => cases hcall
                | obj a => cases hcall
                | str a t => cases hcall
            | user id =>
                rw [exec_call_user]
                exact ihA depth _ _ (hP id arg) hw
        | ec_set_error t d c p hc =>
            cases ht : w.ctx.error.type with
            | none =>
                rw [exec_set_error_fresh _ _ _ _ _ _ _ _ ht]
                exact ⟨rfl, hw.1, hc⟩
            | some t0 =>
                cases hpr : ec_fprint P w.ctx with
                | none =>
                    rw [exec_set_error_undefined P n depth w t d c p t0 ht hpr]
                    exact trivial
                | some text =>
                    cases hf : w.ctx.error.data_cleanup with
                    | none =>
                        rw [exec_set_error_none P n depth w t d c p t0 text ht hf hpr]
                        exact ⟨rfl, hw.1, hc⟩
                    | some f =>
                        rw [exec_set_error_some P n depth w t d c p t0 f text ht hf hpr]
                        refine Outcome.balanced_bind _ _ _ _
                          (ihA depth _ _ (Nested.call f _ (hw.2 f hf)) hw) ?_
                        intro w2 h2 ok2
                        exact ⟨h2, ok2.1, hc⟩
        | ec_set_place file function line => exact ⟨rfl, hw⟩
        | ec_clean =>
            cases hf : w.ctx.error.data_cleanup with
            | none =>
                rw [exec_clean_none _ _ _ _ hf]
                exact ⟨rfl, hw.1, fun f h => by cases h⟩
            | some f =>
                rw [exec_clean_some _ _ _ _ f hf]
                refine Outcome.balanced_bind _ _ _ _
                  (ihA depth _ _ (Nested.call f _ (hw.2 f hf)) hw) ?_
                intro w1 h1 ok1
                exact ⟨h1, ok1.1, fun f h => by cases h⟩
        | ec_fprint =>
            cases hpr : ec_fprint P w.ctx with
            | none =>
                simp only [exec, hpr]
                exact trivial
            | some text =>
                simp only [exec, hpr]
                exact ⟨rfl, hw⟩
        | ec_throw t c p data file function line hc =>
            rw [exec_throw]
            refine Outcome.balanced_bind _ _ _ _
              (ihA depth _ w (Nested.ec_set_error t data c p hc) hw) ?_
            intro w1 _ ok1
            refine Outcome.balanced_bind _ _ _ _
              (ihU depth (w1.set (ec_set_place file function line w1.ctx)) ok1) ?_
            intro w3 _ ok3
            split
            · cases hpr : ec_fprint P w3.ctx with
              | none => exact trivial
              | some text =>
                  exact Outcome.balanced_bind _ (fun w6 => Outcome.abort w6) _ _
                    (ihA depth _
                      ((w3.emit (Event.stderr text)).emit
                        (Event.stderr "Error stack empty: Abort!\n")) Nested.ec_clean ok3)
                    (fun _ _ _ => trivial)
            · exact ok3
        | ec_rethrow =>
            rw [exec_rethrow]
            split
            · split
              · refine Outcome.balanced_bind _ _ _ _ (ihU depth w hw) ?_
                intro w1 _ _
                cases hpr : ec_fprint P w1.ctx with
                | none => exact trivial
                | some text => exact trivial
              · exact Outcome.balanced_bind _ (fun w1 => Outcome.jump w1) _ _
                  (ihU depth w hw) (fun _ _ ok1 => ok1)
            · exact ⟨rfl, hw⟩
        | ec_try block clauses hb hcl =>
            have hib := ihA (depth + 1) block (try_entry depth w) hb
              (And.intro (fun r hr => by cases hr) hw.2)
            have hfin : ∀ v : World, v.ctx.winding = w.ctx.winding → calls_ok v.ctx →
                (match clauses.finally_block with
                 | some block1 => exec P n depth (Stmt.seq block1 Stmt.ec_clean) v
                 | none => Outcome.normal v).balanced w.ctx.winding := by
              intro v hv okv
              cases hfb : clauses.finally_block with
              | none => exact ⟨hv, okv⟩
              | some block1 =>
                  have h := ihA depth _ v
                    (Nested.seq _ _ (nested_finally clauses hcl block1 hfb) Nested.ec_clean) okv
                  rw [hv] at h
                  exact h
            rw [exec_try]
            cases hbo : exec P n (depth + 1) block (try_entry depth w) with
            | normal w1 =>
                rw [hbo] at hib
                exact hfin (try_restore w w1) rfl ⟨hw.1, hib.2.2⟩
            | jump w1 =>
                rw [hbo] at hib
                simp only []
                split
                · cases hsel : clauses.select (ec_type none w1.ctx).1 with
                  | none => exact hfin (try_restore w w1) rfl ⟨hw.1, hib.2⟩
                  | some block1 =>
                      exact Outcome.balanced_bind _ _ _ _
                        (ihA (depth + 1) _ (try_restore w w1)
                          (Nested.seq _ _ (nested_select clauses hcl _ block1 hsel _)
                            Nested.ec_clean)
                          ⟨hw.1, hib.2⟩)
                        (fun w3 h3 ok3 => hfin w3 h3 ok3)
                · exact hib
            | abort w1 => exact trivial
            | fault =>
                rw [hbo] at hib
                exact hib
            | undefined => exact trivial
            | timeout => exact trivial
        | ec_with d u block hc hb =>
            rw [exec_with]
            refine Outcome.balanced_bind _ _ _ _
              (ihA depth block _ hb (calls_ok_wind w.ctx d u hw hc)) ?_
            intro w1 h1 ok1
            exact ihO depth w1 _ _ ok1 h1
        | ec_with_on_x d u block hc hb =>
            rw [exec_with_on_x]
            refine Outcome.balanced_bind _ _ _ _
              (ihA depth block _ hb (calls_ok_wind w.ctx d u hw hc)) ?_
            intro w1 h1 ok1
            exact ihD depth w1 _ _ ok1 h1
      · intro depth w hw
        cases hwd : w.ctx.winding with
        | nil =>
            rw [exec_unwind_all_nil _ _ _ _ hwd]
            exact ⟨hwd, hw⟩
        | cons head next =>
            obtain ⟨hc, okp⟩ := calls_ok_pop w.ctx head next hw hwd
            rw [exec_unwind_all_cons _ _ _ _ head next hwd]
            refine Outcome.balanced_bind _ _ _ _
              (ihA depth _ (w.set { w.ctx with winding := next }) (Nested.call _ _ hc) okp) ?_
            intro w1 _ ok1
            exact ihU depth w1 ok1
      · intro depth w head next hw hwd
        obtain ⟨hc, okp⟩ := calls_ok_pop w.ctx head next hw hwd
        rw [exec_unwind_one_cons _ _ _ _ head next hwd]
        exact ihA depth _ (w.set { w.ctx with winding := next }) (Nested.call _ _ hc) okp
      · intro depth w head next hw hwd
        obtain ⟨_, okp⟩ := calls_ok_pop w.ctx head next hw hwd
        rw [exec_unwind_discard_cons _ _ _ _ head next hwd]
        exact ⟨rfl, okp⟩

theorem Outcome.balanced_ne_fault (o : Outcome) (rs : List ec_winding) (h : o.balanced rs) :
    o ≠ Outcome.fault := by
  intro e
  rw [e] at h
  exact h

/-- Claim C34. In a program that uses the winding stack only through `ec_try` with
its clauses, `ec_with`, `ec_with_on_x`, `ec_throw` and `ec_rethrow`, run from
an error stack whose function pointers can be called (the initial one is
such): no statement ends in the outcome `fault` (an `ec_unwind` on the empty
stack, an `ec_shadow` without its array), whatever the fuel; when the block of
a guard returns, the stack is not empty and its head is the record of that
guard; and the `ec_unwind` of the exit, of either kind, does not fault. -/
theorem C34_guard_exit_finds_own_record (P : Program) (hP : ∀ id v, Nested (P.code id v))
    (n depth : Nat) (s : Stmt) (w : World) (hs : Nested s) (hw : calls_ok w.ctx) :
    exec P n depth s w ≠ Outcome.fault ∧
    (∀ (d : Val) (u : FnPtr) (block : Stmt) (w1 : World),
      Nested block → callable u d = true →
      exec P n depth block (w.set (ec_winding_init_and_wind d u w.ctx).2) = Outcome.normal w1 →
      w1.ctx.winding = { data := d, unwind := u } :: w.ctx.winding ∧
      (∀ m, exec P m depth (Stmt.ec_unwind ec_unwind_amount.EC_UNWIND_ONE) w1 ≠
        Outcome.fault) ∧
      (∀ m, exec P m depth (Stmt.ec_unwind ec_unwind_amount.EC_UNWIND_DISCARD_ONE) w1 ≠
        Outcome.fault)) := by
  constructor
  · exact Outcome.balanced_ne_fault _ _ ((exec_balanced P hP n).1 depth s w hs hw)
  · intro d u block w1 hb hc he
    have h := (exec_balanced P hP n).1 depth block
      (w.set (ec_winding_init_and_wind d u w.ctx).2) hb (calls_ok_wind w.ctx d u hw hc)
    rw [he] at h
    refine ⟨h.1, ?_, ?_⟩
    · intro m
      exact Outcome.balanced_ne_fault _ _ ((exec_balanced P hP m).2.2.1 depth w1 _ _ h.2 h.1)
    · intro m
      exact Outcome.balanced_ne_fault _ _ ((exec_balanced P hP m).2.2.2 depth w1 _ _ h.2 h.1)

theorem C34_witness :
    Nested
      (Stmt.ec_try
        (Stmt.ec_with (Val.obj 1) FnPtr.free
          (Stmt.seq
            (Stmt.ec_with_on_x (Val.obj 2) (FnPtr.user 3) (Stmt.probe 0))
            (Stmt.ec_throw (some ECX_EC) (some FnPtr.free) none (Val.obj 4) "with.c" "main" 69)))
        (Clauses.ec_catch Stmt.ec_rethrow)) ∧
    calls_ok W0.ctx ∧
    exec P0 12 0
        (Stmt.ec_try
          (Stmt.ec_with (Val.obj 1) FnPtr.free
            (Stmt.seq
              (Stmt.ec_with_on_x (Val.obj 2) (FnPtr.user 3) (Stmt.probe 0))
              (Stmt.ec_throw (some ECX_EC) (some FnPtr.free) none (Val.obj 4)
                "with.c" "main" 69)))
          (Clauses.ec_catch Stmt.ec_rethrow)) W0 ≠ Outcome.fault ∧
    exec P0 12 0 (Stmt.probe 0)
        (W0.set (ec_winding_init_and_wind (Val.obj 2) (FnPtr.user 3) W0.ctx).2) =
      Outcome.normal
        { ctx := { ec_stack with winding := [ec_winding.mk (Val.obj 2) (FnPtr.user 3)] }
          log := [Event.probe 0
            { ec_stack with winding := [ec_winding.mk (Val.obj 2) (FnPtr.user 3)] }] } ∧
    exec P0 3 0 (Stmt.ec_unwind ec_unwind_amount.EC_UNWIND_DISCARD_ONE)
        { ctx := { ec_stack with winding := [ec_winding.mk (Val.obj 2) (FnPtr.user 3)] }
          log := [Event.probe 0
            { ec_stack with winding := [ec_winding.mk (Val.obj 2) (FnPtr.user 3)] }] } ≠
      Outcome.fault :=
  have hs : Nested
      (Stmt.ec_try
        (Stmt.ec_with (Val.obj 1) FnPtr.free
          (Stmt.seq
            (Stmt.ec_with_on_x (Val.obj 2) (FnPtr.user 3) (Stmt.probe 0))
            (Stmt.ec_throw (some ECX_EC) (some FnPtr.free) none (Val.obj 4) "with.c" "main" 69)))
        (Clauses.ec_catch Stmt.ec_rethrow)) :=
    Nested.ec_try _ _
      (Nested.ec_with _ _ _ rfl
        (Nested.seq _ _ (Nested.ec_with_on_x _ _ _ rfl (Nested.probe 0))
          (Nested.ec_throw _ _ _ _ _ _ _ (fun f hf => (by cases hf; rfl)))))
      (NestedClauses.ec_catch _ Nested.ec_rethrow)
  have hw : calls_ok W0.ctx := And.intro (fun r hr => (by cases hr)) (fun f hf => (by cases hf))
  have h := C34_guard_exit_finds_own_record P0 (fun _ _ => Nested.skip) 12 0 _ W0 hs hw
  ⟨hs, hw, h.1, rfl,
    (h.2 (Val.obj 2) (FnPtr.user 3) (Stmt.probe 0) _ (Nested.probe 0) rfl rfl).2.2 3⟩

/-! ## Cleaning -/

/-- Claim C35. `ec_clean` calls the cleanup of the pending data once, on that data,
when there is one, and nothing when there is none; then type, data, cleanup,
printer, file and function are `NULL` and the line is 0, with `env` and
`winding` as the cleanup left them (as before, for a quiet cleanup). A second
`ec_clean` calls nothing and changes nothing. -/
theorem C35_clean_once_and_idempotent (P : Program) (n depth : Nat) (w : World)
    (hc : ∀ f, w.ctx.error.data_cleanup = some f → Quiet P f w.ctx.error.data) :
    exec P (n + 3) depth Stmt.ec_clean w =
      Outcome.normal
        { ctx := { env := w.ctx.env, winding := w.ctx.winding,
                   error := { type := none, data := Val.null, data_cleanup := none,
                              data_fprint := none },
                   place := { file := none, function := none, line := 0 } }
          log := w.log ++ cleanup_events w.ctx.error.data_cleanup w.ctx.error.data } ∧
    cleanup_events none w.ctx.error.data = [] ∧
    (∀ f, cleanup_events (some f) w.ctx.error.data = [Event.call f w.ctx.error.data]) ∧
    (∀ (f : FnPtr) (w1 : World), w.ctx.error.data_cleanup = some f →
      exec P n depth (Stmt.call f w.ctx.error.data) w = Outcome.normal w1 →
      exec P (n + 1) depth Stmt.ec_clean w =
        Outcome.normal
          { ctx := { env := w1.ctx.env, winding := w1.ctx.winding,
                     error := { type := none, data := Val.null, data_cleanup := none,
                                data_fprint := none },
                     place := { file := none, function := none, line := 0 } }
            log := w1.log }) ∧
    exec P (n + 4) depth (Stmt.seq Stmt.ec_clean Stmt.ec_clean) w =
      exec P (n + 3) depth Stmt.ec_clean w ∧
    (∀ v : World,
      exec P (n + 1) depth Stmt.ec_clean (v.set (ec_clean_fields v.ctx)) =
        Outcome.normal (v.set (ec_clean_fields v.ctx))) := by
  have h1 := exec_clean_quiet P n depth w hc
  refine ⟨?_, rfl, fun _ => rfl, ?_, ?_, ?_⟩
  · rw [h1]
    rfl
  · intro f w1 hf hcall
    rw [exec_clean_some _ _ _ _ f hf, hcall]
    rfl
  · rw [exec_seq, h1]
    simp only []
    rw [exec_clean_none _ _ _ _ rfl]
    rfl
  · intro v
    rw [exec_clean_none _ _ _ _ rfl]
    rfl

theorem C35_witness :
    Quiet P0 FnPtr.free (Val.str 64 "x") ∧
    exec P0 4 0 (Stmt.seq Stmt.ec_clean Stmt.ec_clean)
        { ctx := { env := some 1
                   winding := [ec_winding.mk (Val.obj 1) FnPtr.free]
                   error := { type := some ECX_EC, data := Val.str 64 "x",
                              data_cleanup := some FnPtr.free,
                              data_fprint := some Printer.ec_fprint_str }
                   place := { file := some "try.c", function := some "main", line := 30 } }
          log := [] } =
      Outcome.normal
        { ctx := { ec_stack with
                   env := some 1, winding := [ec_winding.mk (Val.obj 1) FnPtr.free] }
          log := [Event.call FnPtr.free (Val.str 64 "x")] } :=
  have hq : Quiet P0 FnPtr.free (Val.str 64 "x") := quiet_free P0 _
  have h := C35_clean_once_and_idempotent P0 0 0
    { ctx := { env := some 1
               winding := [ec_winding.mk (Val.obj 1) FnPtr.free]
               error := { type := some ECX_EC, data := Val.str 64 "x",
                          data_cleanup := some FnPtr.free,
                          data_fprint := some Printer.ec_fprint_str }
               place := { file := some "try.c", function := some "main", line := 30 } }
      log := [] }
    (by
      intro f hf
      cases hf
      exact hq)
  ⟨hq, h.2.2.2.2.1.trans h.1⟩

/-! ## A finally while a record is pending -/

/-- An `ec_try` closed by `ec_finally`, both blocks observing, entered while a
record with a quiet cleanup may be pending: the `ec_clean` after the finally
block cleans that record. -/
theorem exec_try_finally_probe (P : Program) (n depth : Nat) (w : World) (kb kf : Nat)
    (hc : ∀ f, w.ctx.error.data_cleanup = some f → Quiet P f w.ctx.error.data) :
    exec P (n + 5) depth
        (Stmt.ec_try (Stmt.probe kb) (Clauses.ec_finally (Stmt.probe kf))) w =
      Outcome.normal
        { ctx := ec_clean_fields w.ctx
          log := w.log ++ [Event.probe kb (try_entry depth w).ctx, Event.probe kf w.ctx]
            ++ cleanup_events w.ctx.error.data_cleanup w.ctx.error.data } := by
  rw [exec_try, exec_probe]
  simp only [Clauses.finally_block]
  rw [exec_probe_clean P n depth _ kf (by
    intro f hf
    exact hc f hf)]
  cases w with
  | mk ctx log =>
      cases ctx
      simp [try_restore, try_entry, World.set, World.emit, ec_swap_env, ec_swap_winding,
        ec_clean_fields]

/-- Claim C36. The `ec_clean` of an `ec_finally` is unconditional. An `ec_try`
closed by `ec_finally` whose block throws nothing, entered while a record is
pending, cleans that record and calls its payload cleanup. So when such a
construct is the cleanup action of a guard and runs in the unwinding of a throw
of `(c, p)`: the finally block still sees `(c, p)`, the cleanup of `p` is
called once, and then the throw goes on to the handler with nothing pending:
the clause `ec_catch_a (c, e)` is not entered, the catch-all is, and it finds
the type `NULL`. -/
theorem C36_finally_cleans_pending_record (P : Program) (n depth : Nat) (w : World)
    (x : Nat) (dx : Val) (kb kf id1 id : Nat)
    (c : Cat) (cl : Option FnPtr) (pr : Option Printer) (p : Val)
    (file function : String) (line : Nat)
    (hx : P.code x dx = Stmt.ec_try (Stmt.probe kb) (Clauses.ec_finally (Stmt.probe kf)))
    (hc : ∀ f, cl = some f → Quiet P f p)
    (hw : w.ctx.error.type = none) :
    (∀ v : World, v.ctx.error = { type := some c, data := p, data_cleanup := cl,
                                   data_fprint := pr } →
      exec P (n + 5) depth
          (Stmt.ec_try (Stmt.probe kb) (Clauses.ec_finally (Stmt.probe kf))) v =
        Outcome.normal
          { ctx := { env := v.ctx.env, winding := v.ctx.winding,
                     error := { type := none, data := Val.null, data_cleanup := none,
                                data_fprint := none },
                     place := { file := none, function := none, line := 0 } }
            log := v.log ++ [Event.probe kb (try_entry depth v).ctx, Event.probe kf v.ctx]
              ++ cleanup_events cl p }) ∧
    exec P (n + 10) depth
        (Stmt.ec_try
          (Stmt.ec_with dx (FnPtr.user x)
            (Stmt.ec_throw (some c) cl pr p file function line))
          (Clauses.ec_catch_a (some c) (fun _ => Stmt.probe id1)
            (Clauses.ec_catch (Stmt.probe id)))) w =
      Outcome.normal
        { ctx := ec_clean_fields w.ctx
          log := w.log
            ++ [Event.call (FnPtr.user x) dx,
                Event.probe kb
                  { env := some (depth + 2), winding := [],
                    error := { type := some c, data := p, data_cleanup := cl,
                               data_fprint := pr },
                    place := { file := some file, function := some function, line := line } },
                Event.probe kf
                  { env := some (depth + 1), winding := [],
                    error := { type := some c, data := p, data_cleanup := cl,
                               data_fprint := pr },
                    place := { file := some file, function := some function, line := line } }]
            ++ cleanup_events cl p
            ++ [Event.probe id (ec_clean_fields w.ctx)] } ∧
    (ec_type none (ec_clean_fields w.ctx)).1 = none := by
  refine ⟨?_, ?_, rfl⟩
  · intro v hv
    rw [exec_try_finally_probe P n depth v kb kf (by
      intro f hf
      rw [hv] at hf ⊢
      exact hc f hf)]
    simp [hv, ec_clean_fields]
  · have hj : exec P (n + 9) (depth + 1)
        (Stmt.ec_with dx (FnPtr.user x) (Stmt.ec_throw (some c) cl pr p file function line))
        (try_entry depth w) =
        Outcome.jump
          { ctx := ec_clean_fields (try_entry depth w).ctx
            log := w.log
              ++ [Event.call (FnPtr.user x) dx,
                  Event.probe kb
                    { env := some (depth + 2), winding := [],
                      error := { type := some c, data := p, data_cleanup := cl,
                                 data_fprint := pr },
                      place := { file := some file, function := some function,
                                 line := line } },
                  Event.probe kf
                    { env := some (depth + 1), winding := [],
                      error := { type := some c, data := p, data_cleanup := cl,
                                 data_fprint := pr },
                      place := { file := some file, function := some function,
                                 line := line } }]
              ++ cleanup_events cl p } := by
      rw [exec_with, exec_throw, exec_set_error_fresh _ _ _ _ _ _ _ _ (by
        simpa [try_entry, World.set, ec_swap_env, ec_swap_winding, ec_winding_init_and_wind]
          using hw)]
      simp only []
      rw [exec_unwind_all_cons _ _ _ _ { data := dx, unwind := FnPtr.user x } [] (by rfl)]
      rw [exec_call_user, hx]
      rw [exec_try_finally_probe P n (depth + 1) _ kb kf (by
        intro f hf
        exact hc f hf)]
      simp only []
      rw [exec_unwind_all_nil _ _ _ _ (by rfl)]
      simp [try_entry, World.set, World.emit, ec_swap_env, ec_swap_winding, ec_set_place,
        ec_winding_init_and_wind, ec_clean_fields, ec_env]
    rw [exec_try, hj]
    simp only [Clauses.select, Clauses.finally_block]
    rw [if_pos (by rfl)]
    have hsel : same_type (some c)
        (ec_type none (ec_clean_fields (try_entry depth w).ctx)).1 = false := rfl
    simp only [hsel]
    rw [if_neg (by simp)]
    simp only []
    rw [show n + 9 = (n + 5) + 4 from rfl, exec_probe_clean P (n + 5) (depth + 1) _ id (by
      intro f hf
      cases hf)]
    simp only []
    cases w with
    | mk ctx log =>
        cases ctx
        simp [try_restore, try_entry, World.set, ec_swap_env, ec_swap_winding, ec_clean_fields,
          cleanup_events]

theorem C36_witness :
    P4.code 1 (Val.obj 1) =
      Stmt.ec_try (Stmt.probe 8) (Clauses.ec_finally (Stmt.probe 9)) ∧
    Quiet P4 FnPtr.free (Val.str 64 "lost") ∧
    W0.ctx.error.type = none ∧
    exec P4 10 0
        (Stmt.ec_try
          (Stmt.ec_with (Val.obj 1) (FnPtr.user 1)
            (ec_throw_str (some ECX_EC) (Val.str 64 "lost") "try.c" "main" 30))
          (Clauses.ec_catch_a (some ECX_EC) (fun _ => Stmt.probe 1)
            (Clauses.ec_catch (Stmt.probe 2)))) W0 =
      Outcome.normal
        { ctx := ec_stack
          log := [Event.call (FnPtr.user 1) (Val.obj 1),
            Event.probe 8
              { env := some 2, winding := [],
                error := { type := some ECX_EC, data := Val.str 64 "lost",
                           data_cleanup := some FnPtr.free,
                           data_fprint := some Printer.ec_fprint_str },
                place := { file := some "try.c", function := some "main", line := 30 } },
            Event.probe 9
              { env := some 1, winding := [],
                error := { type := some ECX_EC, data := Val.str 64 "lost",
                           data_cleanup := some FnPtr.free,
                           data_fprint := some Printer.ec_fprint_str },
                place := { file := some "try.c", function := some "main", line := 30 } },
            Event.call FnPtr.free (Val.str 64 "lost"),
            Event.probe 2 ec_stack] } :=
  have hq : Quiet P4 FnPtr.free (Val.str 64 "lost") := quiet_free P4 _
  ⟨rfl, hq, rfl,
    (C36_finally_cleans_pending_record P4 0 0 W0 1 (Val.obj 1) 8 9 1 2 ECX_EC
      (some FnPtr.free) (some Printer.ec_fprint_str) (Val.str 64 "lost") "try.c" "main" 30
      rfl
      (by
        intro f hf
        cases hf
        exact hq)
      rfl).2.1⟩

/-! ## A throw with no try around it -/

/-- An abort in the innermost block ends all the guards around it. -/
theorem exec_nest_abort (P : Program) (depth : Nat) (block : Stmt) (wa : World) :
    ∀ (gs : List Guard) (n : Nat) (w : World),
      exec P n depth block (wound gs w) = Outcome.abort wa →
      exec P (n + gs.length) depth (nest gs block) w = Outcome.abort wa := by
  intro gs
  induction gs with
  | nil =>
      intro n w h
      simpa [nest, wound, World.set] using h
  | cons g gs ih =>
      intro n w h
      rw [wound_cons] at h
      have h1 := ih n _ h
      simp only [nest, List.length_cons]
      rw [← Nat.add_assoc, exec_guard, h1]

/-- A throw with `env` `NULL`, nothing pending, over a stack of quiet actions. -/
theorem exec_throw_abort_quiet (P : Program) (n depth : Nat) (w : World)
    (t : Option Cat) (c : Option FnPtr) (p : Option Printer) (data : Val)
    (file function : String) (line : Nat) (rs : List ec_winding)
    (text : String)
    (he : w.ctx.env = none) (hw : w.ctx.error.type = none) (hs : w.ctx.winding = rs)
    (hq : ∀ r ∈ rs, Quiet P r.unwind r.data)
    (hc : ∀ f, c = some f → Quiet P f data)
    (hpr : ec_fprint P (thrown t c p data file function line w.ctx) = some text) :
    exec P (n + rs.length + 4) depth (Stmt.ec_throw t c p data file function line) w =
      Outcome.abort
        { ctx := ec_clean_fields { w.ctx with winding := [] }
          log := w.log ++ rs.map ec_winding.event
            ++ [Event.stderr text, Event.stderr "Error stack empty: Abort!\n"]
            ++ cleanup_events c data } := by
  have e : n + rs.length + 4 = (n + 1 + rs.length + 2) + 1 := by omega
  have e3 : n + 1 + rs.length + 2 = (n + rs.length) + 3 := by omega
  rw [e, exec_throw, exec_set_error_fresh _ _ _ _ _ _ _ _ hw]
  simp only []
  rw [exec_unwind_all_quiet P depth rs (n + 1) _ hq (by simpa [World.set, ec_set_place] using hs)]
  simp only [ec_env_none]
  rw [if_pos (by simpa [World.set, ec_set_place] using he),
    ec_fprint_eq P _ (thrown t c p data file function line w.ctx), hpr]
  · simp only []
    rw [e3, exec_clean_quiet P _ depth _ (by
        intro f hf
        exact hc f hf)]
    simp [World.set, World.emit, ec_set_place, ec_clean_fields, ec_winding.event, thrown]
  · rfl
  · rfl

/-! ## The texts of the markers -/

/-- Claim C39. The text of the marker of an errno constant is the name of the
constant for every constant but one: `ECX_EACCES` is defined in `ec.c` with
the text `EACCESS`, so the record of a throw for `EACCES` is written as
`Exception(EACCESS)`. The texts of all the markers of `ec.c`, `ECX_EC` and
`ECX_NULL` with them, are pairwise distinct. -/
theorem C39_marker_text_differs_for_eacces :
    (∀ e : Errno, e ∈ Errno.all) ∧
    Errno.all.filter (fun e => e.marker.text != e.name) = [Errno.EACCES] ∧
    Errno.EACCES.name = "EACCES" ∧ Errno.EACCES.marker.text = "EACCESS" ∧
    ec_errno_type linux_errno 13 = ECX_EACCES ∧
    ec_fprint P0
        (thrown (some (ec_errno_type linux_errno 13)) none none Val.null
          "io.c" "open_file" 12 ec_stack) =
      some "io.c:12: open_file: Exception(EACCESS)\n" ∧
    ((ECX_EC :: ECX_NULL :: Errno.all.map Errno.marker).map Cat.text).Nodup := by
  refine ⟨?_, ?_, rfl, rfl, ?_, ?_, ?_⟩
  · intro e
    cases e <;> decide
  · decide
  · decide
  · decide
  · decide

/-! ## When the payload is cleaned -/

theorem exec_clean_normal (P : Program) :
    ∀ (n depth : Nat) (v w3 : World),
      exec P n depth Stmt.ec_clean v = Outcome.normal w3 → ec_clean_fields w3.ctx = w3.ctx := by
  intro n depth v w3 h
  cases n with
  | zero => cases h
  | succ n =>
      cases hf : v.ctx.error.data_cleanup with
      | none =>
          rw [exec_clean_none _ _ _ _ hf] at h
          cases h
          rfl
      | some f =>
          rw [exec_clean_some _ _ _ _ f hf] at h
          cases hcall : exec P n depth (Stmt.call f v.ctx.error.data) v with
          | normal w1 =>
              rw [hcall] at h
              cases h
              rfl
          | jump w1 =>
              rw [hcall] at h
              cases h
          | abort w1 =>
              rw [hcall] at h
              cases h
          | fault =>
              rw [hcall] at h
              cases h
          | undefined =>
              rw [hcall] at h
              cases h
          | timeout =>
              rw [hcall] at h
              cases h

/-- A block followed by `ec_clean`: when that returns, nothing is pending. -/
theorem exec_seq_clean_normal (P : Program) (n depth : Nat) (a : Stmt) (v w3 : World)
    (h : exec P n depth (Stmt.seq a Stmt.ec_clean) v = Outcome.normal w3) :
    ec_clean_fields w3.ctx = w3.ctx := by
  cases n with
  | zero => cases h
  | succ n =>
      rw [exec_seq] at h
      cases ha : exec P n depth a v with
      | normal w1 =>
          rw [ha] at h
          exact exec_clean_normal P n depth w1 w3 h
      | jump w1 =>
          rw [ha] at h
          cases h
      | abort w1 =>
          rw [ha] at h
          cases h
      | fault =>
          rw [ha] at h
          cases h
      | undefined =>
          rw [ha] at h
          cases h
      | timeout =>
          rw [ha] at h
          cases h

/-- Claim C7, amended to what the code does. A throw of `(c, p)` with the quiet
payload cleanup `f`, nothing pending before, caught by `ec_catch_a (c, e)` or by
`ec_catch`, with any clause body that returns and leaves the payload and its
cleanup in the pending record: the one call `f (p)` of the construct's
`ec_clean` comes after everything the body did, and nothing is pending
afterwards. When an `ec_finally` follows the clause, its block runs after that
call, sees nothing pending, and its `ec_clean` calls nothing. Whatever the
body of a clause does, when the clause has returned nothing is pending. -/
theorem C7_payload_cleaned_after_untouched_clause (P : Program) (n depth : Nat) (c : Cat)
    (p : Val) (f : FnPtr) (pr : Option Printer) (file function : String) (line : Nat)
    (block : Val → Stmt) (typed : List (Cat × (Val → Stmt))) (last : Stmt) (id2 : Nat)
    (w w3 : World)
    (hw : w.ctx.error.type = none) (hf : Quiet P f p)
    (hb : exec P (n + 3) (depth + 1) (block p)
        (w.set (thrown (some c) (some f) pr p file function line w.ctx)) = Outcome.normal w3)
    (h3 : w3.ctx.error.data_cleanup = some f ∧ w3.ctx.error.data = p) :
    exec P (n + 5) depth
        (Stmt.ec_try (Stmt.ec_throw (some c) (some f) pr p file function line)
          (Clauses.ec_catch_a (some c) block (catch_chain typed last))) w =
      Outcome.normal { ctx := ec_clean_fields w3.ctx, log := w3.log ++ [Event.call f p] } ∧
    exec P (n + 5) depth
        (Stmt.ec_try (Stmt.ec_throw (some c) (some f) pr p file function line)
          (Clauses.ec_catch (block p))) w =
      Outcome.normal { ctx := ec_clean_fields w3.ctx, log := w3.log ++ [Event.call f p] } ∧
    exec P (n + 5) depth
        (Stmt.ec_try (Stmt.ec_throw (some c) (some f) pr p file function line)
          (Clauses.ec_catch_a (some c) block (Clauses.ec_finally (Stmt.probe id2)))) w =
      Outcome.normal
        { ctx := ec_clean_fields w3.ctx
          log := w3.log ++ [Event.call f p, Event.probe id2 (ec_clean_fields w3.ctx)] } ∧
    (ec_type none (ec_clean_fields w3.ctx)).1 = none ∧
    ec_get_data (ec_clean_fields w3.ctx) = Val.null ∧
    (∀ (m : Nat) (body : Stmt) (v w4 : World),
      exec P m (depth + 1) (Stmt.seq body Stmt.ec_clean) v = Outcome.normal w4 →
      (ec_type none w4.ctx).1 = none ∧ ec_get_data w4.ctx = Val.null) := by
  have hall : ∀ (m : Nat) (body : Stmt) (v w4 : World),
      exec P m (depth + 1) (Stmt.seq body Stmt.ec_clean) v = Outcome.normal w4 →
      (ec_type none w4.ctx).1 = none ∧ ec_get_data w4.ctx = Val.null := by
    intro m body v w4 h4
    have h := exec_seq_clean_normal P m (depth + 1) body v w4 h4
    rw [← h]
    exact ⟨rfl, rfl⟩
  have hj := exec_throw_fresh P (n + 2) (depth + 1) (try_entry depth w)
    (some c) (some f) pr p file function line (depth + 1) hw rfl rfl
  have hr : try_restore w ((try_entry depth w).set
      (thrown (some c) (some f) pr p file function line (try_entry depth w).ctx)) =
      w.set (thrown (some c) (some f) pr p file function line w.ctx) := by
    simp [try_restore, try_entry, World.set, ec_swap_env, ec_swap_winding, thrown, ec_set_place]
  have hcl : exec P (n + 3) (depth + 1) Stmt.ec_clean w3 =
      Outcome.normal { ctx := ec_clean_fields w3.ctx, log := w3.log ++ [Event.call f p] } := by
    rw [exec_clean_quiet P n (depth + 1) w3 (by
      intro g hg
      rw [h3.1] at hg
      cases hg
      rw [h3.2]
      exact hf)]
    simp [h3.1, h3.2, cleanup_events]
  have hh : exec P (n + 4) (depth + 1) (Stmt.seq (block p) Stmt.ec_clean)
      (w.set (thrown (some c) (some f) pr p file function line w.ctx)) =
      Outcome.normal { ctx := ec_clean_fields w3.ctx, log := w3.log ++ [Event.call f p] } := by
    rw [exec_seq, hb]
    exact hcl
  have hd : ec_get_data ((try_entry depth w).set
      (thrown (some c) (some f) pr p file function line (try_entry depth w).ctx)).ctx = p := rfl
  have ht : (ec_type none ((try_entry depth w).set
      (thrown (some c) (some f) pr p file function line (try_entry depth w).ctx)).ctx).1 =
      some c := rfl
  refine ⟨?_, ?_, ?_, rfl, rfl, hall⟩
  · rw [exec_try, hj]
    simp only [Clauses.select, Clauses.finally_block, finally_block_catch_chain]
    rw [if_pos (by rfl)]
    simp only [ht, hd, hr, same_type, beq_self_eq_true, if_true]
    rw [hh]
  · rw [exec_try, hj]
    simp only [Clauses.select, Clauses.finally_block]
    rw [if_pos (by rfl)]
    simp only [hr]
    rw [hh]
  · rw [exec_try, hj]
    simp only [Clauses.select, Clauses.finally_block]
    rw [if_pos (by rfl)]
    simp only [ht, hd, hr, same_type, beq_self_eq_true, if_true]
    rw [hh]
    simp only []
    rw [exec_probe_clean P n depth _ id2 (by
      intro g hg
      simp [ec_clean_fields] at hg)]
    simp [ec_clean_fields, cleanup_events]

theorem C7_witness :
    W0.ctx.error.type = none ∧ Quiet P0 FnPtr.free (Val.str 64 "Catch me!") ∧
    exec P0 3 1
        (Stmt.seq (Stmt.call (FnPtr.user 0) (Val.str 64 "Catch me!")) (Stmt.probe 1))
        (W0.set (thrown (some ECX_EC) (some FnPtr.free) (some Printer.ec_fprint_str)
          (Val.str 64 "Catch me!") "try.c" "try_throw_catch" 37 W0.ctx)) =
      Outcome.normal
        { ctx := thrown (some ECX_EC) (some FnPtr.free) (some Printer.ec_fprint_str)
            (Val.str 64 "Catch me!") "try.c" "try_throw_catch" 37 ec_stack
          log := [Event.call (FnPtr.user 0) (Val.str 64 "Catch me!"),
            Event.probe 1
              (thrown (some ECX_EC) (some FnPtr.free) (some Printer.ec_fprint_str)
                (Val.str 64 "Catch me!") "try.c" "try_throw_catch" 37 ec_stack)] } ∧
    exec P0 5 0
        (Stmt.ec_try
          (ec_throw_str (some ECX_EC) (Val.str 64 "Catch me!") "try.c" "try_throw_catch" 37)
          (Clauses.ec_catch_a (some ECX_EC)
            (fun e => Stmt.seq (Stmt.call (FnPtr.user 0) e) (Stmt.probe 1))
            (Clauses.ec_finally (Stmt.probe 2)))) W0 =
      Outcome.normal
        { ctx := ec_stack
          log := [Event.call (FnPtr.user 0) (Val.str 64 "Catch me!"),
            Event.probe 1
              (thrown (some ECX_EC) (some FnPtr.free) (some Printer.ec_fprint_str)
                (Val.str 64 "Catch me!") "try.c" "try_throw_catch" 37 ec_stack),
            Event.call FnPtr.free (Val.str 64 "Catch me!"),
            Event.probe 2 ec_stack] } :=
  have hq : Quiet P0 FnPtr.free (Val.str 64 "Catch me!") := quiet_free P0 _
  ⟨rfl, hq, rfl,
    (C7_payload_cleaned_after_untouched_clause P0 0 0 ECX_EC (Val.str 64 "Catch me!")
      FnPtr.free (some Printer.ec_fprint_str) "try.c" "try_throw_catch" 37
      (fun e => Stmt.seq (Stmt.call (FnPtr.user 0) e) (Stmt.probe 1)) [] Stmt.skip 2 W0 _
      rfl hq rfl ⟨rfl, rfl⟩).2.2.1⟩

/-- Claim C7 as stated fails for a clause body that handles something itself. In
the body `probe 1; ec_try { } ec_finally { }; probe 2` the `ec_clean` of the
inner `ec_finally` calls the cleanup of the caught payload: the call comes
between the two statements of the body, and `probe 2` finds nothing pending.
In the body `probe 1; ec_try { throw } ec_catch { }; probe 2` it is the
`ec_set_error` of the inner throw that writes the caught record and calls its
cleanup, again before `probe 2`. -/
theorem C7_counterexample :
    exec P0 9 0
        (Stmt.ec_try
          (ec_throw_str (some ECX_EC) (Val.str 64 "Catch me!") "try.c" "try_throw_catch" 37)
          (Clauses.ec_catch_a (some ECX_EC)
            (fun _ =>
              Stmt.seq (Stmt.probe 1)
                (Stmt.seq (Stmt.ec_try Stmt.skip (Clauses.ec_finally Stmt.skip))
                  (Stmt.probe 2)))
            (Clauses.ec_catch Stmt.skip))) W0 =
      Outcome.normal
        { ctx := ec_stack
          log := [Event.probe 1
              (thrown (some ECX_EC) (some FnPtr.free) (some Printer.ec_fprint_str)
                (Val.str 64 "Catch me!") "try.c" "try_throw_catch" 37 ec_stack),
            Event.call FnPtr.free (Val.str 64 "Catch me!"),
            Event.probe 2 ec_stack] } ∧
    exec P0 12 0
        (Stmt.ec_try
          (ec_throw_str (some ECX_EC) (Val.str 64 "Catch me!") "try.c" "try_throw_catch" 37)
          (Clauses.ec_catch
            (Stmt.seq (Stmt.probe 1)
              (Stmt.seq
                (Stmt.ec_try
                  (ec_throw_str_static (some ECX_NULL) "inner" 72 "try.c" "handler" 40)
                  (Clauses.ec_catch Stmt.skip))
                (Stmt.probe 2))))) W0 =
      Outcome.normal
        { ctx := ec_stack
          log := [Event.probe 1
              (thrown (some ECX_EC) (some FnPtr.free) (some Printer.ec_fprint_str)
                (Val.str 64 "Catch me!") "try.c" "try_throw_catch" 37 ec_stack),
            Event.stderr "try.c:37: try_throw_catch: Exception(Generic) Catch me!\n",
            Event.call FnPtr.free (Val.str 64 "Catch me!"),
            Event.probe 2 ec_stack] } := by
  constructor
  · rfl
  · decide

/-! ## When the finally block runs -/

/-- Claim C9, amended to what the code does. For every clause list that ends in
an `ec_finally` whose block observes: the block runs exactly once when the try
block returns; when the try block throws and no clause is entered; and when
the entered clause and its `ec_clean` return. After it the `ec_clean` of the
`ec_finally` leaves nothing pending, and a payload cleanup still registered
then is called once (quiet cleanups). When the entered clause does not return
(it throws or rethrows), the construct ends as the clause ends and the finally
block does not run. -/
theorem C9_finally_runs_once_unless_clause_leaves (P : Program) (n depth : Nat)
    (bodyN bodyX : Stmt) (id : Nat) (w wN wX : World)
    (t : Option Cat) (c : Option FnPtr) (p : Option Printer) (data : Val)
    (file function : String) (line : Nat)
    (hN : exec P (n + 4) (depth + 1) bodyN (try_entry depth w) = Outcome.normal wN)
    (hcN : ∀ f, wN.ctx.error.data_cleanup = some f → Quiet P f wN.ctx.error.data)
    (hX : exec P (n + 4) (depth + 1) bodyX (try_entry depth w) = Outcome.jump wX)
    (heX : wX.ctx.env = some (depth + 1))
    (hcX : ∀ f, wX.ctx.error.data_cleanup = some f → Quiet P f wX.ctx.error.data)
    (hw : w.ctx.error.type = none)
    (hc : ∀ f, c = some f → Quiet P f data) :
    (∀ clauses : Clauses Stmt, clauses.finally_block = some (Stmt.probe id) →
      exec P (n + 5) depth (Stmt.ec_try bodyN clauses) w =
        Outcome.normal
          { ctx := ec_clean_fields (try_restore w wN).ctx
            log := wN.log ++ [Event.probe id (try_restore w wN).ctx]
              ++ cleanup_events wN.ctx.error.data_cleanup wN.ctx.error.data }) ∧
    (∀ clauses : Clauses Stmt, clauses.finally_block = some (Stmt.probe id) →
      clauses.select wX.ctx.error.type = none →
      exec P (n + 5) depth (Stmt.ec_try bodyX clauses) w =
        Outcome.normal
          { ctx := ec_clean_fields (try_restore w wX).ctx
            log := wX.log ++ [Event.probe id (try_restore w wX).ctx]
              ++ cleanup_events wX.ctx.error.data_cleanup wX.ctx.error.data }) ∧
    (∀ (clauses : Clauses Stmt) (h : Val → Stmt) (w3 : World),
      clauses.finally_block = some (Stmt.probe id) →
      clauses.select wX.ctx.error.type = some h →
      exec P (n + 4) (depth + 1) (Stmt.seq (h wX.ctx.error.data) Stmt.ec_clean)
        (try_restore w wX) = Outcome.normal w3 →
      exec P (n + 5) depth (Stmt.ec_try bodyX clauses) w =
        Outcome.normal { ctx := w3.ctx, log := w3.log ++ [Event.probe id w3.ctx] } ∧
      (ec_type none w3.ctx).1 = none ∧ ec_get_data w3.ctx = Val.null) ∧
    (∀ (clauses : Clauses Stmt) (h : Val → Stmt) (o : Outcome),
      clauses.select wX.ctx.error.type = some h →
      exec P (n + 4) (depth + 1) (Stmt.seq (h wX.ctx.error.data) Stmt.ec_clean)
        (try_restore w wX) = o →
      (∀ w3, o ≠ Outcome.normal w3) →
      exec P (n + 5) depth (Stmt.ec_try bodyX clauses) w = o) ∧
    exec P (n + 5) depth
        (Stmt.ec_try (Stmt.ec_throw t c p data file function line)
          (Clauses.ec_finally (Stmt.probe id))) w =
      Outcome.normal
        { ctx := ec_clean_fields w.ctx
          log := w.log ++ [Event.probe id (thrown t c p data file function line w.ctx)]
            ++ cleanup_events c data } ∧
    (∀ s, (ec_type none (ec_clean_fields s)).1 = none ∧
      ec_get_data (ec_clean_fields s) = Val.null) := by
  refine ⟨?_, ?_, ?_, ?_, ?_, fun _ => ⟨rfl, rfl⟩⟩
  · intro clauses hf
    rw [exec_try, hN]
    simp only [hf]
    rw [exec_probe_clean P n depth _ id (by
      intro f h
      exact hcN f h)]
    rfl
  · intro clauses hf hsel
    rw [exec_try, hX]
    simp only [heX, if_true, ec_type_none, hsel, hf]
    rw [exec_probe_clean P n depth _ id (by
      intro f h
      exact hcX f h)]
    rfl
  · intro clauses h w3 hf hsel hh
    have h3 := exec_seq_clean_normal P _ _ _ _ _ hh
    have hcl : w3.ctx.error.data_cleanup = none := by
      rw [← h3]
      rfl
    refine ⟨?_, ?_, ?_⟩
    · rw [exec_try, hX]
      simp only [heX, if_true, ec_type_none, hsel, hf, ec_get_data]
      rw [hh]
      simp only []
      rw [exec_probe_clean P n depth _ id (by
        intro f hf2
        rw [hcl] at hf2
        cases hf2)]
      rw [h3, hcl]
      simp [cleanup_events]
    · rw [← h3]
      rfl
    · rw [← h3]
      rfl
  · intro clauses h o hsel hh ho
    rw [exec_try, hX]
    simp only [heX, if_true, ec_type_none, hsel, ec_get_data]
    rw [hh]
    cases o with
    | normal w3 => exact absurd rfl (ho w3)
    | jump w3 => rfl
    | abort w3 => rfl
    | fault => rfl
    | undefined => rfl
    | timeout => rfl
  · have hj := exec_throw_fresh P (n + 2) (depth + 1) (try_entry depth w)
      t c p data file function line (depth + 1) hw rfl rfl
    rw [exec_try, hj]
    simp only [Clauses.select, Clauses.finally_block]
    rw [if_pos (by rfl), exec_probe_clean P n depth _ id (by
      intro f hf
      exact hc f hf)]
    simp [try_restore, try_entry, World.set, ec_swap_env, ec_swap_winding, thrown,
      ec_set_place, ec_clean_fields]

theorem C9_witness :
    exec P0 4 1 (Stmt.probe 7) (try_entry 0 W0) =
      Outcome.normal ((try_entry 0 W0).emit (Event.probe 7 (try_entry 0 W0).ctx)) ∧
    exec P0 4 1 (ec_throw_str (some ECX_EC) (Val.str 64 "Cause longjmp.") "volatile.c" "main" 84)
        (try_entry 0 W0) =
      Outcome.jump
        ((try_entry 0 W0).set
          (thrown (some ECX_EC) (some FnPtr.free) (some Printer.ec_fprint_str)
            (Val.str 64 "Cause longjmp.") "volatile.c" "main" 84 (try_entry 0 W0).ctx)) ∧
    Quiet P0 FnPtr.free (Val.str 64 "Cause longjmp.") ∧ W0.ctx.error.type = none ∧
    exec P0 5 0
        (Stmt.ec_try (Stmt.probe 7)
          (Clauses.ec_catch_a (some ECX_EC) (fun _ => Stmt.probe 1)
            (Clauses.ec_finally (Stmt.probe 8)))) W0 =
      Outcome.normal
        { ctx := ec_stack
          log := [Event.probe 7 { ec_stack with env := some 1 }, Event.probe 8 ec_stack] } ∧
    exec P0 5 0
        (Stmt.ec_try
          (ec_throw_str (some ECX_EC) (Val.str 64 "Cause longjmp.") "volatile.c" "main" 84)
          (Clauses.ec_catch_a (some ECX_NULL) (fun _ => Stmt.probe 1)
            (Clauses.ec_finally (Stmt.probe 8)))) W0 =
      Outcome.normal
        { ctx := ec_stack
          log := [Event.probe 8
              (thrown (some ECX_EC) (some FnPtr.free) (some Printer.ec_fprint_str)
                (Val.str 64 "Cause longjmp.") "volatile.c" "main" 84 ec_stack),
            Event.call FnPtr.free (Val.str 64 "Cause longjmp.")] } ∧
    exec P0 5 0
        (Stmt.ec_try
          (ec_throw_str (some ECX_EC) (Val.str 64 "Cause longjmp.") "volatile.c" "main" 84)
          (Clauses.ec_catch_a (some ECX_EC) (fun _ => Stmt.probe 1)
            (Clauses.ec_finally (Stmt.probe 8)))) W0 =
      Outcome.normal
        { ctx := ec_stack
          log := [Event.probe 1
              (thrown (some ECX_EC) (some FnPtr.free) (some Printer.ec_fprint_str)
                (Val.str 64 "Cause longjmp.") "volatile.c" "main" 84 ec_stack),
            Event.call FnPtr.free (Val.str 64 "Cause longjmp."),
            Event.probe 8 ec_stack] } :=
  have hq : Quiet P0 FnPtr.free (Val.str 64 "Cause longjmp.") := quiet_free P0 _
  have h := C9_finally_runs_once_unless_clause_leaves P0 0 0 (Stmt.probe 7)
    (ec_throw_str (some ECX_EC) (Val.str 64 "Cause longjmp.") "volatile.c" "main" 84) 8 W0
    ((try_entry 0 W0).emit (Event.probe 7 (try_entry 0 W0).ctx))
    ((try_entry 0 W0).set
      (thrown (some ECX_EC) (some FnPtr.free) (some Printer.ec_fprint_str)
        (Val.str 64 "Cause longjmp.") "volatile.c" "main" 84 (try_entry 0 W0).ctx))
    (some ECX_EC) (some FnPtr.free) (some Printer.ec_fprint_str)
    (Val.str 64 "Cause longjmp.") "volatile.c" "main" 84
    rfl
    (by
      intro f hf
      cases hf)
    rfl rfl
    (by
      intro f hf
      cases hf
      exact hq)
    rfl
    (by
      intro f hf
      cases hf
      exact hq)
  ⟨rfl, rfl, hq, rfl,
    (h.1
      (Clauses.ec_catch_a (some ECX_EC) (fun _ => Stmt.probe 1)
        (Clauses.ec_finally (Stmt.probe 8))) rfl).trans (by rfl),
    (h.2.1
      (Clauses.ec_catch_a (some ECX_NULL) (fun _ => Stmt.probe 1)
        (Clauses.ec_finally (Stmt.probe 8))) rfl rfl).trans (by rfl),
    ((h.2.2.1
      (Clauses.ec_catch_a (some ECX_EC) (fun _ => Stmt.probe 1)
        (Clauses.ec_finally (Stmt.probe 8)))
      (fun _ => Stmt.probe 1)
      { ctx := ec_stack
        log := [Event.probe 1
            (thrown (some ECX_EC) (some FnPtr.free) (some Printer.ec_fprint_str)
              (Val.str 64 "Cause longjmp.") "volatile.c" "main" 84 ec_stack),
          Event.call FnPtr.free (Val.str 64 "Cause longjmp.")] }
      rfl rfl rfl).1).trans (by rfl)⟩

/-- Claim C9 as stated fails when the entered clause throws. The inner try block
throws `ECX_EC`, the clause `ec_catch_a (ECX_EC, e)` throws `ECX_NULL`, and the
clauses end in an `ec_finally` whose block is `probe 8`: the second throw
leaves to the enclosing `ec_try`, whose catch-all (`probe 1`) gets it, and the
finally block has not run at all. -/
theorem C9_counterexample :
    exec P0 9 0
        (Stmt.ec_try
          (Stmt.ec_try
            (ec_throw_str (some ECX_EC) (Val.str 64 "x") "try.c" "main" 30)
            (Clauses.ec_catch_a (some ECX_EC)
              (fun _ => ec_throw_str_static (some ECX_NULL) "y" 72 "try.c" "main" 36)
              (Clauses.ec_finally (Stmt.probe 8))))
          (Clauses.ec_catch (Stmt.probe 1))) W0 =
      Outcome.normal
        { ctx := ec_stack
          log := [Event.stderr "try.c:30: main: Exception(Generic) x\n",
            Event.call FnPtr.free (Val.str 64 "x"),
            Event.probe 1
              (thrown (some ECX_NULL) none (some Printer.ec_fprint_str) (Val.str 72 "y")
                "try.c" "main" 36 ec_stack)] } ∧
    ¬ ∃ w seen,
      exec P0 9 0
          (Stmt.ec_try
            (Stmt.ec_try
              (ec_throw_str (some ECX_EC) (Val.str 64 "x") "try.c" "main" 30)
              (Clauses.ec_catch_a (some ECX_EC)
                (fun _ => ec_throw_str_static (some ECX_NULL) "y" 72 "try.c" "main" 36)
                (Clauses.ec_finally (Stmt.probe 8))))
            (Clauses.ec_catch (Stmt.probe 1))) W0 = Outcome.normal w ∧
        Event.probe 8 seen ∈ w.log := by
  have h : exec P0 9 0
        (Stmt.ec_try
          (Stmt.ec_try
            (ec_throw_str (some ECX_EC) (Val.str 64 "x") "try.c" "main" 30)
            (Clauses.ec_catch_a (some ECX_EC)
              (fun _ => ec_throw_str_static (some ECX_NULL) "y" 72 "try.c" "main" 36)
              (Clauses.ec_finally (Stmt.probe 8))))
          (Clauses.ec_catch (Stmt.probe 1))) W0 =
      Outcome.normal
        { ctx := ec_stack
          log := [Event.stderr "try.c:30: main: Exception(Generic) x\n",
            Event.call FnPtr.free (Val.str 64 "x"),
            Event.probe 1
              (thrown (some ECX_NULL) none (some Printer.ec_fprint_str) (Val.str 72 "y")
                "try.c" "main" 36 ec_stack)] } := by decide
  refine ⟨h, ?_⟩
  rintro ⟨w, seen, hw, hmem⟩
  rw [h] at hw
  cases hw
  simp at hmem

/-! ## A payload that the printer cannot print -/

theorem ec_fprint_some (P : Program) (s : ec) (q : Printer) (text : String)
    (hq : s.error.data_fprint = some q) (hr : q.run P s.error.data = some text) :
    ec_fprint P s = some (ec_fprint_line s (some text)) := by
  simp only [ec_fprint, hq, hr]

theorem ec_fprint_no_printer (P : Program) (s : ec) (hq : s.error.data_fprint = none) :
    ec_fprint P s = some (ec_fprint_line s none) := by
  simp only [ec_fprint, hq]

theorem ec_fprint_none (P : Program) (s : ec) (q : Printer)
    (hq : s.error.data_fprint = some q) (hr : q.run P s.error.data = none) :
    ec_fprint P s = none := by
  simp only [ec_fprint, hq, hr]

/-- Claim C21. For a record with a string payload and the printer `ec_fprint_str`,
`ec_fprint` writes file, line, function, `Exception(` type `)`, a blank, the
string and a newline; with no printer the newline follows the `)`. For the
record of `ec_throw_str (ECX_NULL) NULL` of `test/check/shadow.c` the printer
`ec_fprint_str` passes `NULL` to `%s`: no line is completed and the call does
not return, while `ec_fprint_errno_str` tests its argument and writes its text
for `NULL`. -/
theorem C21_fprint_str_null_payload :
    ec_fprint P0
        (thrown (some ECX_EC) (some FnPtr.free) (some Printer.ec_fprint_str)
          (Val.str 64 "3") "thread.c" "thread_main" 42 ec_stack) =
      some "thread.c:42: thread_main: Exception(Generic) 3\n" ∧
    ec_fprint P0
        (thrown (some ECX_EC) none none (Val.str 64 "3") "thread.c" "thread_main" 42 ec_stack) =
      some "thread.c:42: thread_main: Exception(Generic)\n" ∧
    Printer.run P0 Printer.ec_fprint_str Val.null = none ∧
    Printer.run P0 Printer.ec_fprint_errno_str Val.null = some "" ∧
    ec_fprint P0
        (thrown (some ECX_NULL) (some FnPtr.free) (some Printer.ec_fprint_str)
          Val.null "shadow.c" "shadow_simple" 34 ec_stack) = none ∧
    exec P0 1 0 Stmt.ec_fprint
        { ctx := thrown (some ECX_NULL) (some FnPtr.free) (some Printer.ec_fprint_str)
            Val.null "shadow.c" "shadow_simple" 34 ec_stack
          log := [] } = Outcome.undefined ∧
    exec P0 1 0 Stmt.ec_fprint
        { ctx := thrown (some ECX_EC) (some FnPtr.free) (some Printer.ec_fprint_str)
            (Val.str 64 "3") "thread.c" "thread_main" 42 ec_stack
          log := [] } =
      Outcome.normal
        { ctx := thrown (some ECX_EC) (some FnPtr.free) (some Printer.ec_fprint_str)
            (Val.str 64 "3") "thread.c" "thread_main" 42 ec_stack
          log := [Event.stderr "thread.c:42: thread_main: Exception(Generic) 3\n"] } := by
  refine ⟨?_, ?_, rfl, rfl, rfl, rfl, ?_⟩
  · decide
  · decide
  · decide

/-- Claim C20. `ec_set_error` with a record pending writes the line of the old
record, calls the old cleanup and stores the new record, when the old payload
is a string. When the old record is `(ECX_EC, NULL)` with the printer
`ec_fprint_str`, as `ec_throw_str (ECX_EC) NULL` leaves it, the `ec_fprint` of
`ec_set_error` passes `NULL` to `%s`: the old cleanup is not called and the new
record is not stored. -/
theorem C20_set_error_over_null_payload :
    exec P0 3 0 (Stmt.ec_set_error (some ECX_NULL) (Val.obj 5) none none)
        { ctx := thrown (some ECX_EC) (some FnPtr.free) (some Printer.ec_fprint_str)
            Val.null "a.c" "f" 7 ec_stack
          log := [] } = Outcome.undefined ∧
    exec P0 3 0 (Stmt.ec_set_error (some ECX_NULL) (Val.obj 5) none none)
        { ctx := thrown (some ECX_EC) (some FnPtr.free) (some Printer.ec_fprint_str)
            (Val.str 64 "old") "a.c" "f" 7 ec_stack
          log := [] } =
      Outcome.normal
        { ctx := { env := none, winding := [],
                   error := { type := some ECX_NULL, data := Val.obj 5, data_cleanup := none,
                              data_fprint := none },
                   place := { file := some "a.c", function := some "f", line := 7 } }
          log := [Event.stderr "a.c:7: f: Exception(Generic) old\n",
            Event.call FnPtr.free (Val.str 64 "old")] } ∧
    exec P0 3 0 (Stmt.ec_set_error (some ECX_NULL) (Val.obj 5) none none) W0 =
      Outcome.normal
        { ctx := { ec_stack with
                   error := { type := some ECX_NULL, data := Val.obj 5, data_cleanup := none,
                              data_fprint := none } }
          log := [] } := by
  refine ⟨rfl, ?_, rfl⟩
  decide

/-- Claim C13. `ec_throw_str (ECX_EC)` with a string payload and no `ec_try`
around it writes the line of the record and `Error stack empty: Abort!`, calls
the payload cleanup and aborts. With the payload `NULL`, which `ec.h` allows
for `ECX_EC`, the `ec_fprint` of the fatal path passes `NULL` to `%s` in
`ec_fprint_str`: the line `Error stack empty: Abort!` is not written and
`abort ()` is not reached. -/
theorem C13_unhandled_throw_null_payload :
    exec P0 4 0 (ec_throw_str (some ECX_EC) Val.null "with.c" "str_create" 29) W0 =
      Outcome.undefined ∧
    exec P0 4 0
        (ec_throw_str (some ECX_EC) (Val.str 64 "Can not allocate a string.") "with.c"
          "str_create" 29) W0 =
      Outcome.abort
        { ctx := ec_stack
          log := [Event.stderr
              "with.c:29: str_create: Exception(Generic) Can not allocate a string.\n",
            Event.stderr "Error stack empty: Abort!\n",
            Event.call FnPtr.free (Val.str 64 "Can not allocate a string.")] } := by
  refine ⟨rfl, ?_⟩
  decide

/-- Claim C14. `ec_rethrow` with nothing pending returns and changes nothing. In
the catch-all of an `ec_try` that no other `ec_try` encloses, with a record
pending whose payload is a string, it writes the line of the record and
`Error stack empty: Abort!` and aborts. When the record is that of
`ec_throw_str (ECX_EC) NULL`, the `ec_fprint` of the fatal path passes `NULL`
to `%s`: no line is completed and `abort ()` is not reached. -/
theorem C14_rethrow_null_payload :
    exec P0 1 0 Stmt.ec_rethrow W0 = Outcome.normal W0 ∧
    exec P0 7 0
        (Stmt.ec_try (ec_throw_str (some ECX_EC) Val.null "size.c" "try" 44)
          (Clauses.ec_catch Stmt.ec_rethrow)) W0 = Outcome.undefined ∧
    exec P0 7 0
        (Stmt.ec_try (ec_throw_str (some ECX_EC) (Val.str 64 "x") "size.c" "try" 44)
          (Clauses.ec_catch Stmt.ec_rethrow)) W0 =
      Outcome.abort
        { ctx := thrown (some ECX_EC) (some FnPtr.free) (some Printer.ec_fprint_str)
            (Val.str 64 "x") "size.c" "try" 44 ec_stack
          log := [Event.stderr "size.c:44: try: Exception(Generic) x\n",
            Event.stderr "Error stack empty: Abort!\n"] } := by
  refine ⟨rfl, rfl, ?_⟩
  decide

/-- Claim C11. A throw in the block of a clause goes to the enclosing `ec_try`,
whose handler gets the second exception, when the payload of the first is a
string. When the first throw is `ec_throw_str (ECX_EC) NULL`, the
`ec_set_error` of the second throw writes the first record, `ec_fprint_str`
passes `NULL` to `%s`, and the second exception reaches no handler. -/
theorem C11_throw_in_clause_null_payload :
    exec P0 9 0
        (Stmt.ec_try
          (Stmt.ec_try (ec_throw_str (some ECX_EC) Val.null "try.c" "main" 30)
            (Clauses.ec_catch
              (ec_throw_str_static (some ECX_NULL) "y" 72 "try.c" "main" 36)))
          (Clauses.ec_catch (Stmt.probe 1))) W0 = Outcome.undefined ∧
    exec P0 9 0
        (Stmt.ec_try
          (Stmt.ec_try (ec_throw_str (some ECX_EC) (Val.str 64 "x") "try.c" "main" 30)
            (Clauses.ec_catch
              (ec_throw_str_static (some ECX_NULL) "y" 72 "try.c" "main" 36)))
          (Clauses.ec_catch (Stmt.probe 1))) W0 =
      Outcome.normal
        { ctx := ec_stack
          log := [Event.stderr "try.c:30: main: Exception(Generic) x\n",
            Event.call FnPtr.free (Val.str 64 "x"),
            Event.probe 1
              (thrown (some ECX_NULL) none (some Printer.ec_fprint_str) (Val.str 72 "y")
                "try.c" "main" 36 ec_stack)] } := by
  refine ⟨rfl, ?_⟩
  decide

/-- Claim C18. A throw in a try block, inside guards of which one has an action
that throws (`with_free_x` of `test/check/with.c`): with a string payload the
first record is written and its cleanup called, the guards below still run,
and the handler gets the second record. When the first throw is
`ec_throw_str (ECX_NULL) NULL`, the `ec_set_error` of the action's throw writes
the first record, `ec_fprint_str` passes `NULL` to `%s`, and neither the
guards below nor the handler run. -/
theorem C18_throw_during_unwind_null_payload :
    exec P1 13 0
        (Stmt.ec_try
          (Stmt.ec_with (Val.obj 1) FnPtr.free
            (Stmt.ec_with (Val.obj 2) (FnPtr.user 1)
              (Stmt.ec_with_on_x (Val.obj 3) FnPtr.free
                (ec_throw_str (some ECX_NULL) Val.null "with.c" "with_x_thrown" 108))))
          (Clauses.ec_catch (Stmt.probe 0))) W0 = Outcome.undefined ∧
    exec P1 13 0
        (Stmt.ec_try
          (Stmt.ec_with (Val.obj 1) FnPtr.free
            (Stmt.ec_with (Val.obj 2) (FnPtr.user 1)
              (Stmt.ec_with_on_x (Val.obj 3) FnPtr.free
                (ec_throw_str (some ECX_NULL) (Val.str 64 "An exception from within.")
                  "with.c" "with_x_thrown" 108))))
          (Clauses.ec_catch (Stmt.probe 0))) W0 =
      Outcome.normal
        { ctx := ec_stack
          log := [Event.call FnPtr.free (Val.obj 3),
            Event.call (FnPtr.user 1) (Val.obj 2),
            Event.stderr "with.c:108: with_x_thrown: Exception(NULL) An exception from within.\n",
            Event.call FnPtr.free (Val.str 64 "An exception from within."),
            Event.call FnPtr.free (Val.obj 1),
            Event.probe 0
              (thrown (some ECX_EC) none (some Printer.ec_fprint_str)
                (Val.str 40 "Failed to be free? Impossible!") "with.c" "with_free_x" 40
                ec_stack)] } := by
  refine ⟨rfl, ?_⟩
  decide

/-- Claim C37. A throw at `b.c:9` while the record of a throw at `a.c:7` is
pending: with a string payload the line written for the old record is that of
`a.c:7`, and the place `b.c:9` is stored afterwards with the new record. When
the old record is that of `ec_throw_str (ECX_EC) NULL`, the `ec_fprint` of
`ec_set_error` has `ec_fprint_str` pass `NULL` to `%s`: the behaviour is
undefined, and the new record is never stored. -/
theorem C37_overwrite_null_payload :
    exec P0 4 1
        (ec_throw_str_static (some ECX_NULL) "new" 72 "b.c" "g" 9)
        { ctx := { env := some 1, winding := [],
                   error := { type := some ECX_EC, data := Val.null,
                              data_cleanup := some FnPtr.free,
                              data_fprint := some Printer.ec_fprint_str },
                   place := { file := some "a.c", function := some "f", line := 7 } }
          log := [] } = Outcome.undefined ∧
    exec P0 4 1
        (ec_throw_str_static (some ECX_NULL) "new" 72 "b.c" "g" 9)
        { ctx := { env := some 1, winding := [],
                   error := { type := some ECX_EC, data := Val.str 64 "old",
                              data_cleanup := some FnPtr.free,
                              data_fprint := some Printer.ec_fprint_str },
                   place := { file := some "a.c", function := some "f", line := 7 } }
          log := [] } =
      Outcome.jump
        { ctx := { env := some 1, winding := [],
                   error := { type := some ECX_NULL, data := Val.str 72 "new",
                              data_cleanup := none,
                              data_fprint := some Printer.ec_fprint_str },
                   place := { file := some "b.c", function := some "g", line := 9 } }
          log := [Event.stderr "a.c:7: f: Exception(Generic) old\n",
            Event.call FnPtr.free (Val.str 64 "old")] } := by
  refine ⟨rfl, ?_⟩
  decide

/-- Claim C38. `ec_throw_str (ECX_EC)` from inside two guards with no `ec_try`
around: with a string payload the actions of the guards are called, the last
registered first, then the line of the record and `Error stack empty: Abort!`
are written, then `ec_clean` calls the payload cleanup, then the process is
aborted. With the payload `NULL` the `ec_fprint` of the fatal path has
`ec_fprint_str` pass `NULL` to `%s`: the behaviour is undefined, `ec_clean`
and `abort ()` are not reached, so the payload cleanup is not called. -/
theorem C38_unhandled_throw_releases_null_payload :
    exec P0 8 0
        (Stmt.ec_with (Val.obj 1) FnPtr.free
          (Stmt.ec_with_on_x (Val.obj 2) (FnPtr.user 2)
            (ec_throw_str (some ECX_EC) Val.null "with.c" "str_create" 29))) W0 =
      Outcome.undefined ∧
    exec P0 8 0
        (Stmt.ec_with (Val.obj 1) FnPtr.free
          (Stmt.ec_with_on_x (Val.obj 2) (FnPtr.user 2)
            (ec_throw_str (some ECX_EC) (Val.str 64 "Can not allocate a string.") "with.c"
              "str_create" 29))) W0 =
      Outcome.abort
        { ctx := ec_stack
          log := [Event.call (FnPtr.user 2) (Val.obj 2), Event.call FnPtr.free (Val.obj 1),
            Event.stderr
              "with.c:29: str_create: Exception(Generic) Can not allocate a string.\n",
            Event.stderr "Error stack empty: Abort!\n",
            Event.call FnPtr.free (Val.str 64 "Can not allocate a string.")] } := by
  refine ⟨rfl, ?_⟩
  decide

/-! ## The continuation and the winding head around a try -/

/-- An `ec_try` entered in `w`, with blocks that only observe. On the path
without a throw (`bodyN`) and on the path with one (`bodyX`), the block of the
`ec_finally` or of the entered clause starts with `env` and `winding` as they
are in `w`, and the construct ends with `env` and `winding` as they are in
`w`. -/
theorem exec_try_restores (P : Program) (n depth : Nat) (bodyN bodyX : Stmt)
    (id : Nat) (w wN wX : World)
    (hN : exec P (n + 4) (depth + 1) bodyN (try_entry depth w) = Outcome.normal wN)
    (hcN : ∀ f, wN.ctx.error.data_cleanup = some f → Quiet P f wN.ctx.error.data)
    (hX : exec P (n + 4) (depth + 1) bodyX (try_entry depth w) = Outcome.jump wX)
    (heX : wX.ctx.env = some (depth + 1))
    (hcX : ∀ f, wX.ctx.error.data_cleanup = some f → Quiet P f wX.ctx.error.data) :
    (∀ clauses : Clauses Stmt, clauses.finally_block = none →
      exec P (n + 5) depth (Stmt.ec_try bodyN clauses) w =
        Outcome.normal
          { ctx := { env := w.ctx.env, winding := w.ctx.winding, error := wN.ctx.error,
                     place := wN.ctx.place }
            log := wN.log }) ∧
    (∀ clauses : Clauses Stmt, clauses.finally_block = some (Stmt.probe id) →
      exec P (n + 5) depth (Stmt.ec_try bodyN clauses) w =
        Outcome.normal
          { ctx := ec_clean_fields { wN.ctx with env := w.ctx.env, winding := w.ctx.winding }
            log := wN.log
              ++ [Event.probe id
                    { env := w.ctx.env, winding := w.ctx.winding, error := wN.ctx.error,
                      place := wN.ctx.place }]
              ++ cleanup_events wN.ctx.error.data_cleanup wN.ctx.error.data }) ∧
    (∀ clauses : Clauses Stmt, clauses.finally_block = none →
      clauses.select wX.ctx.error.type = some (fun _ => Stmt.probe id) →
      exec P (n + 5) depth (Stmt.ec_try bodyX clauses) w =
        Outcome.normal
          { ctx := ec_clean_fields { wX.ctx with env := w.ctx.env, winding := w.ctx.winding }
            log := wX.log
              ++ [Event.probe id
                    { env := w.ctx.env, winding := w.ctx.winding, error := wX.ctx.error,
                      place := wX.ctx.place }]
              ++ cleanup_events wX.ctx.error.data_cleanup wX.ctx.error.data }) ∧
    (∀ clauses : Clauses Stmt, clauses.finally_block = some (Stmt.probe id) →
      clauses.select wX.ctx.error.type = none →
      exec P (n + 5) depth (Stmt.ec_try bodyX clauses) w =
        Outcome.normal
          { ctx := ec_clean_fields { wX.ctx with env := w.ctx.env, winding := w.ctx.winding }
            log := wX.log
              ++ [Event.probe id
                    { env := w.ctx.env, winding := w.ctx.winding, error := wX.ctx.error,
                      place := wX.ctx.place }]
              ++ cleanup_events wX.ctx.error.data_cleanup wX.ctx.error.data }) ∧
    (∀ s : ec, (ec_clean_fields s).env = s.env ∧ (ec_clean_fields s).winding = s.winding) := by
  refine ⟨?_, ?_, ?_, ?_, fun _ => ⟨rfl, rfl⟩⟩
  · intro clauses hf
    rw [exec_try, hN]
    simp only [hf]
    rfl
  · intro clauses hf
    rw [exec_try, hN]
    simp only [hf]
    rw [exec_probe_clean P n depth _ id (by
      intro f h
      exact hcN f h)]
    rfl
  · intro clauses hf hsel
    rw [exec_try, hX]
    simp only [heX, if_true, ec_type_none, hsel, hf]
    rw [exec_probe_clean P n (depth + 1) _ id (by
      intro f h
      exact hcX f h)]
    rfl
  · intro clauses hf hsel
    rw [exec_try, hX]
    simp only [heX, if_true, ec_type_none, hsel, hf]
    rw [exec_probe_clean P n depth _ id (by
      intro f h
      exact hcX f h)]
    rfl

end EC
